import Mathlib

/-!
# sx-dnn: descriptor resolution and implementation dispatch

A shallow embedding of the descriptor layer of the library
(`src/common/reorder.cpp`, `src/common/primitive_desc.cpp`,
`src/common/batch_normalization_pd.hpp`), of the work partitioning of
`src/vgemm/gemm_utils.cpp`, of the branch selection and logical offsets of
`src/cpu/ve/dev/ref_softmax.cpp` and of the candidate lists of
`src/cpu/ve/cpu_reorder_*.cpp`, together with the properties of them that the
specification states.

Conventions of the embedding.

* A C pointer that may be null is an `Option`; `none` is the null pointer.
* A C array indexed up to `ndims` is a `List`; reading entry `i` is
  `List.getD _ i 0` (a `memory_desc_t()` is zero-initialised).
* `dim_t` values (tensor extents, never negative in a descriptor) are natural
  numbers; arithmetic carried out in `size_t` is taken modulo `2 ^ 64`.
* `int` values are integers, divided with the truncating division of C.
* Status codes, engine kinds, argument identifiers and normalization flags
  carry the values of the public header `dnnl_types.h`.
-/

namespace SxDnn

/-! ## Status codes and small enumerations -/

/-- Status codes of the library (`dnnl_status_t`). -/
inductive status_t where
  | success
  | out_of_memory
  | invalid_arguments
  | unimplemented
  | iterator_ends
  | runtime_error
  | not_required
  deriving DecidableEq, Repr

/-- Kinds of engine (`dnnl_engine_kind_t`). -/
inductive engine_kind_t where
  | any_engine
  | cpu
  | gpu
  deriving DecidableEq, Repr

/-- Data types of a memory descriptor (`dnnl_data_type_t`). -/
inductive data_type_t where
  | undef
  | f16
  | bf16
  | f32
  | s32
  | s8
  | u8
  deriving DecidableEq, Repr

/-- Format kinds of a memory descriptor (`dnnl_format_kind_t`). -/
inductive format_kind_t where
  | undef
  | any
  | blocked
  | wino
  | rnn_packed
  deriving DecidableEq, Repr

/-- The format tags the embedded code passes to
`dnnl_memory_desc_init_by_tag`: the undefined tag, the `any` tag and the plain
rank-1 tag `x`. -/
inductive format_tag_t where
  | undef
  | any
  | x
  deriving DecidableEq, Repr

/-! ## Memory descriptors -/

/-- The memory descriptor (`dnnl_memory_desc_t`): rank, logical sizes, data
type, padded sizes, padding offsets, base offset, format kind and, for the
blocked format, the strides and the inner blocks. -/
structure memory_desc_t where
  ndims : Nat
  dims : List Nat
  data_type : data_type_t
  padded_dims : List Nat
  padded_offsets : List Nat
  offset0 : Nat
  format_kind : format_kind_t
  strides : List Nat
  inner_blks : List Nat
  inner_idxs : List Nat
  deriving DecidableEq, Repr

/-- The zero memory descriptor `glob_zero_md` (`types::zero_md()`): every field
is zero. -/
def glob_zero_md : memory_desc_t :=
  { ndims := 0, dims := [], data_type := data_type_t.undef, padded_dims := [],
    padded_offsets := [], offset0 := 0, format_kind := format_kind_t.undef,
    strides := [], inner_blks := [], inner_idxs := [] }

/-- Modelled from the spec: `utils::array_product` (utils.hpp is not among the
sources), the product of the first `n` entries of an array. -/
def array_product (arr : List Nat) (n : Nat) : Nat :=
  ((List.range n).map (fun i => arr.getD i 0)).prod

/-- Modelled from the spec: `utils::array_cmp` (utils.hpp is not among the
sources), whether two arrays agree on their first `n` entries. -/
def array_cmp (a b : List Nat) (n : Nat) : Bool :=
  (List.range n).all (fun i => a.getD i 0 == b.getD i 0)

/-- Modelled from the spec: `operator==` on memory descriptors (type_helpers.hpp
is not among the sources). Two descriptors are equal when they are structurally
identical: same rank, sizes, data type, padding and physical layout. -/
def memory_desc_t.equal (lhs rhs : memory_desc_t) : Bool :=
  lhs.ndims == rhs.ndims
    && array_cmp lhs.dims rhs.dims lhs.ndims
    && lhs.data_type == rhs.data_type
    && array_cmp lhs.padded_dims rhs.padded_dims lhs.ndims
    && array_cmp lhs.padded_offsets rhs.padded_offsets lhs.ndims
    && lhs.offset0 == rhs.offset0
    && lhs.format_kind == rhs.format_kind
    && (if lhs.format_kind = format_kind_t.blocked then
          array_cmp lhs.strides rhs.strides lhs.ndims
            && lhs.inner_blks == rhs.inner_blks
            && lhs.inner_idxs == rhs.inner_idxs
        else true)

/-- The test `memory_desc_wrapper::is_zero`: the descriptor has rank 0. -/
def memory_desc_t.is_zero (md : memory_desc_t) : Bool :=
  md.ndims == 0

/-- Modelled from the spec: `memory_desc_wrapper::nelems` (memory_desc_wrapper.hpp
is not among the sources). The spec knows one element count of a descriptor,
that of its logical elements (`total_logical_elements` in the rule for the
default workspace): the product of the logical sizes over the rank, and 0 for
the zero descriptor. The argument of the call is kept; the count does not
depend on it. -/
def memory_desc_t.nelems (md : memory_desc_t) (_with_padding : Bool) : Nat :=
  if md.is_zero then 0 else array_product md.dims md.ndims

/-- The number of values of the unsigned 64-bit type `size_t`. -/
def SIZE_T_RANGE : Nat := 2 ^ 64

/-- Modelled from the spec: `utils::div_up` (utils.hpp is not among the
sources), the quotient rounded up, computed as `(a + b - 1) / b`; at the one
place it is used here the arithmetic is that of `size_t`, which wraps. -/
def div_up (a b : Nat) : Nat :=
  ((a + b - 1) % SIZE_T_RANGE) / b

/-- Modelled from the spec: `types::is_zero_md` (type_helpers.hpp is not among
the sources): the pointer is null or points to a descriptor equal to the zero
memory descriptor. -/
def is_zero_md (md : Option memory_desc_t) : Bool :=
  match md with
  | none => true
  | some m => m.equal glob_zero_md

/-- Modelled from the spec: `memory_desc_wrapper::has_zero_dim`
(memory_desc_wrapper.hpp is not among the sources): the descriptor has no
logical element, which a zero-sized dimension brings about. -/
def memory_desc_t.has_zero_dim (md : memory_desc_t) : Bool :=
  md.nelems false == 0

/-- The largest rank of a memory descriptor (`DNNL_MAX_NDIMS`). -/
def DNNL_MAX_NDIMS : Nat := 12

/-- Modelled from the spec: `dnnl_memory_desc_init_by_tag` (memory_desc.cpp is
not among the sources), for the tags of `format_tag_t`. It returns the status
and the descriptor left in `memory_desc`: rank 0 or the undefined tag give the
zero descriptor; an invalid request leaves the descriptor as it was; the `any`
tag gives a descriptor without layout; the tag `x` gives the dense rank-1
layout. -/
def dnnl_memory_desc_init_by_tag (memory_desc : memory_desc_t) (ndims : Nat)
    (dims : List Nat) (data_type : data_type_t) (tag : format_tag_t) :
    status_t × memory_desc_t :=
  if ndims = 0 ∨ tag = format_tag_t.undef then (status_t.success, glob_zero_md)
  else if DNNL_MAX_NDIMS < ndims ∨ data_type = data_type_t.undef then
    (status_t.invalid_arguments, memory_desc)
  else
    let md : memory_desc_t :=
      { ndims := ndims
        dims := dims.take ndims
        data_type := data_type
        padded_dims := dims.take ndims
        padded_offsets := List.replicate ndims 0
        offset0 := 0
        format_kind := format_kind_t.undef
        strides := []
        inner_blks := []
        inner_idxs := [] }
    match tag with
    | format_tag_t.undef => (status_t.invalid_arguments, memory_desc)
    | format_tag_t.any => (status_t.success, { md with format_kind := format_kind_t.any })
    | format_tag_t.x =>
      if ndims = 1 then
        (status_t.success, { md with format_kind := format_kind_t.blocked, strides := [1] })
      else (status_t.invalid_arguments, memory_desc)

/-! ## Engines and the reorder dispatch (`src/common/reorder.cpp`) -/

/-- An engine (`engine_t`): its kind, its runtime kind (the value of
`runtime_kind_t`) and an identifier standing for the object's address. -/
structure engine_t where
  kind : engine_kind_t
  runtime_kind : Nat
  id : Nat
  deriving DecidableEq, Repr

/-- Attributes of a primitive (`primitive_attr_t`), by the length of the
post-operation chain and the scratchpad mode. -/
structure primitive_attr_t where
  post_ops_len : Nat
  scratchpad_mode : Nat
  deriving DecidableEq, Repr

/-- The default attributes `default_attr()`. -/
def default_attr : primitive_attr_t :=
  { post_ops_len := 0, scratchpad_mode := 0 }

/-- A reorder primitive descriptor (`reorder_pd_t`, reorder_pd.hpp is not among
the sources), by the identifier of the implementation that built it and the
configuration it was built for. -/
structure reorder_pd_t where
  impl : Nat
  attr : primitive_attr_t
  src_md : memory_desc_t
  dst_md : memory_desc_t
  deriving DecidableEq, Repr

/-- The handle `reorder_primitive_desc_iface_t`: the descriptor pointer it
wraps and the three engines it is bound to. -/
structure primitive_desc_iface_t where
  pd : Option reorder_pd_t
  engine : engine_t
  src_engine : engine_t
  dst_engine : engine_t
  deriving DecidableEq, Repr

/-- A candidate factory (`rpd_create_f`): called with the executing engine, the
attributes, and the source and destination engines and memory descriptors, it
returns a status and the pointer it left in `reorder_pd` (initially null). -/
abbrev rpd_create_f :=
  engine_t → primitive_attr_t → engine_t → memory_desc_t → engine_t → memory_desc_t →
    status_t × Option reorder_pd_t

/-- The parts of the library the dispatch uses whose code is not among the
sources: the native-runtime test on runtime kinds, the consistency test of
`memory_desc_wrapper`, the candidate array of an engine for a pair of memory
descriptors (`none` is a `nullptr` entry), and whether `operator new` of the
handle class returns memory. -/
structure dispatch_env where
  is_native_runtime : Nat → Bool
  consistent_with : memory_desc_t → memory_desc_t → Bool
  get_reorder_implementation_list :
    engine_t → memory_desc_t → memory_desc_t → List (Option rpd_create_f)
  new_succeeds : Bool

/-- The arguments of `dnnl_reorder_primitive_desc_create`; `reorder_pd_iface`
says whether the pointer to the caller's output handle is non-null. -/
structure reorder_call where
  reorder_pd_iface : Option Unit
  src_md : Option memory_desc_t
  src_engine : Option engine_t
  dst_md : Option memory_desc_t
  dst_engine : Option engine_t
  attr : Option primitive_attr_t

/-- What a call of `dnnl_reorder_primitive_desc_create` does: the status it
returns, the value it wrote to the caller's output handle (`none` when it wrote
nothing), the positions of the candidates it invoked, in order of invocation,
and whether it deleted the descriptor a candidate had built. -/
structure reorder_outcome where
  status : status_t
  written : Option primitive_desc_iface_t
  invoked : List Nat
  deleted : Bool
  deriving DecidableEq, Repr

/-- The function `get_reorder_engine` of reorder.cpp. The two closing
assertions do not change the value returned. -/
def get_reorder_engine (is_native_runtime : Nat → Bool)
    (src_engine dst_engine : engine_t) : engine_t :=
  let s_ek := src_engine.kind
  let d_ek := dst_engine.kind
  let s_rk := src_engine.runtime_kind
  let d_rk := dst_engine.runtime_kind
  if is_native_runtime d_rk then src_engine
  else if is_native_runtime s_rk then dst_engine
  else if d_ek = engine_kind_t.cpu then src_engine
  else if s_ek = engine_kind_t.cpu then dst_engine
  else src_engine

/-- The two closing assertions of `get_reorder_engine`: `none` when the function
returns before reaching them, otherwise the values of the two asserted
conditions `s_ek == engine_kind::gpu` and `d_ek == engine_kind::gpu`. -/
def get_reorder_engine_assertions (is_native_runtime : Nat → Bool)
    (src_engine dst_engine : engine_t) : Option (Bool × Bool) :=
  let s_ek := src_engine.kind
  let d_ek := dst_engine.kind
  let s_rk := src_engine.runtime_kind
  let d_rk := dst_engine.runtime_kind
  if is_native_runtime d_rk then none
  else if is_native_runtime s_rk then none
  else if d_ek = engine_kind_t.cpu then none
  else if s_ek = engine_kind_t.cpu then none
  else some (decide (s_ek = engine_kind_t.gpu), decide (d_ek = engine_kind_t.gpu))

/-- Modelled from the spec: `safe_ptr_assign` (utils.hpp is not among the
sources). A null right-hand side is an allocation failure: it is reported as
`out_of_memory` and nothing is written; otherwise the pointer is written and
the status is `success`. -/
def safe_ptr_assign (rhs : Option primitive_desc_iface_t) :
    status_t × Option primitive_desc_iface_t :=
  match rhs with
  | none => (status_t.out_of_memory, none)
  | some p => (status_t.success, some p)

/-- The loop of `dnnl_reorder_primitive_desc_create` over the candidate array
`r`, the entry at hand having position `pos`, after the candidates `invoked`
have been called. Reading past the end of an array that has no `nullptr` entry
has no defined result (`none`). -/
def reorder_dispatch_loop (new_succeeds : Bool) (e : engine_t) (attr : primitive_attr_t)
    (src_engine : engine_t) (src_md : memory_desc_t) (dst_engine : engine_t)
    (dst_md : memory_desc_t) :
    List (Option rpd_create_f) → Nat → List Nat → Option reorder_outcome
  | [], _, _ => none
  | none :: _, _, invoked =>
    some { status := status_t.unimplemented, written := none, invoked := invoked,
           deleted := false }
  | some r :: rest, pos, invoked =>
    let res := r e attr src_engine src_md dst_engine dst_md
    if res.1 = status_t.success then
      let pd_if : Option primitive_desc_iface_t :=
        if new_succeeds then
          some { pd := res.2, engine := e, src_engine := src_engine, dst_engine := dst_engine }
        else none
      let assigned := safe_ptr_assign pd_if
      some { status := assigned.1, written := assigned.2, invoked := invoked ++ [pos],
             deleted := decide (assigned.1 ≠ status_t.success) }
    else
      reorder_dispatch_loop new_succeeds e attr src_engine src_md dst_engine dst_md
        rest (pos + 1) (invoked ++ [pos])

/-- The function `dnnl_reorder_primitive_desc_create` of reorder.cpp (the
branch `#if 1 // orig` of the engine-kind check). -/
def dnnl_reorder_primitive_desc_create (env : dispatch_env) (c : reorder_call) :
    Option reorder_outcome :=
  match c.reorder_pd_iface, c.src_engine, c.src_md, c.dst_engine, c.dst_md with
  | some _, some src_engine, some src_md, some dst_engine, some dst_md =>
    let s_ek := src_engine.kind
    let d_ek := dst_engine.kind
    if ¬ (s_ek ≠ d_ek → (s_ek = engine_kind_t.cpu ∨ d_ek = engine_kind_t.cpu)) then
      some { status := status_t.invalid_arguments, written := none, invoked := [],
             deleted := false }
    else if ¬ env.consistent_with src_md dst_md then
      some { status := status_t.invalid_arguments, written := none, invoked := [],
             deleted := false }
    else
      let attr := match c.attr with
        | none => default_attr
        | some a => a
      let e := get_reorder_engine env.is_native_runtime src_engine dst_engine
      reorder_dispatch_loop env.new_succeeds e attr src_engine src_md dst_engine dst_md
        (env.get_reorder_implementation_list e src_md dst_md) 0 []
  | _, _, _, _, _ =>
    some { status := status_t.invalid_arguments, written := none, invoked := [],
           deleted := false }

/-! ## Batch-normalization descriptors (`src/common/batch_normalization_pd.hpp`) -/

/-- Propagation kinds (`dnnl_prop_kind_t`). -/
inductive prop_kind_t where
  | undef
  | forward_training
  | forward_inference
  | backward
  | backward_data
  | backward_weights
  | backward_bias
  deriving DecidableEq, Repr

/-- How a primitive uses an argument (`primitive_desc_t::arg_usage_t`). -/
inductive arg_usage_t where
  | unused
  | input
  | output
  deriving DecidableEq, Repr

/-- Argument identifier `DNNL_ARG_SRC`. -/
def DNNL_ARG_SRC : Int := 1
/-- Argument identifier `DNNL_ARG_DST`. -/
def DNNL_ARG_DST : Int := 17
/-- Argument identifier `DNNL_ARG_SCALE_SHIFT` (the first weights argument). -/
def DNNL_ARG_SCALE_SHIFT : Int := 33
/-- Argument identifier `DNNL_ARG_MEAN`. -/
def DNNL_ARG_MEAN : Int := 49
/-- Argument identifier `DNNL_ARG_VARIANCE`. -/
def DNNL_ARG_VARIANCE : Int := 50
/-- Argument identifier `DNNL_ARG_WORKSPACE`. -/
def DNNL_ARG_WORKSPACE : Int := 64
/-- Argument identifier `DNNL_ARG_SCRATCHPAD`. -/
def DNNL_ARG_SCRATCHPAD : Int := 80
/-- Argument identifier `DNNL_ARG_DIFF_SRC`. -/
def DNNL_ARG_DIFF_SRC : Int := 129
/-- Argument identifier `DNNL_ARG_DIFF_DST`. -/
def DNNL_ARG_DIFF_DST : Int := 145
/-- Argument identifier `DNNL_ARG_DIFF_SCALE_SHIFT` (the first diff-weights
argument). -/
def DNNL_ARG_DIFF_SCALE_SHIFT : Int := 161

/-- Normalization flag `dnnl_use_global_stats`. -/
def dnnl_use_global_stats : Nat := 1
/-- Normalization flag `dnnl_use_scaleshift`. -/
def dnnl_use_scaleshift : Nat := 2
/-- Normalization flag `dnnl_fuse_norm_relu`. -/
def dnnl_fuse_norm_relu : Nat := 4

/-- The conversion of a C++ `bool` to `int` in an arithmetic expression. -/
def bool_to_int (b : Bool) : Int :=
  if b then 1 else 0

/-- The operation descriptor `batch_normalization_desc_t` (the fields the
descriptor layer reads; `flags` is the bit mask of normalization flags). -/
structure batch_normalization_desc_t where
  prop_kind : prop_kind_t
  data_desc : memory_desc_t
  diff_data_desc : memory_desc_t
  data_scaleshift_desc : memory_desc_t
  diff_data_scaleshift_desc : memory_desc_t
  stat_desc : memory_desc_t
  flags : Nat
  deriving DecidableEq, Repr

/-- The class `batch_normalization_pd_t`: the attributes and the scratchpad
descriptor of its base `primitive_desc_t`, the copy of the operation descriptor
and the memory descriptors derived from it. The pointer `hint_fwd_pd_` is only
stored by this class; it is an argument of `compare_ws`. -/
structure batch_normalization_pd_t where
  attr_ : primitive_attr_t
  scratchpad_md_ : memory_desc_t
  desc_ : batch_normalization_desc_t
  data_md_ : memory_desc_t
  stat_md_ : memory_desc_t
  scaleshift_md_ : memory_desc_t
  ws_md_ : memory_desc_t
  deriving DecidableEq, Repr

/-- The constructor of `batch_normalization_pd_t`. -/
def batch_normalization_pd_t.create (adesc : batch_normalization_desc_t)
    (attr : primitive_attr_t) : batch_normalization_pd_t :=
  { attr_ := attr
    scratchpad_md_ := glob_zero_md
    desc_ := adesc
    data_md_ := adesc.data_desc
    stat_md_ := adesc.stat_desc
    scaleshift_md_ := adesc.data_scaleshift_desc
    ws_md_ := glob_zero_md }

namespace batch_normalization_pd_t

/-- The accessor `ndims()`. -/
def ndims (pd : batch_normalization_pd_t) : Nat := pd.desc_.data_desc.ndims

/-- The accessor `MB()`. -/
def MB (pd : batch_normalization_pd_t) : Nat := pd.desc_.data_desc.dims.getD 0 0

/-- The accessor `C()`. -/
def C (pd : batch_normalization_pd_t) : Nat := pd.desc_.data_desc.dims.getD 1 0

/-- The accessor `D()`. -/
def D (pd : batch_normalization_pd_t) : Nat :=
  if pd.ndims ≥ 5 then pd.desc_.data_desc.dims.getD (pd.ndims - 3) 0 else 1

/-- The accessor `H()`. -/
def H (pd : batch_normalization_pd_t) : Nat :=
  if pd.ndims ≥ 4 then pd.desc_.data_desc.dims.getD (pd.ndims - 2) 0 else 1

/-- The accessor `W()`. -/
def W (pd : batch_normalization_pd_t) : Nat :=
  if pd.ndims ≥ 3 then pd.desc_.data_desc.dims.getD (pd.ndims - 1) 0 else 1

/-- The flag test `stats_is_src()`. -/
def stats_is_src (pd : batch_normalization_pd_t) : Bool :=
  pd.desc_.flags &&& dnnl_use_global_stats != 0

/-- The flag test `use_scaleshift()`. -/
def use_scaleshift (pd : batch_normalization_pd_t) : Bool :=
  pd.desc_.flags &&& dnnl_use_scaleshift != 0

/-- The flag test `use_global_stats()`. -/
def use_global_stats (pd : batch_normalization_pd_t) : Bool :=
  pd.desc_.flags &&& dnnl_use_global_stats != 0

/-- The flag test `fuse_norm_relu()`. -/
def fuse_norm_relu (pd : batch_normalization_pd_t) : Bool :=
  pd.desc_.flags &&& dnnl_fuse_norm_relu != 0

/-- The test `is_fwd()`. -/
def is_fwd (pd : batch_normalization_pd_t) : Bool :=
  pd.desc_.prop_kind == prop_kind_t.forward_training
    || pd.desc_.prop_kind == prop_kind_t.forward_inference

/-- The test `is_bwd()`. -/
def is_bwd (pd : batch_normalization_pd_t) : Bool := !pd.is_fwd

/-- The test `is_training()`. -/
def is_training (pd : batch_normalization_pd_t) : Bool :=
  pd.desc_.prop_kind == prop_kind_t.forward_training

/-- The method `init_default_ws`: the workspace descriptor becomes what
`dnnl_memory_desc_init_by_tag` leaves in it (its status is not looked at). The
product of the element count by `bits_per_element`, a `size_t`, is a `size_t`
product. -/
def init_default_ws (pd : batch_normalization_pd_t) (bits_per_element : Nat) :
    batch_normalization_pd_t :=
  let data_nelems := pd.data_md_.nelems true
  let bits_per_byte := 8
  let ws_sz := [div_up ((data_nelems * bits_per_element) % SIZE_T_RANGE) bits_per_byte]
  { pd with
    ws_md_ := (dnnl_memory_desc_init_by_tag pd.ws_md_ 1 ws_sz data_type_t.u8 format_tag_t.x).2 }

/-- Modelled from the spec: `primitive_desc_t::arg_usage` (primitive_desc.hpp is
not among the sources), the classification of the base class: the scratchpad
is an output when the descriptor has one, every other argument is unused. -/
def base_arg_usage (pd : batch_normalization_pd_t) (arg : Int) : arg_usage_t :=
  if arg = DNNL_ARG_SCRATCHPAD ∧ ¬ (pd.scratchpad_md_.equal glob_zero_md = true) then
    arg_usage_t.output
  else arg_usage_t.unused

/-- The method `has_zero_dim_memory`. -/
def has_zero_dim_memory (pd : batch_normalization_pd_t) : Bool :=
  pd.desc_.data_desc.has_zero_dim

end batch_normalization_pd_t

/-- The objects a `const memory_desc_t *` returned by a batch-normalization
descriptor points to: a member of the descriptor or the global
`glob_zero_md`. -/
inductive md_ref_t where
  | data_md_
  | stat_md_
  | scaleshift_md_
  | ws_md_
  | scratchpad_md_
  | glob_zero_md
  deriving DecidableEq, Repr

/-- The object a pointer of a descriptor points to. -/
def md_ref_t.deref (pd : batch_normalization_pd_t) : md_ref_t → memory_desc_t
  | md_ref_t.data_md_ => pd.data_md_
  | md_ref_t.stat_md_ => pd.stat_md_
  | md_ref_t.scaleshift_md_ => pd.scaleshift_md_
  | md_ref_t.ws_md_ => pd.ws_md_
  | md_ref_t.scratchpad_md_ => pd.scratchpad_md_
  | md_ref_t.glob_zero_md => SxDnn.glob_zero_md

/-- The class `batch_normalization_fwd_pd_t`. -/
structure batch_normalization_fwd_pd_t extends batch_normalization_pd_t
  deriving DecidableEq, Repr

/-- The constructor of `batch_normalization_fwd_pd_t`. -/
def batch_normalization_fwd_pd_t.create (adesc : batch_normalization_desc_t)
    (attr : primitive_attr_t) : batch_normalization_fwd_pd_t :=
  { tobatch_normalization_pd_t := batch_normalization_pd_t.create adesc attr }

namespace batch_normalization_fwd_pd_t

/-- The method `init_default_ws`, inherited from `batch_normalization_pd_t`. -/
def init_default_ws (pd : batch_normalization_fwd_pd_t) (bits_per_element : Nat) :
    batch_normalization_fwd_pd_t :=
  { tobatch_normalization_pd_t := pd.tobatch_normalization_pd_t.init_default_ws bits_per_element }

/-- The method `arg_usage` of the forward descriptor. -/
def arg_usage (pd : batch_normalization_fwd_pd_t) (arg : Int) : arg_usage_t :=
  if arg = DNNL_ARG_SRC then arg_usage_t.input
  else if arg = DNNL_ARG_DST then arg_usage_t.output
  else if arg = DNNL_ARG_MEAN ∨ arg = DNNL_ARG_VARIANCE then
    if pd.stats_is_src then arg_usage_t.input
    else if !pd.stats_is_src && pd.is_training then arg_usage_t.output
    else arg_usage_t.unused
  else if arg = DNNL_ARG_SCALE_SHIFT ∧ pd.use_scaleshift = true then arg_usage_t.input
  else if arg = DNNL_ARG_WORKSPACE ∧ pd.is_training = true ∧ pd.fuse_norm_relu = true then
    arg_usage_t.output
  else pd.base_arg_usage arg

/-- The method `src_md` of the forward descriptor (the object pointed to). -/
def src_md (pd : batch_normalization_fwd_pd_t) (index : Int) : memory_desc_t :=
  if index = 0 then pd.data_md_
  else if pd.stats_is_src = true ∧ (index = 1 ∨ index = 2) then pd.stat_md_
  else glob_zero_md

/-- The method `dst_md` of the forward descriptor (the object pointed to). -/
def dst_md (pd : batch_normalization_fwd_pd_t) (index : Int) : memory_desc_t :=
  if index = 0 then pd.data_md_
  else if pd.stats_is_src = false ∧ pd.is_training = true ∧ (index = 1 ∨ index = 2) then
    pd.stat_md_
  else glob_zero_md

/-- The method `weights_md` of the forward descriptor (the object pointed to). -/
def weights_md (pd : batch_normalization_fwd_pd_t) (index : Int) : memory_desc_t :=
  if index = 0 then pd.scaleshift_md_ else glob_zero_md

/-- The method `workspace_md` of the forward descriptor (the object pointed to:
the pointer returned is the address of `ws_md_` or of `glob_zero_md`). -/
def workspace_md (pd : batch_normalization_fwd_pd_t) (index : Int) : memory_desc_t :=
  if index = 0 ∧ pd.is_training = true ∧ pd.fuse_norm_relu = true then pd.ws_md_
  else glob_zero_md

/-- The method `src_md` of the forward descriptor, as the pointer returned. -/
def src_md_ref (pd : batch_normalization_fwd_pd_t) (index : Int) : md_ref_t :=
  if index = 0 then md_ref_t.data_md_
  else if pd.stats_is_src = true ∧ (index = 1 ∨ index = 2) then md_ref_t.stat_md_
  else md_ref_t.glob_zero_md

/-- The method `dst_md` of the forward descriptor, as the pointer returned. -/
def dst_md_ref (pd : batch_normalization_fwd_pd_t) (index : Int) : md_ref_t :=
  if index = 0 then md_ref_t.data_md_
  else if pd.stats_is_src = false ∧ pd.is_training = true ∧ (index = 1 ∨ index = 2) then
    md_ref_t.stat_md_
  else md_ref_t.glob_zero_md

/-- The method `weights_md` of the forward descriptor, as the pointer
returned. -/
def weights_md_ref (_pd : batch_normalization_fwd_pd_t) (index : Int) : md_ref_t :=
  if index = 0 then md_ref_t.scaleshift_md_ else md_ref_t.glob_zero_md

/-- The method `arg_md` of the forward descriptor, as the pointer returned. The
`default` label of its `switch` calls `batch_normalization_pd_t::arg_md`,
inherited from `primitive_desc_t` (primitive_desc.hpp is not among the
sources): `base_arg_md` is that method. -/
def arg_md (base_arg_md : Int → md_ref_t) (pd : batch_normalization_fwd_pd_t) (arg : Int) :
    md_ref_t :=
  if arg = DNNL_ARG_SRC then pd.src_md_ref 0
  else if arg = DNNL_ARG_DST then pd.dst_md_ref 0
  else if arg = DNNL_ARG_MEAN then
    if pd.stats_is_src then pd.src_md_ref 1 else pd.dst_md_ref 1
  else if arg = DNNL_ARG_VARIANCE then
    if pd.stats_is_src then pd.src_md_ref 2 else pd.dst_md_ref 2
  else if arg = DNNL_ARG_SCALE_SHIFT then pd.weights_md_ref 0
  else base_arg_md arg

/-- The method `n_inputs` of the forward descriptor. -/
def n_inputs (pd : batch_normalization_fwd_pd_t) : Int :=
  1 + 2 * bool_to_int pd.stats_is_src + bool_to_int pd.use_scaleshift

/-- The method `n_outputs` of the forward descriptor. -/
def n_outputs (pd : batch_normalization_fwd_pd_t) : Int :=
  1 + (bool_to_int pd.fuse_norm_relu + 2 * bool_to_int (!pd.stats_is_src))
        * bool_to_int pd.is_training

end batch_normalization_fwd_pd_t

/-- The class `batch_normalization_bwd_pd_t`. -/
structure batch_normalization_bwd_pd_t extends batch_normalization_pd_t where
  diff_data_md_ : memory_desc_t
  diff_scaleshift_md_ : memory_desc_t
  deriving DecidableEq, Repr

/-- The constructor of `batch_normalization_bwd_pd_t`. -/
def batch_normalization_bwd_pd_t.create (adesc : batch_normalization_desc_t)
    (attr : primitive_attr_t) : batch_normalization_bwd_pd_t :=
  { tobatch_normalization_pd_t := batch_normalization_pd_t.create adesc attr
    diff_data_md_ := adesc.diff_data_desc
    diff_scaleshift_md_ := adesc.diff_data_scaleshift_desc }

namespace batch_normalization_bwd_pd_t

/-- The method `init_default_ws`, inherited from `batch_normalization_pd_t`. -/
def init_default_ws (pd : batch_normalization_bwd_pd_t) (bits_per_element : Nat) :
    batch_normalization_bwd_pd_t :=
  { pd with
    tobatch_normalization_pd_t := pd.tobatch_normalization_pd_t.init_default_ws bits_per_element }

/-- The method `arg_usage` of the backward descriptor. -/
def arg_usage (pd : batch_normalization_bwd_pd_t) (arg : Int) : arg_usage_t :=
  if arg = DNNL_ARG_SRC ∨ arg = DNNL_ARG_MEAN ∨ arg = DNNL_ARG_VARIANCE
      ∨ arg = DNNL_ARG_DIFF_DST then arg_usage_t.input
  else if arg = DNNL_ARG_SCALE_SHIFT ∧ pd.use_scaleshift = true then arg_usage_t.input
  else if arg = DNNL_ARG_WORKSPACE ∧ pd.fuse_norm_relu = true then arg_usage_t.input
  else if arg = DNNL_ARG_DIFF_SRC then arg_usage_t.output
  else if arg = DNNL_ARG_DIFF_SCALE_SHIFT ∧ pd.use_scaleshift = true then arg_usage_t.output
  else pd.base_arg_usage arg

/-- The method `workspace_md` of the backward descriptor (the object pointed
to: the pointer returned is the address of `ws_md_` or of `glob_zero_md`). -/
def workspace_md (pd : batch_normalization_bwd_pd_t) (index : Int) : memory_desc_t :=
  if index = 0 ∧ pd.fuse_norm_relu = true then pd.ws_md_ else glob_zero_md

/-- The method `src_md` of the backward descriptor (the object pointed to). -/
def src_md (pd : batch_normalization_bwd_pd_t) (index : Int) : memory_desc_t :=
  if index = 0 then pd.data_md_ else if index ≤ 2 then pd.stat_md_ else glob_zero_md

/-- The method `diff_dst_md` of the backward descriptor (the object pointed
to). -/
def diff_dst_md (pd : batch_normalization_bwd_pd_t) (index : Int) : memory_desc_t :=
  if index = 0 then pd.diff_data_md_ else glob_zero_md

/-- The method `diff_src_md` of the backward descriptor (the object pointed
to). -/
def diff_src_md (pd : batch_normalization_bwd_pd_t) (index : Int) : memory_desc_t :=
  if index = 0 then pd.diff_data_md_ else glob_zero_md

/-- The method `weights_md` of the backward descriptor (the object pointed
to). -/
def weights_md (pd : batch_normalization_bwd_pd_t) (index : Int) : memory_desc_t :=
  if index = 0 then pd.scaleshift_md_ else glob_zero_md

/-- The method `diff_weights_md` of the backward descriptor (the object pointed
to). -/
def diff_weights_md (pd : batch_normalization_bwd_pd_t) (index : Int) : memory_desc_t :=
  if index = 0 then pd.diff_scaleshift_md_ else glob_zero_md

/-- The method `n_inputs` of the backward descriptor. -/
def n_inputs (pd : batch_normalization_bwd_pd_t) : Int :=
  4 + bool_to_int pd.use_scaleshift + bool_to_int pd.fuse_norm_relu

/-- The method `n_outputs` of the backward descriptor; `diff_weights_md()` is
called with its default index 0 and returns a non-null pointer. -/
def n_outputs (pd : batch_normalization_bwd_pd_t) : Int :=
  1 + bool_to_int (!is_zero_md (some (pd.diff_weights_md 0)))

end batch_normalization_bwd_pd_t

/-! ## The workspace comparison (`src/common/primitive_desc.cpp`) -/

/-- A primitive descriptor seen through the base class `primitive_desc_t`: a
forward or a backward batch-normalization descriptor, or a descriptor of
another class, given by the pointer its `workspace_md()` override returns. -/
inductive primitive_desc_t where
  | bnorm_fwd (pd : batch_normalization_fwd_pd_t)
  | bnorm_bwd (pd : batch_normalization_bwd_pd_t)
  | other (ws : Option memory_desc_t)
  deriving DecidableEq, Repr

/-- The virtual method `workspace_md(index)`, as a pointer. -/
def primitive_desc_t.workspace_md (pd : primitive_desc_t) (index : Int) :
    Option memory_desc_t :=
  match pd with
  | primitive_desc_t.bnorm_fwd p => some (p.workspace_md index)
  | primitive_desc_t.bnorm_bwd p => some (p.workspace_md index)
  | primitive_desc_t.other ws => if index = 0 then ws else some glob_zero_md

/-- The method `primitive_desc_t::compare_ws` as compiled under `__ve`: the
result is held in the flag `equal`. -/
def primitive_desc_t.compare_ws_ve (pd : primitive_desc_t) (fwd_pd : Option primitive_desc_t) :
    Bool :=
  match pd.workspace_md 0 with
  | none => true
  | some ws =>
    let equal := false
    match fwd_pd with
    | none => equal
    | some f =>
      match f.workspace_md 0 with
      | none => equal
      | some fwd_ws => fwd_ws.equal ws

/-- The method `primitive_desc_t::compare_ws` as compiled elsewhere: the
short-circuit conjunction. -/
def primitive_desc_t.compare_ws_generic (pd : primitive_desc_t)
    (fwd_pd : Option primitive_desc_t) : Bool :=
  match pd.workspace_md 0 with
  | none => true
  | some ws =>
    fwd_pd.isSome
      && ((fwd_pd.bind (fun f => f.workspace_md 0)).isSome
        && ((fwd_pd.bind (fun f => f.workspace_md 0)).map (fun w => w.equal ws)).getD false)

/-- The method `primitive_desc_t::compare_ws`; `ve` selects the branch of the
preprocessor conditional `defined(__ve)`. -/
def primitive_desc_t.compare_ws (ve : Bool) (pd : primitive_desc_t)
    (fwd_pd : Option primitive_desc_t) : Bool :=
  if ve then pd.compare_ws_ve fwd_pd else pd.compare_ws_generic fwd_pd

/-! ## Work partitioning (`src/vgemm/gemm_utils.cpp`) -/

/-- The function `partition_unit_diff` of gemm_utils.cpp: the pair
`(*t_offset, *t_block)` it stores for thread `ithr` of `nthr` over `n` values.
The `int` division is the truncating one; for `0 <= ithr < nthr` and `n >= 0`
no intermediate value exceeds `max n nthr`, so the `int` arithmetic is exact. -/
def partition_unit_diff (ithr nthr n : Int) : Int × Int :=
  let band := Int.tdiv n nthr
  let band := if band = 0 then 1 else band
  let tail := n - band * nthr
  let tail := if tail < 0 then 0 else tail
  let first : Int × Int :=
    if ithr < tail then ((band + 1) * ithr, band + 1)
    else (band * ithr + tail, band)
  let second : Int × Int := if first.1 ≥ n then (0, 0) else first
  if second.1 + second.2 > n then (second.1, n - second.1) else second

/-- The closed form the specification gives for the partition
(`band = n / nthreads`, the excess distributed one per thread to the first
`tail = n % nthreads` workers): the position where the range of worker `k`
starts, which is also where the range of worker `k - 1` ends. -/
def partition_start (nthr n k : Int) : Int :=
  k * (n / nthr) + min k (n % nthr)

/-! ## Machine integers -/

/-- The value of an `int` expression whose value over the integers is `x`, on
the 32-bit two's complement machine: `x` reduced modulo 2^32 into the range
from -2^31 to 2^31 - 1. -/
def wrap_int (x : Int) : Int :=
  (x + 2147483648) % 4294967296 - 2147483648

/-! ## The generic softmax kernels (`src/cpu/ve/dev/ref_softmax.cpp`) -/

/-- The compile-time switch `WHICH`. -/
def WHICH : Int := 2

/-- The constant `MVL`, the largest vector length. -/
def MVL : Int := 256

/-- The constant `MEDIUM`, `16*MVL`. -/
def MEDIUM : Int := 16 * MVL

/-- The code paths of `execute_forward_generic` for one `(ou, in)` pair. -/
inductive softmax_branch where
  | no_channels
  | short
  | medium
  | blocked
  deriving DecidableEq, Repr

/-- The branch `execute_forward_generic` takes for a channel count, as a
function of the value of the switch `WHICH`: the chain of `if` / `else if`
under `VE_FWD_GEN`. -/
def execute_forward_generic_branch (which channels_ : Int) : softmax_branch :=
  if channels_ = 0 then softmax_branch.no_channels
  else if which ≥ 0 ∧ channels_ ≤ MVL then softmax_branch.short
  else if which ≥ 1 ∧ channels_ ≤ MEDIUM then softmax_branch.medium
  else softmax_branch.blocked

/-- The logical offset the generic softmax kernels compute for the outer index
`ou`, the inner index `in_` and the channel `c`:
`ou_in_offset = ou * channels_ * inner_size_ + in` and then
`ou_in_offset + c * inner_size_`. The values are offsets into a tensor, inside
the range of `dim_t`. -/
def softmax_l_off (channels_ inner_size_ ou in_ c : Nat) : Nat :=
  let ou_in_offset := ou * channels_ * inner_size_ + in_
  ou_in_offset + c * inner_size_

/-- The block length `cmax` as the first two passes of the blocked branch of
`execute_forward_generic` compute it:
`channels_ - c0 > MEDIUM ? MEDIUM : channels_ - c0`. -/
def cmax_by_remainder (channels_ c0 : Int) : Int :=
  if channels_ - c0 > MEDIUM then MEDIUM else channels_ - c0

/-- The block length `cmax` as the third pass of the blocked branch of
`execute_forward_generic` and the two passes of `execute_backward_generic`
compute it: `c0 < channels_ - MEDIUM ? MEDIUM : channels_ - c0`. -/
def cmax_by_start (channels_ c0 : Int) : Int :=
  if c0 < channels_ - MEDIUM then MEDIUM else channels_ - c0

/-- The logical offsets a pass of the blocked branch computes, in the order it
computes them: the loop `for (int c0 = 0; c0 < channels_; c0 += MEDIUM)` from
the block start `c0` on, whose inner loop `for (int c = 0; c < cmax; ++c)`
computes `ou_in_offset + (c0 + c) * inner_size_`. `cmax` is the block-length
expression of the pass. `c0` and `c` are `int`, so the sums `c0 + MEDIUM` and
`c0 + c` wrap; `channels_`, `inner_size_` and `ou_in_offset` are values of
types declared in ref_softmax.hpp, which is not among the sources, and the
arithmetic on them is that of the integers. `fuel` bounds the number of
blocks: the result is `none` when the loop has not ended within it. -/
def blocked_pass_offsets (cmax : Int → Int → Int) (channels_ inner_size_ ou_in_offset : Int) :
    Nat → Int → Option (List Int)
  | 0, c0 => if c0 < channels_ then none else some []
  | fuel + 1, c0 =>
    if c0 < channels_ then
      (blocked_pass_offsets cmax channels_ inner_size_ ou_in_offset fuel
          (wrap_int (c0 + MEDIUM))).map
        (fun rest =>
          (List.range (cmax channels_ c0).toNat).map
              (fun (c : Nat) => ou_in_offset + wrap_int (c0 + (c : Int)) * inner_size_)
            ++ rest)
    else some []

/-- The logical offsets a pass of the original loop computes, in order:
`for (int c = 0; c < channels_; c++)` with `ou_in_offset + c * inner_size_`. -/
def original_pass_offsets (channels_ inner_size_ ou_in_offset : Int) : List Int :=
  (List.range channels_.toNat).map (fun (c : Nat) => ou_in_offset + (c : Int) * inner_size_)

/-! ## The CPU reorder candidate lists (`src/cpu/ve/cpu_reorder_*.cpp`) -/

/-- The layout tags named in the candidate lists. -/
inductive reorder_tag_t where
  | any
  | nChw16c
  | wio
  | oiw
  | OIw4i16o4i
  | OIw2i8o4i
  | OIw4o4i
  | dhwigo
  | goidhw
  | gOIdhw4i16o4i
  | gOIdhw2i8o4i
  | gOIdhw4o4i
  deriving DecidableEq, Repr

/-- The values of `fmt_order` named in the candidate lists. -/
inductive fmt_order_t where
  | any
  | keep
  | reverse
  deriving DecidableEq, Repr

/-- The values of `spec` named in the candidate lists. -/
inductive reorder_spec_t where
  | reference
  | conv_s8s8
  deriving DecidableEq, Repr

/-- An entry of a candidate list as the source writes it: one of the
registration macros `REG_FAST_DIRECT_COPY_COMMA(sdt, ddt)`,
`DNNL_X64_ONLY(x64::jit_uni_reorder_create,)`,
`REG_SR_BIDIR(idt, ifmt, odt, ofmt)`,
`REG_SR(idt, ifmt, odt, ofmt, order, spec)`, or the `nullptr` terminator. -/
inductive reorder_entry_t where
  | fast_direct_copy (sdt ddt : data_type_t)
  | x64_only_jit
  | sr_bidir (idt : data_type_t) (ifmt : reorder_tag_t) (odt : data_type_t)
      (ofmt : reorder_tag_t)
  | sr (idt : data_type_t) (ifmt : reorder_tag_t) (odt : data_type_t) (ofmt : reorder_tag_t)
      (order : fmt_order_t) (spec : reorder_spec_t)
  | null
  deriving DecidableEq, Repr

/-- The list `f32_s32_0` of cpu_reorder_f32_s32_0.cpp. -/
def f32_s32_0 : List reorder_entry_t :=
  [ reorder_entry_t.fast_direct_copy data_type_t.f32 data_type_t.s32,
    reorder_entry_t.x64_only_jit,
    reorder_entry_t.sr_bidir data_type_t.f32 reorder_tag_t.any data_type_t.s32
      reorder_tag_t.nChw16c,
    reorder_entry_t.sr data_type_t.f32 reorder_tag_t.any data_type_t.s32 reorder_tag_t.any
      fmt_order_t.any reorder_spec_t.reference,
    reorder_entry_t.null ]

/-- The list `s32_undef_0` of cpu_reorder_s32_undef_0.cpp. -/
def s32_undef_0 : List reorder_entry_t :=
  [ reorder_entry_t.fast_direct_copy data_type_t.s32 data_type_t.f32,
    reorder_entry_t.fast_direct_copy data_type_t.s32 data_type_t.s32,
    reorder_entry_t.fast_direct_copy data_type_t.s32 data_type_t.s8,
    reorder_entry_t.fast_direct_copy data_type_t.s32 data_type_t.u8,
    reorder_entry_t.x64_only_jit,
    reorder_entry_t.sr_bidir data_type_t.s32 reorder_tag_t.any data_type_t.f32
      reorder_tag_t.nChw16c,
    reorder_entry_t.sr_bidir data_type_t.s32 reorder_tag_t.any data_type_t.s32
      reorder_tag_t.nChw16c,
    reorder_entry_t.sr_bidir data_type_t.s32 reorder_tag_t.any data_type_t.s8
      reorder_tag_t.nChw16c,
    reorder_entry_t.sr_bidir data_type_t.s32 reorder_tag_t.any data_type_t.u8
      reorder_tag_t.nChw16c,
    reorder_entry_t.sr data_type_t.s32 reorder_tag_t.any data_type_t.f32 reorder_tag_t.any
      fmt_order_t.any reorder_spec_t.reference,
    reorder_entry_t.sr data_type_t.s32 reorder_tag_t.any data_type_t.s32 reorder_tag_t.any
      fmt_order_t.any reorder_spec_t.reference,
    reorder_entry_t.sr data_type_t.s32 reorder_tag_t.any data_type_t.s8 reorder_tag_t.any
      fmt_order_t.any reorder_spec_t.reference,
    reorder_entry_t.sr data_type_t.s32 reorder_tag_t.any data_type_t.u8 reorder_tag_t.any
      fmt_order_t.any reorder_spec_t.reference,
    reorder_entry_t.null ]

/-- The list `f32_s8_3` of cpu_reorder_f32_s8_3.cpp (the vector the function
of that name returns). -/
def f32_s8_3 : List reorder_entry_t :=
  [ reorder_entry_t.sr data_type_t.f32 reorder_tag_t.any data_type_t.s8 reorder_tag_t.wio
      fmt_order_t.keep reorder_spec_t.conv_s8s8,
    reorder_entry_t.sr data_type_t.f32 reorder_tag_t.oiw data_type_t.s8
      reorder_tag_t.OIw4i16o4i fmt_order_t.keep reorder_spec_t.conv_s8s8,
    reorder_entry_t.sr data_type_t.f32 reorder_tag_t.wio data_type_t.s8
      reorder_tag_t.OIw4i16o4i fmt_order_t.keep reorder_spec_t.conv_s8s8,
    reorder_entry_t.sr data_type_t.f32 reorder_tag_t.oiw data_type_t.s8
      reorder_tag_t.OIw2i8o4i fmt_order_t.keep reorder_spec_t.conv_s8s8,
    reorder_entry_t.sr data_type_t.f32 reorder_tag_t.wio data_type_t.s8
      reorder_tag_t.OIw2i8o4i fmt_order_t.keep reorder_spec_t.conv_s8s8,
    reorder_entry_t.sr data_type_t.f32 reorder_tag_t.oiw data_type_t.s8
      reorder_tag_t.OIw4o4i fmt_order_t.keep reorder_spec_t.conv_s8s8,
    reorder_entry_t.sr data_type_t.f32 reorder_tag_t.wio data_type_t.s8
      reorder_tag_t.OIw4o4i fmt_order_t.keep reorder_spec_t.conv_s8s8,
    reorder_entry_t.null ]

/-- The list `s8_s8_6` of cpu_reorder_s8_s8_6.cpp. -/
def s8_s8_6 : List reorder_entry_t :=
  [ reorder_entry_t.sr data_type_t.s8 reorder_tag_t.any data_type_t.s8 reorder_tag_t.dhwigo
      fmt_order_t.keep reorder_spec_t.conv_s8s8,
    reorder_entry_t.sr data_type_t.s8 reorder_tag_t.goidhw data_type_t.s8
      reorder_tag_t.gOIdhw4i16o4i fmt_order_t.keep reorder_spec_t.conv_s8s8,
    reorder_entry_t.sr data_type_t.s8 reorder_tag_t.goidhw data_type_t.s8
      reorder_tag_t.gOIdhw2i8o4i fmt_order_t.keep reorder_spec_t.conv_s8s8,
    reorder_entry_t.sr data_type_t.s8 reorder_tag_t.goidhw data_type_t.s8
      reorder_tag_t.gOIdhw4o4i fmt_order_t.keep reorder_spec_t.conv_s8s8,
    reorder_entry_t.null ]

/-- Whether an entry is a direct-copy fast path. -/
def reorder_entry_t.is_direct_copy : reorder_entry_t → Bool
  | reorder_entry_t.fast_direct_copy _ _ => true
  | _ => false

/-- Whether an entry is a blocked-layout registration (`REG_SR_BIDIR`). -/
def reorder_entry_t.is_blocked : reorder_entry_t → Bool
  | reorder_entry_t.sr_bidir _ _ _ _ => true
  | _ => false

/-- Whether an entry is a reference registration (`spec::reference`). -/
def reorder_entry_t.is_reference : reorder_entry_t → Bool
  | reorder_entry_t.sr _ _ _ _ _ reorder_spec_t.reference => true
  | _ => false

/-- The array of factories a list compiles to. The registration macros are
defined in cpu_reorder_split.hpp, which is not among the sources: `factories`
gives the factories each macro entry expands to, in order (none when the macro
expands to nothing on the platform); the terminator is a `nullptr` entry. -/
def reorder_candidate_array (factories : reorder_entry_t → List rpd_create_f)
    (list : List reorder_entry_t) : List (Option rpd_create_f) :=
  list.flatMap (fun e =>
    match e with
    | reorder_entry_t.null => [none]
    | _ => (factories e).map some)

/-! ## Thread counts of the no-copy GEMM (`src/vgemm/gemm_utils.cpp`) -/

/-- The value of `(int)sqrt((double)nthr)` for `nthr` in the range of `int`: the
greatest integer whose square does not exceed `nthr`. -/
def int_sqrt (nthr : Int) : Int :=
  (Nat.findGreatest (fun r => r * r ≤ nthr.toNat) nthr.toNat : Nat)

/-- A value of `ratio` (lines 227-233): the larger count divided by the
smaller, truncated. The floating-point computation of the source gives this
value or a neighbour of it. -/
def exact_ratio (nthr_m nthr_n : Int) : Int :=
  if nthr_m > nthr_n then nthr_m.tdiv nthr_n else nthr_n.tdiv nthr_m

/-- A candidate that accepts every request and builds the descriptor of
implementation `n`. -/
def accepting_candidate (n : Nat) : rpd_create_f :=
  fun _ attr _ src_md _ dst_md =>
    (status_t.success, some { impl := n, attr := attr, src_md := src_md, dst_md := dst_md })

/-- A candidate that declines every request with the status `st`. -/
def declining_candidate (st : status_t) : rpd_create_f :=
  fun _ _ _ _ _ _ => (st, none)

/-- A host engine with the non-native runtime kind 4. -/
def example_cpu_engine_non_native : engine_t :=
  { kind := engine_kind_t.cpu, runtime_kind := 4, id := 1 }

/-- An accelerator engine with the non-native runtime kind 4. -/
def example_gpu_engine : engine_t :=
  { kind := engine_kind_t.gpu, runtime_kind := 4, id := 2 }

/-- A second accelerator engine with the non-native runtime kind 4. -/
def example_gpu_engine_b : engine_t :=
  { kind := engine_kind_t.gpu, runtime_kind := 4, id := 3 }

/-- A second host engine with runtime kind 1. -/
def example_cpu_engine_b : engine_t :=
  { kind := engine_kind_t.cpu, runtime_kind := 1, id := 4 }

/-- A host engine with runtime kind 1. -/
def example_cpu_engine : engine_t :=
  { kind := engine_kind_t.cpu, runtime_kind := 1, id := 0 }

/-- An environment in which runtime kind 1 is native, descriptors of the same
rank are consistent, and every engine has the candidate array `list`. -/
def example_env (list : List (Option rpd_create_f)) (new_succeeds : Bool) : dispatch_env :=
  { is_native_runtime := fun k => k == 1
    consistent_with := fun a b => a.ndims == b.ndims
    get_reorder_implementation_list := fun _ _ _ => list
    new_succeeds := new_succeeds }

/-- A rank-2 descriptor of logical sizes 2 x 3 whose second dimension is padded
to the block size 16. -/
def example_padded_md : memory_desc_t :=
  { ndims := 2, dims := [2, 3], data_type := data_type_t.f32, padded_dims := [2, 16],
    padded_offsets := [0, 0], offset0 := 0, format_kind := format_kind_t.blocked,
    strides := [16, 1], inner_blks := [], inner_idxs := [] }

/-- A dense rank-2 descriptor of sizes 2 x 16. -/
def example_wide_md : memory_desc_t :=
  { ndims := 2, dims := [2, 16], data_type := data_type_t.f32, padded_dims := [2, 16],
    padded_offsets := [0, 0], offset0 := 0, format_kind := format_kind_t.blocked,
    strides := [16, 1], inner_blks := [], inner_idxs := [] }

/-- A dense rank-1 descriptor of 2^61 elements. -/
def example_huge_md : memory_desc_t :=
  { ndims := 1, dims := [2305843009213693952], data_type := data_type_t.f32,
    padded_dims := [2305843009213693952], padded_offsets := [0], offset0 := 0,
    format_kind := format_kind_t.blocked, strides := [1], inner_blks := [], inner_idxs := [] }

/-- A dense rank-2 descriptor of sizes 2 x 3. -/
def example_plain_md : memory_desc_t :=
  { ndims := 2, dims := [2, 3], data_type := data_type_t.f32, padded_dims := [2, 3],
    padded_offsets := [0, 0], offset0 := 0, format_kind := format_kind_t.blocked,
    strides := [3, 1], inner_blks := [], inner_idxs := [] }

/-- A batch-normalization operation descriptor over the data descriptor `md`. -/
def example_bnorm_desc (prop_kind : prop_kind_t) (md : memory_desc_t) (flags : Nat) :
    batch_normalization_desc_t :=
  { prop_kind := prop_kind, data_desc := md, diff_data_desc := md,
    data_scaleshift_desc := glob_zero_md, diff_data_scaleshift_desc := glob_zero_md,
    stat_desc := glob_zero_md, flags := flags }

/-- A backward batch-normalization operation descriptor over the dense 2 x 3
data with the scale-shift descriptors given. -/
def example_bwd_desc (prop_kind : prop_kind_t) (diff_scaleshift : memory_desc_t)
    (flags : Nat) : batch_normalization_desc_t :=
  { prop_kind := prop_kind, data_desc := example_plain_md, diff_data_desc := example_plain_md,
    data_scaleshift_desc := example_plain_md, diff_data_scaleshift_desc := diff_scaleshift,
    stat_desc := glob_zero_md, flags := flags }

/-- An expansion of the registration macros in which the direct copy from s32
to s32 is implementation 1, the reference reorder from s32 to s32 is
implementation 2, both accepting every request, and every other entry has one
factory that declines. -/
def example_factories : reorder_entry_t → List rpd_create_f
  | reorder_entry_t.fast_direct_copy data_type_t.s32 data_type_t.s32 =>
    [accepting_candidate 1]
  | reorder_entry_t.sr data_type_t.s32 reorder_tag_t.any data_type_t.s32 reorder_tag_t.any
      fmt_order_t.any reorder_spec_t.reference => [accepting_candidate 2]
  | _ => [declining_candidate status_t.unimplemented]

/-! ## Properties of the reorder dispatch -/

/-- One step of the loop at a non-null entry that declines: the search moves to
the next entry. -/
theorem reorder_dispatch_loop_step (new_succeeds : Bool) (e : engine_t)
    (attr : primitive_attr_t) (src_engine : engine_t) (src_md : memory_desc_t)
    (dst_engine : engine_t) (dst_md : memory_desc_t) (g : rpd_create_f)
    (rest : List (Option rpd_create_f)) (pos : Nat) (invoked : List Nat)
    (hg : (g e attr src_engine src_md dst_engine dst_md).1 ≠ status_t.success) :
    reorder_dispatch_loop new_succeeds e attr src_engine src_md dst_engine dst_md
        (some g :: rest) pos invoked
      = reorder_dispatch_loop new_succeeds e attr src_engine src_md dst_engine dst_md
          rest (pos + 1) (invoked ++ [pos]) := by
  simp [reorder_dispatch_loop, hg]

/-- The loop over a candidate array whose entries up to a first accepting one
all decline: it calls exactly those entries, in order, and hands the descriptor
of the accepting one to the handle assignment. -/
theorem reorder_dispatch_loop_accept (new_succeeds : Bool) (e : engine_t)
    (attr : primitive_attr_t) (src_engine : engine_t) (src_md : memory_desc_t)
    (dst_engine : engine_t) (dst_md : memory_desc_t) (r : rpd_create_f)
    (post : List (Option rpd_create_f))
    (hr : (r e attr src_engine src_md dst_engine dst_md).1 = status_t.success) :
    ∀ (pre : List rpd_create_f) (pos : Nat) (invoked : List Nat),
      (∀ g ∈ pre, (g e attr src_engine src_md dst_engine dst_md).1 ≠ status_t.success) →
      reorder_dispatch_loop new_succeeds e attr src_engine src_md dst_engine dst_md
          (pre.map some ++ some r :: post) pos invoked
        = some
            { status := if new_succeeds then status_t.success else status_t.out_of_memory
              written :=
                if new_succeeds then
                  some { pd := (r e attr src_engine src_md dst_engine dst_md).2, engine := e,
                         src_engine := src_engine, dst_engine := dst_engine }
                else none
              invoked := invoked ++ List.range' pos (pre.length + 1)
              deleted := !new_succeeds } := by
  intro pre
  induction pre with
  | nil =>
    intro pos invoked _
    cases new_succeeds <;> simp [reorder_dispatch_loop, hr, safe_ptr_assign]
  | cons g pre ih =>
    intro pos invoked hpre
    have hg : (g e attr src_engine src_md dst_engine dst_md).1 ≠ status_t.success :=
      hpre g (List.mem_cons_self g pre)
    have hrest : ∀ h ∈ pre,
        (h e attr src_engine src_md dst_engine dst_md).1 ≠ status_t.success :=
      fun h hh => hpre h (List.mem_cons_of_mem g hh)
    rw [List.map_cons, List.cons_append, reorder_dispatch_loop_step _ _ _ _ _ _ _ _ _ _ _ hg,
      ih (pos + 1) (invoked ++ [pos]) hrest]
    simp [List.range'_succ]

/-- The loop over a candidate array whose entries up to the first `nullptr`
all decline: it calls every one of them, in order, and reports
`unimplemented`. -/
theorem reorder_dispatch_loop_decline (new_succeeds : Bool) (e : engine_t)
    (attr : primitive_attr_t) (src_engine : engine_t) (src_md : memory_desc_t)
    (dst_engine : engine_t) (dst_md : memory_desc_t)
    (post : List (Option rpd_create_f)) :
    ∀ (pre : List rpd_create_f) (pos : Nat) (invoked : List Nat),
      (∀ g ∈ pre, (g e attr src_engine src_md dst_engine dst_md).1 ≠ status_t.success) →
      reorder_dispatch_loop new_succeeds e attr src_engine src_md dst_engine dst_md
          (pre.map some ++ none :: post) pos invoked
        = some
            { status := status_t.unimplemented, written := none,
              invoked := invoked ++ List.range' pos pre.length, deleted := false } := by
  intro pre
  induction pre with
  | nil =>
    intro pos invoked _
    simp [reorder_dispatch_loop]
  | cons g pre ih =>
    intro pos invoked hpre
    have hg : (g e attr src_engine src_md dst_engine dst_md).1 ≠ status_t.success :=
      hpre g (List.mem_cons_self g pre)
    have hrest : ∀ h ∈ pre,
        (h e attr src_engine src_md dst_engine dst_md).1 ≠ status_t.success :=
      fun h hh => hpre h (List.mem_cons_of_mem g hh)
    rw [List.map_cons, List.cons_append, reorder_dispatch_loop_step _ _ _ _ _ _ _ _ _ _ _ hg,
      ih (pos + 1) (invoked ++ [pos]) hrest]
    simp [List.range'_succ]

/-- A call whose arguments pass the validation of
`dnnl_reorder_primitive_desc_create` runs the loop over the candidate array of
the executing engine, with the caller's attributes or the default ones. -/
theorem reorder_create_valid (env : dispatch_env) (src_engine dst_engine : engine_t)
    (src_md dst_md : memory_desc_t) (attr : Option primitive_attr_t)
    (hkind : src_engine.kind ≠ dst_engine.kind →
      src_engine.kind = engine_kind_t.cpu ∨ dst_engine.kind = engine_kind_t.cpu)
    (hcons : env.consistent_with src_md dst_md = true) :
    dnnl_reorder_primitive_desc_create env
        { reorder_pd_iface := some (), src_md := some src_md, src_engine := some src_engine,
          dst_md := some dst_md, dst_engine := some dst_engine, attr := attr }
      = reorder_dispatch_loop env.new_succeeds
          (get_reorder_engine env.is_native_runtime src_engine dst_engine)
          (attr.getD default_attr) src_engine src_md dst_engine dst_md
          (env.get_reorder_implementation_list
            (get_reorder_engine env.is_native_runtime src_engine dst_engine) src_md dst_md)
          0 [] := by
  have hk : ¬ ¬ (src_engine.kind ≠ dst_engine.kind →
      src_engine.kind = engine_kind_t.cpu ∨ dst_engine.kind = engine_kind_t.cpu) :=
    not_not.mpr hkind
  have hc : ¬ ¬ (env.consistent_with src_md dst_md = true) := not_not.mpr hcons
  cases attr <;> simp only [dnnl_reorder_primitive_desc_create, if_neg hk, if_neg hc] <;> rfl

/-- C1. `dnnl_reorder_primitive_desc_create` is first-match-wins over the
candidate array of the executing engine. For a request that passes validation
and an array whose entries before the candidate `r` all decline while `r`
reports success (whatever follows `r`, other accepting candidates included),
the candidates invoked are exactly the entries at positions `0, ..., |pre|`, in
that order, none after `r`; the handle returned wraps the descriptor built by
`r`, bound to the executing, source and destination engines. The handle is
delivered when its allocation yields memory; otherwise the assignment reports
`out_of_memory` and the descriptor is deleted. -/
theorem reorder_create_first_match_wins (env : dispatch_env)
    (src_engine dst_engine : engine_t) (src_md dst_md : memory_desc_t)
    (attr : Option primitive_attr_t) (pre : List rpd_create_f) (r : rpd_create_f)
    (post : List (Option rpd_create_f))
    (hkind : src_engine.kind ≠ dst_engine.kind →
      src_engine.kind = engine_kind_t.cpu ∨ dst_engine.kind = engine_kind_t.cpu)
    (hcons : env.consistent_with src_md dst_md = true)
    (hlist : env.get_reorder_implementation_list
        (get_reorder_engine env.is_native_runtime src_engine dst_engine) src_md dst_md
      = pre.map some ++ some r :: post)
    (hpre : ∀ g ∈ pre,
      (g (get_reorder_engine env.is_native_runtime src_engine dst_engine)
        (attr.getD default_attr) src_engine src_md dst_engine dst_md).1 ≠ status_t.success)
    (hr : (r (get_reorder_engine env.is_native_runtime src_engine dst_engine)
        (attr.getD default_attr) src_engine src_md dst_engine dst_md).1 = status_t.success) :
    dnnl_reorder_primitive_desc_create env
        { reorder_pd_iface := some (), src_md := some src_md, src_engine := some src_engine,
          dst_md := some dst_md, dst_engine := some dst_engine, attr := attr }
      = some
          { status := if env.new_succeeds then status_t.success else status_t.out_of_memory
            written :=
              if env.new_succeeds then
                some
                  { pd := (r (get_reorder_engine env.is_native_runtime src_engine dst_engine)
                      (attr.getD default_attr) src_engine src_md dst_engine dst_md).2
                    engine := get_reorder_engine env.is_native_runtime src_engine dst_engine
                    src_engine := src_engine
                    dst_engine := dst_engine }
              else none
            invoked := List.range (pre.length + 1)
            deleted := !env.new_succeeds } := by
  rw [reorder_create_valid env src_engine dst_engine src_md dst_md attr hkind hcons, hlist,
    reorder_dispatch_loop_accept env.new_succeeds _ _ _ _ _ _ r post hr pre 0 [] hpre]
  simp [List.range_eq_range']

/-- C1, on an array of a declining candidate followed by two accepting ones
(implementations 1 and 2): the first two entries are invoked and the descriptor
returned is the one of implementation 1. -/
theorem reorder_create_first_match_wins_witness :
    dnnl_reorder_primitive_desc_create
        (example_env
          [some (declining_candidate status_t.unimplemented), some (accepting_candidate 1),
            some (accepting_candidate 2), none] true)
        { reorder_pd_iface := some (), src_md := some example_plain_md,
          src_engine := some example_cpu_engine, dst_md := some example_plain_md,
          dst_engine := some example_cpu_engine, attr := none }
      = some
          { status := status_t.success
            written :=
              some
                { pd := some { impl := 1, attr := default_attr, src_md := example_plain_md,
                               dst_md := example_plain_md }
                  engine := example_cpu_engine
                  src_engine := example_cpu_engine
                  dst_engine := example_cpu_engine }
            invoked := [0, 1]
            deleted := false } :=
  reorder_create_first_match_wins
    (example_env
      [some (declining_candidate status_t.unimplemented), some (accepting_candidate 1),
        some (accepting_candidate 2), none] true)
    example_cpu_engine example_cpu_engine example_plain_md example_plain_md none
    [declining_candidate status_t.unimplemented] (accepting_candidate 1)
    [some (accepting_candidate 2), none]
    (fun h => absurd rfl h) rfl rfl
    (by intro g hg; rw [List.mem_singleton] at hg; subst hg; decide)
    rfl

/-- C2. For a request that passes validation, when every candidate of the
array before its `nullptr` entry declines (reports a status other than
`success`, in particular `unimplemented` or `invalid_arguments`), or there is
no candidate at all, `dnnl_reorder_primitive_desc_create` returns
`unimplemented`, having invoked every candidate once, in order, and written no
handle. -/
theorem reorder_create_unimplemented (env : dispatch_env)
    (src_engine dst_engine : engine_t) (src_md dst_md : memory_desc_t)
    (attr : Option primitive_attr_t) (cands : List rpd_create_f)
    (post : List (Option rpd_create_f))
    (hkind : src_engine.kind ≠ dst_engine.kind →
      src_engine.kind = engine_kind_t.cpu ∨ dst_engine.kind = engine_kind_t.cpu)
    (hcons : env.consistent_with src_md dst_md = true)
    (hlist : env.get_reorder_implementation_list
        (get_reorder_engine env.is_native_runtime src_engine dst_engine) src_md dst_md
      = cands.map some ++ none :: post)
    (hall : ∀ g ∈ cands,
      (g (get_reorder_engine env.is_native_runtime src_engine dst_engine)
        (attr.getD default_attr) src_engine src_md dst_engine dst_md).1 ≠ status_t.success) :
    dnnl_reorder_primitive_desc_create env
        { reorder_pd_iface := some (), src_md := some src_md, src_engine := some src_engine,
          dst_md := some dst_md, dst_engine := some dst_engine, attr := attr }
      = some
          { status := status_t.unimplemented, written := none,
            invoked := List.range cands.length, deleted := false } := by
  rw [reorder_create_valid env src_engine dst_engine src_md dst_md attr hkind hcons, hlist,
    reorder_dispatch_loop_decline env.new_succeeds _ _ _ _ _ _ post cands 0 [] hall]
  simp [List.range_eq_range']

/-- C2, on an array of two declining candidates (one reports `unimplemented`,
the other `invalid_arguments`): both are invoked and the call returns
`unimplemented`. -/
theorem reorder_create_unimplemented_witness :
    dnnl_reorder_primitive_desc_create
        (example_env
          [some (declining_candidate status_t.unimplemented),
            some (declining_candidate status_t.invalid_arguments), none] true)
        { reorder_pd_iface := some (), src_md := some example_plain_md,
          src_engine := some example_cpu_engine, dst_md := some example_plain_md,
          dst_engine := some example_cpu_engine, attr := none }
      = some
          { status := status_t.unimplemented, written := none, invoked := [0, 1],
            deleted := false } :=
  reorder_create_unimplemented
    (example_env
      [some (declining_candidate status_t.unimplemented),
        some (declining_candidate status_t.invalid_arguments), none] true)
    example_cpu_engine example_cpu_engine example_plain_md example_plain_md none
    [declining_candidate status_t.unimplemented,
      declining_candidate status_t.invalid_arguments] []
    (fun h => absurd rfl h) rfl rfl
    (by
      intro g hg
      rw [List.mem_cons, List.mem_singleton] at hg
      rcases hg with hg | hg <;> subst hg <;> decide)

/-! ## Properties of memory descriptors -/

/-- An array agrees with itself on any number of leading entries. -/
theorem array_cmp_self (a : List Nat) (n : Nat) : array_cmp a a n = true := by
  simp [array_cmp]

/-- Arrays that agree on their first `n` entries have the same product over
them. -/
theorem array_product_eq_of_cmp (a b : List Nat) (n : Nat) (h : array_cmp a b n = true) :
    array_product a n = array_product b n := by
  unfold array_cmp at h
  unfold array_product
  rw [List.all_eq_true] at h
  congr 1
  apply List.map_congr_left
  intro i hi
  simpa using h i hi

/-- The operator `==` holds between a memory descriptor and itself. -/
theorem memory_desc_t.equal_self (md : memory_desc_t) : md.equal md = true := by
  simp [memory_desc_t.equal, array_cmp_self]

/-- Memory descriptors that the operator `==` identifies have the same number
of elements, whatever the argument of `nelems`. -/
theorem memory_desc_t.nelems_eq_of_equal (a b : memory_desc_t) (with_padding : Bool)
    (h : a.equal b = true) : a.nelems with_padding = b.nelems with_padding := by
  simp only [memory_desc_t.equal, Bool.and_eq_true, beq_iff_eq] at h
  obtain ⟨⟨⟨⟨⟨⟨⟨hn, hd⟩, _⟩, _⟩, _⟩, _⟩, _⟩, _⟩ := h
  unfold memory_desc_t.nelems memory_desc_t.is_zero
  rw [← hn, array_product_eq_of_cmp _ _ _ hd]

/-- The rounding-up division by 8 of the library is the ceiling of the
quotient, as long as the sum it forms stays in the range of `size_t`. -/
theorem div_up_eight_eq_ceil (a : Nat) (h : a + 7 < SIZE_T_RANGE) :
    div_up a 8 = ⌈((a : ℕ) : ℚ) / 8⌉₊ := by
  apply eq_of_forall_ge_iff
  intro n
  rw [Nat.ceil_le, div_le_iff₀ (by norm_num : (0 : ℚ) < 8)]
  have h8 : ((n : ℚ) * 8) = ((n * 8 : ℕ) : ℚ) := by push_cast; ring
  rw [h8, Nat.cast_le]
  unfold div_up
  rw [Nat.mod_eq_of_lt (by omega)]
  omega

/-- What `init_default_ws` leaves in the workspace descriptor: the dense rank-1
descriptor of bytes whose size is the element count times the bits per
element, divided by 8 and rounded up in `size_t` arithmetic. -/
theorem init_default_ws_ws_md (pd : batch_normalization_pd_t) (bits_per_element : Nat) :
    (pd.init_default_ws bits_per_element).ws_md_
      = { ndims := 1
          dims := [div_up ((pd.data_md_.nelems true * bits_per_element) % SIZE_T_RANGE) 8]
          data_type := data_type_t.u8
          padded_dims :=
            [div_up ((pd.data_md_.nelems true * bits_per_element) % SIZE_T_RANGE) 8]
          padded_offsets := [0]
          offset0 := 0
          format_kind := format_kind_t.blocked
          strides := [1]
          inner_blks := []
          inner_idxs := [] } := by
  simp [batch_normalization_pd_t.init_default_ws, dnnl_memory_desc_init_by_tag, DNNL_MAX_NDIMS]

/-! ## Properties of the workspace comparison -/

/-- C3. `compare_ws(fwd_pd)`, in both compiled variants: when the descriptor's
own `workspace_md()` is a null pointer it returns true for every `fwd_pd`, a
null one included; otherwise it returns true exactly when `fwd_pd` is non-null,
`fwd_pd->workspace_md()` is non-null, and that memory descriptor is equal to
the descriptor's own workspace memory descriptor. -/
theorem compare_ws_contract (ve : Bool) (pd : primitive_desc_t)
    (fwd_pd : Option primitive_desc_t) :
    (pd.workspace_md 0 = none → pd.compare_ws ve fwd_pd = true)
    ∧ (∀ ws, pd.workspace_md 0 = some ws →
        (pd.compare_ws ve fwd_pd = true ↔
          ∃ f fwd_ws, fwd_pd = some f ∧ f.workspace_md 0 = some fwd_ws
            ∧ fwd_ws.equal ws = true)) := by
  constructor
  · intro h
    cases ve <;>
      simp [primitive_desc_t.compare_ws, primitive_desc_t.compare_ws_ve,
        primitive_desc_t.compare_ws_generic, h]
  · intro ws h
    cases ve <;> cases fwd_pd with
    | none =>
      simp [primitive_desc_t.compare_ws, primitive_desc_t.compare_ws_ve,
        primitive_desc_t.compare_ws_generic, h]
    | some f =>
      cases hf : f.workspace_md 0 <;>
        simp [primitive_desc_t.compare_ws, primitive_desc_t.compare_ws_ve,
          primitive_desc_t.compare_ws_generic, h, hf]

/-- C3, on a descriptor whose `workspace_md()` is null with a null `fwd_pd`,
and on a descriptor with a workspace against a `fwd_pd` with the same
workspace descriptor. -/
theorem compare_ws_contract_witness :
    (primitive_desc_t.other none).compare_ws true none = true
    ∧ (primitive_desc_t.other (some example_plain_md)).compare_ws false
        (some (primitive_desc_t.other (some example_plain_md))) = true :=
  ⟨(compare_ws_contract true (primitive_desc_t.other none) none).1 rfl,
    ((compare_ws_contract false (primitive_desc_t.other (some example_plain_md))
        (some (primitive_desc_t.other (some example_plain_md)))).2 example_plain_md rfl).2
      ⟨primitive_desc_t.other (some example_plain_md), example_plain_md, rfl, rfl,
        memory_desc_t.equal_self example_plain_md⟩⟩

/-! ## Properties of the batch-normalization descriptors -/

/-- C4. The argument classification of a forward batch-normalization
descriptor, for every propagation kind and every flag word: SRC is an input and
DST an output; MEAN and VARIANCE are inputs when stats-is-source, outputs when
training and not stats-is-source, unused otherwise; SCALE_SHIFT is an input
when use-scale-shift is set and unused otherwise; WORKSPACE is an output when
training and fuse-norm-relu, unused otherwise. -/
theorem fwd_arg_usage_table (pd : batch_normalization_fwd_pd_t) :
    pd.arg_usage DNNL_ARG_SRC = arg_usage_t.input
    ∧ pd.arg_usage DNNL_ARG_DST = arg_usage_t.output
    ∧ pd.arg_usage DNNL_ARG_MEAN
        = (if pd.stats_is_src then arg_usage_t.input
           else if pd.is_training then arg_usage_t.output else arg_usage_t.unused)
    ∧ pd.arg_usage DNNL_ARG_VARIANCE
        = (if pd.stats_is_src then arg_usage_t.input
           else if pd.is_training then arg_usage_t.output else arg_usage_t.unused)
    ∧ pd.arg_usage DNNL_ARG_SCALE_SHIFT
        = (if pd.use_scaleshift then arg_usage_t.input else arg_usage_t.unused)
    ∧ pd.arg_usage DNNL_ARG_WORKSPACE
        = (if pd.is_training && pd.fuse_norm_relu then arg_usage_t.output
           else arg_usage_t.unused) := by
  refine ⟨?_, ?_, ?_, ?_, ?_, ?_⟩
  · simp [batch_normalization_fwd_pd_t.arg_usage]
  · simp [batch_normalization_fwd_pd_t.arg_usage, DNNL_ARG_SRC, DNNL_ARG_DST]
  · cases hs : pd.stats_is_src <;> cases ht : pd.is_training <;>
      simp [batch_normalization_fwd_pd_t.arg_usage, DNNL_ARG_SRC, DNNL_ARG_DST,
        DNNL_ARG_MEAN, hs, ht]
  · cases hs : pd.stats_is_src <;> cases ht : pd.is_training <;>
      simp [batch_normalization_fwd_pd_t.arg_usage, DNNL_ARG_SRC, DNNL_ARG_DST,
        DNNL_ARG_MEAN, DNNL_ARG_VARIANCE, hs, ht]
  · cases hu : pd.use_scaleshift <;>
      simp [batch_normalization_fwd_pd_t.arg_usage, batch_normalization_pd_t.base_arg_usage,
        DNNL_ARG_SRC, DNNL_ARG_DST, DNNL_ARG_MEAN, DNNL_ARG_VARIANCE, DNNL_ARG_SCALE_SHIFT,
        DNNL_ARG_WORKSPACE, DNNL_ARG_SCRATCHPAD, hu]
  · cases ht : pd.is_training <;> cases hf : pd.fuse_norm_relu <;>
      simp [batch_normalization_fwd_pd_t.arg_usage, batch_normalization_pd_t.base_arg_usage,
        DNNL_ARG_SRC, DNNL_ARG_DST, DNNL_ARG_MEAN, DNNL_ARG_VARIANCE, DNNL_ARG_SCALE_SHIFT,
        DNNL_ARG_WORKSPACE, DNNL_ARG_SCRATCHPAD, ht, hf]

/-- C5. The argument classification of a backward batch-normalization
descriptor, for every flag word: SRC, MEAN, VARIANCE and DIFF_DST are inputs;
SCALE_SHIFT is an input when use-scale-shift is set and unused otherwise;
DIFF_SCALE_SHIFT is an output when use-scale-shift is set and unused otherwise;
WORKSPACE is an input when fuse-norm-relu is set and unused otherwise; DIFF_SRC
is an output. -/
theorem bwd_arg_usage_table (pd : batch_normalization_bwd_pd_t) :
    pd.arg_usage DNNL_ARG_SRC = arg_usage_t.input
    ∧ pd.arg_usage DNNL_ARG_MEAN = arg_usage_t.input
    ∧ pd.arg_usage DNNL_ARG_VARIANCE = arg_usage_t.input
    ∧ pd.arg_usage DNNL_ARG_DIFF_DST = arg_usage_t.input
    ∧ pd.arg_usage DNNL_ARG_SCALE_SHIFT
        = (if pd.use_scaleshift then arg_usage_t.input else arg_usage_t.unused)
    ∧ pd.arg_usage DNNL_ARG_DIFF_SCALE_SHIFT
        = (if pd.use_scaleshift then arg_usage_t.output else arg_usage_t.unused)
    ∧ pd.arg_usage DNNL_ARG_WORKSPACE
        = (if pd.fuse_norm_relu then arg_usage_t.input else arg_usage_t.unused)
    ∧ pd.arg_usage DNNL_ARG_DIFF_SRC = arg_usage_t.output := by
  refine ⟨?_, ?_, ?_, ?_, ?_, ?_, ?_, ?_⟩
  · simp [batch_normalization_bwd_pd_t.arg_usage]
  · simp [batch_normalization_bwd_pd_t.arg_usage]
  · simp [batch_normalization_bwd_pd_t.arg_usage]
  · simp [batch_normalization_bwd_pd_t.arg_usage]
  · cases hu : pd.use_scaleshift <;>
      simp [batch_normalization_bwd_pd_t.arg_usage, batch_normalization_pd_t.base_arg_usage,
        DNNL_ARG_SRC, DNNL_ARG_MEAN, DNNL_ARG_VARIANCE, DNNL_ARG_DIFF_DST,
        DNNL_ARG_SCALE_SHIFT, DNNL_ARG_WORKSPACE, DNNL_ARG_DIFF_SRC,
        DNNL_ARG_DIFF_SCALE_SHIFT, DNNL_ARG_SCRATCHPAD, hu]
  · cases hu : pd.use_scaleshift <;>
      simp [batch_normalization_bwd_pd_t.arg_usage, batch_normalization_pd_t.base_arg_usage,
        DNNL_ARG_SRC, DNNL_ARG_MEAN, DNNL_ARG_VARIANCE, DNNL_ARG_DIFF_DST,
        DNNL_ARG_SCALE_SHIFT, DNNL_ARG_WORKSPACE, DNNL_ARG_DIFF_SRC,
        DNNL_ARG_DIFF_SCALE_SHIFT, DNNL_ARG_SCRATCHPAD, hu]
  · cases hf : pd.fuse_norm_relu <;>
      simp [batch_normalization_bwd_pd_t.arg_usage, batch_normalization_pd_t.base_arg_usage,
        DNNL_ARG_SRC, DNNL_ARG_MEAN, DNNL_ARG_VARIANCE, DNNL_ARG_DIFF_DST,
        DNNL_ARG_SCALE_SHIFT, DNNL_ARG_WORKSPACE, DNNL_ARG_DIFF_SRC,
        DNNL_ARG_DIFF_SCALE_SHIFT, DNNL_ARG_SCRATCHPAD, hf]
  · simp [batch_normalization_bwd_pd_t.arg_usage, DNNL_ARG_SRC, DNNL_ARG_MEAN,
      DNNL_ARG_VARIANCE, DNNL_ARG_DIFF_DST, DNNL_ARG_SCALE_SHIFT, DNNL_ARG_WORKSPACE,
      DNNL_ARG_DIFF_SRC]

/-- The flag tests of a descriptor built from the flag word that sets
stats-is-source, use-scale-shift and fuse-norm-relu as `s`, `u` and `f` say, and
of propagation kind training or inference as `training` says. -/
theorem fwd_create_flags (training s u f : Bool) (attr : primitive_attr_t)
    (data_desc diff_data_desc data_scaleshift_desc diff_data_scaleshift_desc
      stat_desc : memory_desc_t) :
    (batch_normalization_fwd_pd_t.create
        { prop_kind :=
            if training then prop_kind_t.forward_training else prop_kind_t.forward_inference
          data_desc := data_desc
          diff_data_desc := diff_data_desc
          data_scaleshift_desc := data_scaleshift_desc
          diff_data_scaleshift_desc := diff_data_scaleshift_desc
          stat_desc := stat_desc
          flags := s.toNat * dnnl_use_global_stats + u.toNat * dnnl_use_scaleshift
            + f.toNat * dnnl_fuse_norm_relu } attr).stats_is_src = s
    ∧ (batch_normalization_fwd_pd_t.create
        { prop_kind :=
            if training then prop_kind_t.forward_training else prop_kind_t.forward_inference
          data_desc := data_desc
          diff_data_desc := diff_data_desc
          data_scaleshift_desc := data_scaleshift_desc
          diff_data_scaleshift_desc := diff_data_scaleshift_desc
          stat_desc := stat_desc
          flags := s.toNat * dnnl_use_global_stats + u.toNat * dnnl_use_scaleshift
            + f.toNat * dnnl_fuse_norm_relu } attr).use_scaleshift = u
    ∧ (batch_normalization_fwd_pd_t.create
        { prop_kind :=
            if training then prop_kind_t.forward_training else prop_kind_t.forward_inference
          data_desc := data_desc
          diff_data_desc := diff_data_desc
          data_scaleshift_desc := data_scaleshift_desc
          diff_data_scaleshift_desc := diff_data_scaleshift_desc
          stat_desc := stat_desc
          flags := s.toNat * dnnl_use_global_stats + u.toNat * dnnl_use_scaleshift
            + f.toNat * dnnl_fuse_norm_relu } attr).fuse_norm_relu = f
    ∧ (batch_normalization_fwd_pd_t.create
        { prop_kind :=
            if training then prop_kind_t.forward_training else prop_kind_t.forward_inference
          data_desc := data_desc
          diff_data_desc := diff_data_desc
          data_scaleshift_desc := data_scaleshift_desc
          diff_data_scaleshift_desc := diff_data_scaleshift_desc
          stat_desc := stat_desc
          flags := s.toNat * dnnl_use_global_stats + u.toNat * dnnl_use_scaleshift
            + f.toNat * dnnl_fuse_norm_relu } attr).is_training = training := by
  cases training <;> cases s <;> cases u <;> cases f <;>
    simp [batch_normalization_fwd_pd_t.create, batch_normalization_pd_t.create,
      batch_normalization_pd_t.stats_is_src, batch_normalization_pd_t.use_scaleshift,
      batch_normalization_pd_t.fuse_norm_relu, batch_normalization_pd_t.is_training,
      dnnl_use_global_stats, dnnl_use_scaleshift, dnnl_fuse_norm_relu] <;> decide

/-- C6. The argument counts of a forward batch-normalization descriptor, for
every propagation kind and every flag word: `n_inputs() = 1 + 2*s + u` and
`n_outputs() = 1 + (f + 2*(not s)) * training`, where `s`, `u`, `f` and
`training` are stats-is-source, use-scale-shift, fuse-norm-relu and
is-training counted as 0 or 1. The second half states it on the descriptor
built from each of the 16 combinations of the four. -/
theorem fwd_n_inputs_n_outputs :
    (∀ pd : batch_normalization_fwd_pd_t,
      pd.n_inputs = 1 + 2 * (pd.stats_is_src.toNat : Int) + (pd.use_scaleshift.toNat : Int)
      ∧ pd.n_outputs
          = 1 + ((pd.fuse_norm_relu.toNat : Int) + 2 * ((!pd.stats_is_src).toNat : Int))
              * (pd.is_training.toNat : Int))
    ∧ (∀ (training s u f : Bool) (attr : primitive_attr_t) (md : memory_desc_t),
      (batch_normalization_fwd_pd_t.create
          { prop_kind :=
              if training then prop_kind_t.forward_training else prop_kind_t.forward_inference
            data_desc := md
            diff_data_desc := glob_zero_md
            data_scaleshift_desc := glob_zero_md
            diff_data_scaleshift_desc := glob_zero_md
            stat_desc := glob_zero_md
            flags := s.toNat * dnnl_use_global_stats + u.toNat * dnnl_use_scaleshift
              + f.toNat * dnnl_fuse_norm_relu } attr).n_inputs
        = 1 + 2 * (s.toNat : Int) + (u.toNat : Int)
      ∧ (batch_normalization_fwd_pd_t.create
          { prop_kind :=
              if training then prop_kind_t.forward_training else prop_kind_t.forward_inference
            data_desc := md
            diff_data_desc := glob_zero_md
            data_scaleshift_desc := glob_zero_md
            diff_data_scaleshift_desc := glob_zero_md
            stat_desc := glob_zero_md
            flags := s.toNat * dnnl_use_global_stats + u.toNat * dnnl_use_scaleshift
              + f.toNat * dnnl_fuse_norm_relu } attr).n_outputs
        = 1 + ((f.toNat : Int) + 2 * ((!s).toNat : Int)) * (training.toNat : Int)) := by
  constructor
  · intro pd
    unfold batch_normalization_fwd_pd_t.n_inputs batch_normalization_fwd_pd_t.n_outputs
    cases pd.stats_is_src <;> cases pd.use_scaleshift <;> cases pd.fuse_norm_relu <;>
      cases pd.is_training <;> exact ⟨rfl, rfl⟩
  · intro training s u f attr md
    cases training <;> cases s <;> cases u <;> cases f <;>
      simp [batch_normalization_fwd_pd_t.n_inputs, batch_normalization_fwd_pd_t.n_outputs,
        batch_normalization_fwd_pd_t.create, batch_normalization_pd_t.create,
        batch_normalization_pd_t.stats_is_src, batch_normalization_pd_t.use_scaleshift,
        batch_normalization_pd_t.fuse_norm_relu, batch_normalization_pd_t.is_training,
        dnnl_use_global_stats, dnnl_use_scaleshift, dnnl_fuse_norm_relu, bool_to_int] <;> decide

/-- C7, within the range of `size_t`. `init_default_ws(bits_per_element)` sets
the workspace memory descriptor to a rank-1 descriptor whose single dimension
is `ceil(N * bits_per_element / 8)`, where `N` is the number of logical
elements of the data descriptor, the product of its logical dimension sizes
(and 0 for the zero descriptor), for every data descriptor and every
`bits_per_element` for which `N * bits_per_element + 7` is in the range of
`size_t`. -/
theorem init_default_ws_logical_size (pd : batch_normalization_pd_t) (bits_per_element : Nat)
    (hrange : pd.data_md_.nelems true * bits_per_element + 7 < 2 ^ 64) :
    (pd.init_default_ws bits_per_element).ws_md_.ndims = 1
    ∧ (pd.init_default_ws bits_per_element).ws_md_.dims
        = [⌈((pd.data_md_.nelems true * bits_per_element : ℕ) : ℚ) / 8⌉₊]
    ∧ pd.data_md_.nelems true
        = (if pd.data_md_.ndims = 0 then 0
           else ((List.range pd.data_md_.ndims).map
                  (fun i => pd.data_md_.dims.getD i 0)).prod) := by
  have hr : pd.data_md_.nelems true * bits_per_element + 7 < SIZE_T_RANGE := hrange
  have hmod : (pd.data_md_.nelems true * bits_per_element) % SIZE_T_RANGE
      = pd.data_md_.nelems true * bits_per_element := Nat.mod_eq_of_lt (by omega)
  refine ⟨?_, ?_, ?_⟩
  · rw [init_default_ws_ws_md]
  · rw [init_default_ws_ws_md, hmod, div_up_eight_eq_ceil _ hr]
  · by_cases h : pd.data_md_.ndims = 0 <;>
      simp [memory_desc_t.nelems, memory_desc_t.is_zero, array_product, h]

/-- C7 within the range of `size_t`, on the 2 x 3 data descriptor with 8 bits
per element: 6 logical elements, a workspace of 6 bytes. -/
theorem init_default_ws_logical_size_witness :
    (batch_normalization_pd_t.create
        (example_bnorm_desc prop_kind_t.forward_training example_plain_md 4)
        default_attr).data_md_.nelems true * 8 + 7 < 2 ^ 64
    ∧ ((batch_normalization_pd_t.create
        (example_bnorm_desc prop_kind_t.forward_training example_plain_md 4)
        default_attr).init_default_ws 8).ws_md_.dims = [6]
    ∧ ((batch_normalization_pd_t.create
        (example_bnorm_desc prop_kind_t.forward_training example_plain_md 4)
        default_attr).init_default_ws 8).ws_md_.ndims = 1
    ∧ (batch_normalization_pd_t.create
        (example_bnorm_desc prop_kind_t.forward_training example_plain_md 4)
        default_attr).data_md_.nelems true = 6 :=
  ⟨by decide, by decide,
    (init_default_ws_logical_size
      (batch_normalization_pd_t.create
        (example_bnorm_desc prop_kind_t.forward_training example_plain_md 4) default_attr)
      8 (by decide)).1,
    by decide⟩

/-- C7 as stated fails where the `size_t` product wraps: for a data descriptor
of 2^61 logical elements and 8 bits per element the product
`data_nelems * bits_per_element` is 2^64, which is 0 in `size_t`, and the
workspace has the single dimension 0, where the 2^61 logical elements would
give 2^61 bytes. -/
theorem init_default_ws_wraps :
    array_product example_huge_md.dims example_huge_md.ndims = 2305843009213693952
    ∧ (batch_normalization_pd_t.create
        (example_bnorm_desc prop_kind_t.forward_training example_huge_md 4)
        default_attr).data_md_.nelems true = 2305843009213693952
    ∧ (2305843009213693952 * 8) % SIZE_T_RANGE = 0
    ∧ ((batch_normalization_pd_t.create
        (example_bnorm_desc prop_kind_t.forward_training example_huge_md 4)
        default_attr).init_default_ws 8).ws_md_.dims = [0]
    ∧ ((batch_normalization_pd_t.create
        (example_bnorm_desc prop_kind_t.forward_training example_huge_md 4)
        default_attr).init_default_ws 8).ws_md_.dims
      ≠ [⌈((array_product example_huge_md.dims example_huge_md.ndims * 8 : ℕ) : ℚ) / 8⌉₊] := by
  have hceil : ⌈((array_product example_huge_md.dims example_huge_md.ndims * 8 : ℕ) : ℚ) / 8⌉₊
      = 2305843009213693952 := by
    have h : array_product example_huge_md.dims example_huge_md.ndims = 2305843009213693952 := by
      decide
    rw [h]
    have e : ((2305843009213693952 * 8 : ℕ) : ℚ) / 8 = ((2305843009213693952 : ℕ) : ℚ) := by
      push_cast
      norm_num
    rw [e, Nat.ceil_natCast]
  refine ⟨by decide, by decide, by decide, by decide, ?_⟩
  rw [hceil]
  decide

/-- The flag tests and the data descriptor of a forward descriptor are not
touched by `init_default_ws`; only the workspace descriptor is. -/
theorem fwd_init_default_ws_desc (pd : batch_normalization_fwd_pd_t) (b : Nat) :
    (pd.init_default_ws b).desc_ = pd.desc_
    ∧ (pd.init_default_ws b).ws_md_
        = (pd.tobatch_normalization_pd_t.init_default_ws b).ws_md_ :=
  ⟨rfl, rfl⟩

/-- The flag tests and the data descriptor of a backward descriptor are not
touched by `init_default_ws`; only the workspace descriptor is. -/
theorem bwd_init_default_ws_desc (pd : batch_normalization_bwd_pd_t) (b : Nat) :
    (pd.init_default_ws b).desc_ = pd.desc_
    ∧ (pd.init_default_ws b).ws_md_
        = (pd.tobatch_normalization_pd_t.init_default_ws b).ws_md_ :=
  ⟨rfl, rfl⟩

/-- C8. Workspace byte-exactness. When a forward descriptor (training,
fuse-norm-relu set) and a backward descriptor (fuse-norm-relu set) over the
same data descriptor `D` both compute their workspace with
`init_default_ws(b)`, each reports its computed workspace descriptor as
`workspace_md(0)`, the two are the same memory descriptor, and the backward
descriptor's `compare_ws` of the forward descriptor is true, in both compiled
variants. -/
theorem workspace_byte_exact (ve : Bool) (fwd : batch_normalization_fwd_pd_t)
    (bwd : batch_normalization_bwd_pd_t) (D : memory_desc_t) (b : Nat)
    (hfD : fwd.data_md_ = D) (hbD : bwd.data_md_ = D)
    (hft : fwd.is_training = true) (hff : fwd.fuse_norm_relu = true)
    (hbf : bwd.fuse_norm_relu = true) :
    (fwd.init_default_ws b).workspace_md 0 = (fwd.init_default_ws b).ws_md_
    ∧ (bwd.init_default_ws b).workspace_md 0 = (bwd.init_default_ws b).ws_md_
    ∧ (fwd.init_default_ws b).workspace_md 0 = (bwd.init_default_ws b).workspace_md 0
    ∧ (primitive_desc_t.bnorm_bwd (bwd.init_default_ws b)).compare_ws ve
        (some (primitive_desc_t.bnorm_fwd (fwd.init_default_ws b))) = true := by
  have hf1 : (fwd.init_default_ws b).is_training = true := hft
  have hf2 : (fwd.init_default_ws b).fuse_norm_relu = true := hff
  have hb2 : (bwd.init_default_ws b).fuse_norm_relu = true := hbf
  have hfw : (fwd.init_default_ws b).workspace_md 0 = (fwd.init_default_ws b).ws_md_ := by
    simp [batch_normalization_fwd_pd_t.workspace_md, hf1, hf2]
  have hbw : (bwd.init_default_ws b).workspace_md 0 = (bwd.init_default_ws b).ws_md_ := by
    simp [batch_normalization_bwd_pd_t.workspace_md, hb2]
  have heq : (fwd.init_default_ws b).ws_md_ = (bwd.init_default_ws b).ws_md_ := by
    rw [(fwd_init_default_ws_desc fwd b).2, (bwd_init_default_ws_desc bwd b).2,
      init_default_ws_ws_md, init_default_ws_ws_md, hfD, hbD]
  refine ⟨hfw, hbw, by rw [hfw, hbw, heq], ?_⟩
  have hself := memory_desc_t.equal_self (bwd.init_default_ws b).ws_md_
  cases ve <;>
    simp [primitive_desc_t.compare_ws, primitive_desc_t.compare_ws_ve,
      primitive_desc_t.compare_ws_generic, primitive_desc_t.workspace_md, hfw, hbw, heq, hself]

/-- C8, on the padded 2 x 3 data descriptor with 8 bits per element. -/
theorem workspace_byte_exact_witness :
    (primitive_desc_t.bnorm_bwd
        ((batch_normalization_bwd_pd_t.create
          (example_bnorm_desc prop_kind_t.backward example_padded_md 4)
          default_attr).init_default_ws 8)).compare_ws false
      (some (primitive_desc_t.bnorm_fwd
        ((batch_normalization_fwd_pd_t.create
          (example_bnorm_desc prop_kind_t.forward_training example_padded_md 4)
          default_attr).init_default_ws 8))) = true :=
  (workspace_byte_exact false
    (batch_normalization_fwd_pd_t.create
      (example_bnorm_desc prop_kind_t.forward_training example_padded_md 4) default_attr)
    (batch_normalization_bwd_pd_t.create
      (example_bnorm_desc prop_kind_t.backward example_padded_md 4) default_attr)
    example_padded_md 8 rfl rfl (by decide) (by decide) (by decide)).2.2.2

/-- C9. Workspace mismatch rejection. For a descriptor that has a workspace and
a forward descriptor whose workspace memory descriptor has a different number
of elements (counted with or without padding), `compare_ws` of the forward
descriptor is false, in both compiled variants. -/
theorem compare_ws_rejects_count_mismatch (ve : Bool) (pd f : primitive_desc_t)
    (ws fwd_ws : memory_desc_t) (with_padding : Bool)
    (hws : pd.workspace_md 0 = some ws) (hf : f.workspace_md 0 = some fwd_ws)
    (hne : fwd_ws.nelems with_padding ≠ ws.nelems with_padding) :
    pd.compare_ws ve (some f) = false := by
  have hneq : fwd_ws.equal ws = false := by
    cases h : fwd_ws.equal ws
    · rfl
    · exact absurd (memory_desc_t.nelems_eq_of_equal fwd_ws ws with_padding h) hne
  cases ve <;>
    simp [primitive_desc_t.compare_ws, primitive_desc_t.compare_ws_ve,
      primitive_desc_t.compare_ws_generic, hws, hf, hneq]

/-- C9, on a backward descriptor over the dense 2 x 3 data (a workspace of 6
bytes) against a forward descriptor over dense 2 x 16 data (a workspace of 32
bytes). -/
theorem compare_ws_rejects_count_mismatch_witness :
    (primitive_desc_t.bnorm_bwd
        ((batch_normalization_bwd_pd_t.create
          (example_bnorm_desc prop_kind_t.backward example_plain_md 4)
          default_attr).init_default_ws 8)).compare_ws true
      (some (primitive_desc_t.bnorm_fwd
        ((batch_normalization_fwd_pd_t.create
          (example_bnorm_desc prop_kind_t.forward_training example_wide_md 4)
          default_attr).init_default_ws 8))) = false :=
  compare_ws_rejects_count_mismatch true
    (primitive_desc_t.bnorm_bwd
      ((batch_normalization_bwd_pd_t.create
        (example_bnorm_desc prop_kind_t.backward example_plain_md 4)
        default_attr).init_default_ws 8))
    (primitive_desc_t.bnorm_fwd
      ((batch_normalization_fwd_pd_t.create
        (example_bnorm_desc prop_kind_t.forward_training example_wide_md 4)
        default_attr).init_default_ws 8))
    ((batch_normalization_bwd_pd_t.create
      (example_bnorm_desc prop_kind_t.backward example_plain_md 4)
      default_attr).init_default_ws 8).ws_md_
    ((batch_normalization_fwd_pd_t.create
      (example_bnorm_desc prop_kind_t.forward_training example_wide_md 4)
      default_attr).init_default_ws 8).ws_md_
    false (by decide) (by decide) (by decide)

/-- C10 at a backward descriptor whose fuse-norm-relu flag is clear and a null
forward hint: `workspace_md(0)` is the zero memory descriptor behind a non-null
pointer, the guard on a null workspace pointer is not taken, and `compare_ws`
returns false in both compiled variants. -/
theorem compare_ws_zero_workspace_null_hint :
    (batch_normalization_bwd_pd_t.create
        (example_bnorm_desc prop_kind_t.backward example_plain_md 0)
        default_attr).fuse_norm_relu = false
    ∧ (primitive_desc_t.bnorm_bwd
        (batch_normalization_bwd_pd_t.create
          (example_bnorm_desc prop_kind_t.backward example_plain_md 0)
          default_attr)).workspace_md 0 = some glob_zero_md
    ∧ (primitive_desc_t.bnorm_bwd
        (batch_normalization_bwd_pd_t.create
          (example_bnorm_desc prop_kind_t.backward example_plain_md 0)
          default_attr)).compare_ws true none = false
    ∧ (primitive_desc_t.bnorm_bwd
        (batch_normalization_bwd_pd_t.create
          (example_bnorm_desc prop_kind_t.backward example_plain_md 0)
          default_attr)).compare_ws false none = false := by
  decide


/-! ## Validation and engine selection of the reorder dispatch -/

/-- The loop over the candidates never reports `invalid_arguments`: its status
is `unimplemented`, or what the handle assignment reports. -/
theorem reorder_dispatch_loop_status (new_succeeds : Bool) (e : engine_t)
    (attr : primitive_attr_t) (src_engine : engine_t) (src_md : memory_desc_t)
    (dst_engine : engine_t) (dst_md : memory_desc_t) :
    ∀ (r : List (Option rpd_create_f)) (pos : Nat) (invoked : List Nat) (out : reorder_outcome),
      reorder_dispatch_loop new_succeeds e attr src_engine src_md dst_engine dst_md
          r pos invoked = some out →
      out.status ≠ status_t.invalid_arguments := by
  intro r
  induction r with
  | nil =>
    intro pos invoked out h
    simp [reorder_dispatch_loop] at h
  | cons x rest ih =>
    intro pos invoked out h
    cases x with
    | none =>
      simp only [reorder_dispatch_loop, Option.some.injEq] at h
      rw [← h]
      simp
    | some g =>
      by_cases hg : (g e attr src_engine src_md dst_engine dst_md).1 = status_t.success
      · simp only [reorder_dispatch_loop, hg, if_true, Option.some.injEq] at h
        rw [← h]
        cases new_succeeds <;> simp [safe_ptr_assign]
      · rw [reorder_dispatch_loop_step _ _ _ _ _ _ _ _ _ _ _ hg] at h
        exact ih _ _ _ h

/-- A call with a null required argument is rejected. -/
theorem reorder_create_null (env : dispatch_env) (c : reorder_call)
    (hnull : c.reorder_pd_iface = none ∨ c.src_engine = none ∨ c.src_md = none
      ∨ c.dst_engine = none ∨ c.dst_md = none) :
    dnnl_reorder_primitive_desc_create env c
      = some { status := status_t.invalid_arguments, written := none, invoked := [],
               deleted := false } := by
  obtain ⟨p, sm, se, dm, de, at_⟩ := c
  cases p <;> cases se <;> cases sm <;> cases de <;> cases dm <;>
    simp_all [dnnl_reorder_primitive_desc_create]

/-- A call whose engine kinds differ while neither is the CPU kind is
rejected. -/
theorem reorder_create_kind_mismatch (env : dispatch_env) (src_engine dst_engine : engine_t)
    (src_md dst_md : memory_desc_t) (attr : Option primitive_attr_t)
    (hne : src_engine.kind ≠ dst_engine.kind) (hs : src_engine.kind ≠ engine_kind_t.cpu)
    (hd : dst_engine.kind ≠ engine_kind_t.cpu) :
    dnnl_reorder_primitive_desc_create env
        { reorder_pd_iface := some (), src_md := some src_md, src_engine := some src_engine,
          dst_md := some dst_md, dst_engine := some dst_engine, attr := attr }
      = some { status := status_t.invalid_arguments, written := none, invoked := [],
               deleted := false } := by
  have hk : ¬ (src_engine.kind ≠ dst_engine.kind →
      src_engine.kind = engine_kind_t.cpu ∨ dst_engine.kind = engine_kind_t.cpu) := by
    intro h
    rcases h hne with h1 | h1
    · exact hs h1
    · exact hd h1
  simp only [dnnl_reorder_primitive_desc_create, if_pos hk]

/-- A call with an accepted engine-kind pairing and inconsistent memory
descriptors is rejected. -/
theorem reorder_create_inconsistent (env : dispatch_env) (src_engine dst_engine : engine_t)
    (src_md dst_md : memory_desc_t) (attr : Option primitive_attr_t)
    (hkind : src_engine.kind ≠ dst_engine.kind →
      src_engine.kind = engine_kind_t.cpu ∨ dst_engine.kind = engine_kind_t.cpu)
    (hcons : env.consistent_with src_md dst_md = false) :
    dnnl_reorder_primitive_desc_create env
        { reorder_pd_iface := some (), src_md := some src_md, src_engine := some src_engine,
          dst_md := some dst_md, dst_engine := some dst_engine, attr := attr }
      = some { status := status_t.invalid_arguments, written := none, invoked := [],
               deleted := false } := by
  have hk : ¬ ¬ (src_engine.kind ≠ dst_engine.kind →
      src_engine.kind = engine_kind_t.cpu ∨ dst_engine.kind = engine_kind_t.cpu) :=
    not_not.mpr hkind
  have hc : ¬ (env.consistent_with src_md dst_md = true) := by simp [hcons]
  simp only [dnnl_reorder_primitive_desc_create, if_neg hk, if_pos hc]

/-- The loop passes over a run of candidates that all decline: it calls each
of them and goes on with the entries after the run. -/
theorem reorder_dispatch_loop_skip (new_succeeds : Bool) (e : engine_t)
    (attr : primitive_attr_t) (src_engine : engine_t) (src_md : memory_desc_t)
    (dst_engine : engine_t) (dst_md : memory_desc_t) :
    ∀ (l : List rpd_create_f) (pos : Nat) (invoked : List Nat)
      (tl : List (Option rpd_create_f)),
      (∀ h ∈ l, (h e attr src_engine src_md dst_engine dst_md).1 ≠ status_t.success) →
      reorder_dispatch_loop new_succeeds e attr src_engine src_md dst_engine dst_md
          (l.map some ++ tl) pos invoked
        = reorder_dispatch_loop new_succeeds e attr src_engine src_md dst_engine dst_md
          tl (pos + l.length) (invoked ++ List.range' pos l.length) := by
  intro l
  induction l with
  | nil => intro pos invoked tl _; simp
  | cons x l ih =>
    intro pos invoked tl hl
    have e1 : pos + 1 + l.length = pos + (x :: l).length := by
      rw [List.length_cons]; omega
    have e2 : invoked ++ [pos] ++ List.range' (pos + 1) l.length
        = invoked ++ List.range' pos (x :: l).length := by
      simp [List.range'_succ]
    rw [List.map_cons, List.cons_append,
      reorder_dispatch_loop_step _ _ _ _ _ _ _ _ _ _ _ (hl x (List.mem_cons_self x l)),
      ih (pos + 1) (invoked ++ [pos]) tl (fun h hh => hl h (List.mem_cons_of_mem x hh)),
      e1, e2]

/-- C11. `dnnl_reorder_primitive_desc_create` returns `invalid_arguments`,
writes no output handle and invokes no candidate whenever the pointer to the
output handle, the source engine, the source memory descriptor, the
destination engine or the destination memory descriptor is null. A null
attribute pointer is no reason for rejection: the call behaves as the one
that passes the default attributes. -/
theorem reorder_create_null_arguments (env : dispatch_env) :
    (∀ c : reorder_call,
      (c.reorder_pd_iface = none ∨ c.src_engine = none ∨ c.src_md = none
        ∨ c.dst_engine = none ∨ c.dst_md = none) →
      dnnl_reorder_primitive_desc_create env c
        = some { status := status_t.invalid_arguments, written := none, invoked := [],
                 deleted := false })
    ∧ (∀ (p : Option Unit) (src_md dst_md : Option memory_desc_t)
        (src_engine dst_engine : Option engine_t),
      dnnl_reorder_primitive_desc_create env
          { reorder_pd_iface := p, src_md := src_md, src_engine := src_engine,
            dst_md := dst_md, dst_engine := dst_engine, attr := none }
        = dnnl_reorder_primitive_desc_create env
          { reorder_pd_iface := p, src_md := src_md, src_engine := src_engine,
            dst_md := dst_md, dst_engine := dst_engine, attr := some default_attr }) := by
  constructor
  · intro c hnull
    exact reorder_create_null env c hnull
  · intro p src_md dst_md src_engine dst_engine
    cases p <;> cases src_engine <;> cases src_md <;> cases dst_engine <;> cases dst_md <;>
      simp [dnnl_reorder_primitive_desc_create]

/-- C11, on a call whose destination engine is null, over an array with an
accepting candidate: the call is rejected and nothing is written. -/
theorem reorder_create_null_arguments_witness :
    dnnl_reorder_primitive_desc_create (example_env [some (accepting_candidate 1), none] true)
        { reorder_pd_iface := some (), src_md := some example_plain_md,
          src_engine := some example_cpu_engine, dst_md := some example_plain_md,
          dst_engine := none, attr := none }
      = some { status := status_t.invalid_arguments, written := none, invoked := [],
               deleted := false } :=
  (reorder_create_null_arguments (example_env [some (accepting_candidate 1), none] true)).1
    { reorder_pd_iface := some (), src_md := some example_plain_md,
      src_engine := some example_cpu_engine, dst_md := some example_plain_md,
      dst_engine := none, attr := none }
    (Or.inr (Or.inr (Or.inr (Or.inl rfl))))

/-- C12. With all required arguments non-null, the engine-kind check of
`dnnl_reorder_primitive_desc_create` rejects the request with
`invalid_arguments` when the source and destination engine kinds differ and
neither is the CPU kind, whatever the memory descriptors and candidates are;
every other request (equal kinds, or one of them CPU) passes the check: its
outcome is that of the consistency test and of the search over the candidates.
For consistent memory descriptors the call returns `invalid_arguments` if and
only if the kinds differ and neither is CPU. -/
theorem reorder_create_engine_kind_check (env : dispatch_env)
    (src_engine dst_engine : engine_t) (src_md dst_md : memory_desc_t)
    (attr : Option primitive_attr_t) :
    ((src_engine.kind ≠ dst_engine.kind ∧ src_engine.kind ≠ engine_kind_t.cpu
        ∧ dst_engine.kind ≠ engine_kind_t.cpu) →
      dnnl_reorder_primitive_desc_create env
          { reorder_pd_iface := some (), src_md := some src_md, src_engine := some src_engine,
            dst_md := some dst_md, dst_engine := some dst_engine, attr := attr }
        = some { status := status_t.invalid_arguments, written := none, invoked := [],
                 deleted := false })
    ∧ (¬ (src_engine.kind ≠ dst_engine.kind ∧ src_engine.kind ≠ engine_kind_t.cpu
        ∧ dst_engine.kind ≠ engine_kind_t.cpu) →
      dnnl_reorder_primitive_desc_create env
          { reorder_pd_iface := some (), src_md := some src_md, src_engine := some src_engine,
            dst_md := some dst_md, dst_engine := some dst_engine, attr := attr }
        = if env.consistent_with src_md dst_md = true then
            reorder_dispatch_loop env.new_succeeds
              (get_reorder_engine env.is_native_runtime src_engine dst_engine)
              (attr.getD default_attr) src_engine src_md dst_engine dst_md
              (env.get_reorder_implementation_list
                (get_reorder_engine env.is_native_runtime src_engine dst_engine) src_md dst_md)
              0 []
          else
            some { status := status_t.invalid_arguments, written := none, invoked := [],
                   deleted := false })
    ∧ (env.consistent_with src_md dst_md = true →
      ((∃ out, dnnl_reorder_primitive_desc_create env
            { reorder_pd_iface := some (), src_md := some src_md,
              src_engine := some src_engine, dst_md := some dst_md,
              dst_engine := some dst_engine, attr := attr } = some out
          ∧ out.status = status_t.invalid_arguments)
        ↔ (src_engine.kind ≠ dst_engine.kind ∧ src_engine.kind ≠ engine_kind_t.cpu
            ∧ dst_engine.kind ≠ engine_kind_t.cpu))) := by
  have hpass : ¬ (src_engine.kind ≠ dst_engine.kind ∧ src_engine.kind ≠ engine_kind_t.cpu
      ∧ dst_engine.kind ≠ engine_kind_t.cpu) →
      (src_engine.kind ≠ dst_engine.kind →
        src_engine.kind = engine_kind_t.cpu ∨ dst_engine.kind = engine_kind_t.cpu) := by
    intro h hne
    by_contra hc
    exact h ⟨hne, fun h1 => hc (Or.inl h1), fun h1 => hc (Or.inr h1)⟩
  refine ⟨?_, ?_, ?_⟩
  · rintro ⟨hne, hs, hd⟩
    exact reorder_create_kind_mismatch env src_engine dst_engine src_md dst_md attr hne hs hd
  · intro h
    by_cases hc : env.consistent_with src_md dst_md = true
    · rw [if_pos hc]
      exact reorder_create_valid env src_engine dst_engine src_md dst_md attr (hpass h) hc
    · rw [if_neg hc]
      exact reorder_create_inconsistent env src_engine dst_engine src_md dst_md attr (hpass h)
        (by simpa using hc)
  · intro hc
    constructor
    · rintro ⟨out, hout, hst⟩
      by_contra h
      rw [reorder_create_valid env src_engine dst_engine src_md dst_md attr (hpass h) hc] at hout
      exact reorder_dispatch_loop_status _ _ _ _ _ _ _ _ _ _ _ hout hst
    · rintro ⟨hne, hs, hd⟩
      exact ⟨_, reorder_create_kind_mismatch env src_engine dst_engine src_md dst_md attr
        hne hs hd, rfl⟩

/-- C12, on two requests over an array with an accepting candidate: an
accelerator paired with an engine of the wildcard kind is rejected; a host
engine paired with an accelerator passes the check and the search succeeds. -/
theorem reorder_create_engine_kind_check_witness :
    dnnl_reorder_primitive_desc_create (example_env [some (accepting_candidate 1), none] true)
        { reorder_pd_iface := some (), src_md := some example_plain_md,
          src_engine := some example_gpu_engine, dst_md := some example_plain_md,
          dst_engine := some { kind := engine_kind_t.any_engine, runtime_kind := 4, id := 9 },
          attr := none }
      = some { status := status_t.invalid_arguments, written := none, invoked := [],
               deleted := false }
    ∧ dnnl_reorder_primitive_desc_create (example_env [some (accepting_candidate 1), none] true)
        { reorder_pd_iface := some (), src_md := some example_plain_md,
          src_engine := some example_cpu_engine, dst_md := some example_plain_md,
          dst_engine := some example_gpu_engine, attr := none }
      = some
          { status := status_t.success
            written :=
              some
                { pd := some { impl := 1, attr := default_attr, src_md := example_plain_md,
                               dst_md := example_plain_md }
                  engine := example_gpu_engine
                  src_engine := example_cpu_engine
                  dst_engine := example_gpu_engine }
            invoked := [0]
            deleted := false } :=
  ⟨(reorder_create_engine_kind_check (example_env [some (accepting_candidate 1), none] true)
      example_gpu_engine { kind := engine_kind_t.any_engine, runtime_kind := 4, id := 9 }
      example_plain_md example_plain_md none).1 (by decide),
    (reorder_create_engine_kind_check (example_env [some (accepting_candidate 1), none] true)
      example_cpu_engine example_gpu_engine example_plain_md example_plain_md none).2.1
      (by decide)⟩

/-- C13. With non-null arguments and an accepted engine-kind pairing,
`dnnl_reorder_primitive_desc_create` returns `invalid_arguments` whenever the
source memory descriptor is not consistent with the destination one, whatever
the candidate array of the engine contains; no candidate is invoked and no
handle is written. -/
theorem reorder_create_inconsistent_descriptors (env : dispatch_env)
    (src_engine dst_engine : engine_t) (src_md dst_md : memory_desc_t)
    (attr : Option primitive_attr_t)
    (hkind : src_engine.kind ≠ dst_engine.kind →
      src_engine.kind = engine_kind_t.cpu ∨ dst_engine.kind = engine_kind_t.cpu)
    (hcons : env.consistent_with src_md dst_md = false) :
    dnnl_reorder_primitive_desc_create env
        { reorder_pd_iface := some (), src_md := some src_md, src_engine := some src_engine,
          dst_md := some dst_md, dst_engine := some dst_engine, attr := attr }
      = some { status := status_t.invalid_arguments, written := none, invoked := [],
               deleted := false } :=
  reorder_create_inconsistent env src_engine dst_engine src_md dst_md attr hkind hcons

/-- C13, on a rank-2 source and the rank-0 destination over an array with an
accepting candidate. -/
theorem reorder_create_inconsistent_descriptors_witness :
    dnnl_reorder_primitive_desc_create (example_env [some (accepting_candidate 1), none] true)
        { reorder_pd_iface := some (), src_md := some example_plain_md,
          src_engine := some example_cpu_engine, dst_md := some glob_zero_md,
          dst_engine := some example_cpu_engine, attr := none }
      = some { status := status_t.invalid_arguments, written := none, invoked := [],
               deleted := false } :=
  reorder_create_inconsistent_descriptors
    (example_env [some (accepting_candidate 1), none] true)
    example_cpu_engine example_cpu_engine example_plain_md glob_zero_md none
    (fun h => absurd rfl h) (by decide)

/-- C14. Whenever `dnnl_reorder_primitive_desc_create` fails its own
validation (a null required argument, engine kinds that differ with neither
being CPU, or inconsistent memory descriptors) it invokes no candidate: the
list of invocations is empty, and the outcome is the same for every native
runtime test and every candidate array, which are not consulted. -/
theorem reorder_create_validation_short_circuit (env : dispatch_env) (c : reorder_call)
    (hfail :
      (c.reorder_pd_iface = none ∨ c.src_engine = none ∨ c.src_md = none
        ∨ c.dst_engine = none ∨ c.dst_md = none)
      ∨ (∃ s d, c.src_engine = some s ∧ c.dst_engine = some d ∧ s.kind ≠ d.kind
          ∧ s.kind ≠ engine_kind_t.cpu ∧ d.kind ≠ engine_kind_t.cpu)
      ∨ (∃ sm dm, c.src_md = some sm ∧ c.dst_md = some dm
          ∧ env.consistent_with sm dm = false)) :
    (∃ out, dnnl_reorder_primitive_desc_create env c = some out
      ∧ out.status = status_t.invalid_arguments ∧ out.invoked.length = 0
      ∧ out.written = none)
    ∧ (∀ (is_native_runtime : Nat → Bool)
        (list : engine_t → memory_desc_t → memory_desc_t → List (Option rpd_create_f))
        (new_succeeds : Bool),
      dnnl_reorder_primitive_desc_create
          { is_native_runtime := is_native_runtime, consistent_with := env.consistent_with,
            get_reorder_implementation_list := list, new_succeeds := new_succeeds } c
        = dnnl_reorder_primitive_desc_create env c) := by
  have key : ∀ env2 : dispatch_env, env2.consistent_with = env.consistent_with →
      dnnl_reorder_primitive_desc_create env2 c
        = some { status := status_t.invalid_arguments, written := none, invoked := [],
                 deleted := false } := by
    intro env2 h2
    by_cases hnull : c.reorder_pd_iface = none ∨ c.src_engine = none ∨ c.src_md = none
        ∨ c.dst_engine = none ∨ c.dst_md = none
    · exact reorder_create_null env2 c hnull
    · obtain ⟨p, sm, se, dm, de, at_⟩ := c
      cases p with
      | none => exact absurd (Or.inl rfl) hnull
      | some u =>
      cases se with
      | none => exact absurd (Or.inr (Or.inl rfl)) hnull
      | some s =>
      cases sm with
      | none => exact absurd (Or.inr (Or.inr (Or.inl rfl))) hnull
      | some m1 =>
      cases de with
      | none => exact absurd (Or.inr (Or.inr (Or.inr (Or.inl rfl)))) hnull
      | some d =>
      cases dm with
      | none => exact absurd (Or.inr (Or.inr (Or.inr (Or.inr rfl)))) hnull
      | some m2 =>
      cases u
      by_cases hk : s.kind ≠ d.kind ∧ s.kind ≠ engine_kind_t.cpu ∧ d.kind ≠ engine_kind_t.cpu
      · exact reorder_create_kind_mismatch env2 s d m1 m2 at_ hk.1 hk.2.1 hk.2.2
      · have hkind : s.kind ≠ d.kind →
            s.kind = engine_kind_t.cpu ∨ d.kind = engine_kind_t.cpu := by
          intro hne
          by_contra hc
          exact hk ⟨hne, fun h1 => hc (Or.inl h1), fun h1 => hc (Or.inr h1)⟩
        have hcons : env.consistent_with m1 m2 = false := by
          rcases hfail with h | h | h
          · exact absurd h hnull
          · obtain ⟨s', d', hs', hd', h1, h2, h3⟩ := h
            simp only [Option.some.injEq] at hs' hd'
            subst hs' hd'
            exact absurd ⟨h1, h2, h3⟩ hk
          · obtain ⟨sm', dm', hs', hd', h1⟩ := h
            simp only [Option.some.injEq] at hs' hd'
            subst hs' hd'
            exact h1
        exact reorder_create_inconsistent env2 s d m1 m2 at_ hkind (by rw [h2]; exact hcons)
  refine ⟨⟨_, key env rfl, rfl, rfl, rfl⟩, ?_⟩
  intro is_native_runtime list new_succeeds
  rw [key env rfl]
  exact key _ rfl

/-- C14, on a call between an accelerator and an engine of the wildcard kind
over an array with an accepting candidate: no candidate is invoked. -/
theorem reorder_create_validation_short_circuit_witness :
    ∃ out, dnnl_reorder_primitive_desc_create
        (example_env [some (accepting_candidate 1), none] true)
        { reorder_pd_iface := some (), src_md := some example_plain_md,
          src_engine := some example_gpu_engine, dst_md := some example_plain_md,
          dst_engine := some { kind := engine_kind_t.any_engine, runtime_kind := 4, id := 9 },
          attr := none } = some out
      ∧ out.status = status_t.invalid_arguments ∧ out.invoked.length = 0
      ∧ out.written = none :=
  (reorder_create_validation_short_circuit
    (example_env [some (accepting_candidate 1), none] true)
    { reorder_pd_iface := some (), src_md := some example_plain_md,
      src_engine := some example_gpu_engine, dst_md := some example_plain_md,
      dst_engine := some { kind := engine_kind_t.any_engine, runtime_kind := 4, id := 9 },
      attr := none }
    (Or.inr (Or.inl ⟨example_gpu_engine,
      { kind := engine_kind_t.any_engine, runtime_kind := 4, id := 9 }, rfl, rfl,
      by decide, by decide, by decide⟩))).1

/-- C15, as the code has it. A candidate that reports `out_of_memory` is
treated like any other candidate that does not report `success`: when the
candidates before it declined, the search goes on with the entry after it, and
the call returns what the search over the remaining entries returns (the first
later success, `unimplemented` when it meets the `nullptr` entry first). -/
theorem reorder_create_continues_after_out_of_memory (env : dispatch_env)
    (src_engine dst_engine : engine_t) (src_md dst_md : memory_desc_t)
    (attr : Option primitive_attr_t) (pre : List rpd_create_f) (g : rpd_create_f)
    (rest : List (Option rpd_create_f))
    (hkind : src_engine.kind ≠ dst_engine.kind →
      src_engine.kind = engine_kind_t.cpu ∨ dst_engine.kind = engine_kind_t.cpu)
    (hcons : env.consistent_with src_md dst_md = true)
    (hlist : env.get_reorder_implementation_list
        (get_reorder_engine env.is_native_runtime src_engine dst_engine) src_md dst_md
      = pre.map some ++ some g :: rest)
    (hpre : ∀ h ∈ pre,
      (h (get_reorder_engine env.is_native_runtime src_engine dst_engine)
        (attr.getD default_attr) src_engine src_md dst_engine dst_md).1 ≠ status_t.success)
    (hg : (g (get_reorder_engine env.is_native_runtime src_engine dst_engine)
        (attr.getD default_attr) src_engine src_md dst_engine dst_md).1
      = status_t.out_of_memory) :
    dnnl_reorder_primitive_desc_create env
        { reorder_pd_iface := some (), src_md := some src_md, src_engine := some src_engine,
          dst_md := some dst_md, dst_engine := some dst_engine, attr := attr }
      = reorder_dispatch_loop env.new_succeeds
          (get_reorder_engine env.is_native_runtime src_engine dst_engine)
          (attr.getD default_attr) src_engine src_md dst_engine dst_md
          rest (pre.length + 1) (List.range (pre.length + 1)) := by
  rw [reorder_create_valid env src_engine dst_engine src_md dst_md attr hkind hcons, hlist]
  have hgn : (g (get_reorder_engine env.is_native_runtime src_engine dst_engine)
      (attr.getD default_attr) src_engine src_md dst_engine dst_md).1 ≠ status_t.success := by
    rw [hg]
    decide
  have h1 := reorder_dispatch_loop_skip env.new_succeeds _ _ _ _ _ _ (pre ++ [g]) 0 [] rest (by
    intro h hh
    rw [List.mem_append, List.mem_singleton] at hh
    rcases hh with hh | hh
    · exact hpre h hh
    · rw [hh]; exact hgn)
  simp only [List.map_append, List.map_cons, List.map_nil, List.append_assoc,
    List.singleton_append, List.length_append, List.length_singleton, List.nil_append,
    Nat.zero_add] at h1
  rw [h1, List.range_eq_range']

/-- C15, on an array of a candidate reporting `out_of_memory` followed by a
declining one: the search goes on and ends at the `nullptr` entry. -/
theorem reorder_create_continues_after_out_of_memory_witness :
    dnnl_reorder_primitive_desc_create
        (example_env
          [some (declining_candidate status_t.out_of_memory),
            some (declining_candidate status_t.unimplemented), none] true)
        { reorder_pd_iface := some (), src_md := some example_plain_md,
          src_engine := some example_cpu_engine, dst_md := some example_plain_md,
          dst_engine := some example_cpu_engine, attr := none }
      = some { status := status_t.unimplemented, written := none, invoked := [0, 1],
               deleted := false } :=
  reorder_create_continues_after_out_of_memory
    (example_env
      [some (declining_candidate status_t.out_of_memory),
        some (declining_candidate status_t.unimplemented), none] true)
    example_cpu_engine example_cpu_engine example_plain_md example_plain_md none
    [] (declining_candidate status_t.out_of_memory)
    [some (declining_candidate status_t.unimplemented), none]
    (fun h => absurd rfl h) rfl rfl (fun _ hh => absurd hh (List.not_mem_nil _)) rfl

/-- C15 as stated fails: on an array of a candidate reporting `out_of_memory`
followed by an accepting one, the call invokes both and returns `success` with
the descriptor of the second, not `out_of_memory`. -/
theorem reorder_create_out_of_memory_not_aborting :
    dnnl_reorder_primitive_desc_create
        (example_env
          [some (declining_candidate status_t.out_of_memory), some (accepting_candidate 2),
            none] true)
        { reorder_pd_iface := some (), src_md := some example_plain_md,
          src_engine := some example_cpu_engine, dst_md := some example_plain_md,
          dst_engine := some example_cpu_engine, attr := none }
      = some
          { status := status_t.success
            written :=
              some
                { pd := some { impl := 2, attr := default_attr, src_md := example_plain_md,
                               dst_md := example_plain_md }
                  engine := example_cpu_engine
                  src_engine := example_cpu_engine
                  dst_engine := example_cpu_engine }
            invoked := [0, 1]
            deleted := false } := by
  decide

/-- C16. Engine selection, both native: for engines whose runtimes are both
native, `get_reorder_engine` returns the source engine. -/
theorem get_reorder_engine_both_native (is_native_runtime : Nat → Bool)
    (src_engine dst_engine : engine_t)
    (_hs : is_native_runtime src_engine.runtime_kind = true)
    (hd : is_native_runtime dst_engine.runtime_kind = true) :
    get_reorder_engine is_native_runtime src_engine dst_engine = src_engine := by
  simp [get_reorder_engine, hd]

/-- C16, on two host engines with the native runtime kind 1. -/
theorem get_reorder_engine_both_native_witness :
    get_reorder_engine (fun k => k == 1) example_cpu_engine example_cpu_engine_b
      = example_cpu_engine :=
  get_reorder_engine_both_native (fun k => k == 1) example_cpu_engine example_cpu_engine_b
    rfl rfl

/-- C17. Engine selection, mixed: when exactly one of the two engines has a
native runtime, `get_reorder_engine` returns the other one, the engine with
the non-native runtime: the destination when the source is the native one, the
source when the destination is. -/
theorem get_reorder_engine_mixed (is_native_runtime : Nat → Bool)
    (src_engine dst_engine : engine_t)
    (hone : is_native_runtime src_engine.runtime_kind
      ≠ is_native_runtime dst_engine.runtime_kind) :
    is_native_runtime
        (get_reorder_engine is_native_runtime src_engine dst_engine).runtime_kind = false
    ∧ get_reorder_engine is_native_runtime src_engine dst_engine
        = (if is_native_runtime src_engine.runtime_kind then dst_engine else src_engine) := by
  cases hs : is_native_runtime src_engine.runtime_kind <;>
    cases hd : is_native_runtime dst_engine.runtime_kind <;>
    simp_all [get_reorder_engine]

/-- C17, on a native host engine and a non-native accelerator, in both
directions: the accelerator is selected. -/
theorem get_reorder_engine_mixed_witness :
    get_reorder_engine (fun k => k == 1) example_cpu_engine example_gpu_engine
      = example_gpu_engine
    ∧ get_reorder_engine (fun k => k == 1) example_gpu_engine example_cpu_engine
      = example_gpu_engine :=
  ⟨(get_reorder_engine_mixed (fun k => k == 1) example_cpu_engine example_gpu_engine
      (by decide)).2,
    (get_reorder_engine_mixed (fun k => k == 1) example_gpu_engine example_cpu_engine
      (by decide)).2⟩

/-- C18, as the code has it. Engine selection, both non-native: for engines
whose runtimes are both non-native, `get_reorder_engine` returns the source
engine, except when the source engine is of the CPU kind and the destination
engine is not, where it returns the destination engine. In particular it
returns the source engine between two engines of the GPU kind. -/
theorem get_reorder_engine_both_non_native (is_native_runtime : Nat → Bool)
    (src_engine dst_engine : engine_t)
    (hs : is_native_runtime src_engine.runtime_kind = false)
    (hd : is_native_runtime dst_engine.runtime_kind = false) :
    get_reorder_engine is_native_runtime src_engine dst_engine
        = (if src_engine.kind = engine_kind_t.cpu ∧ dst_engine.kind ≠ engine_kind_t.cpu
           then dst_engine else src_engine)
    ∧ (src_engine.kind = engine_kind_t.gpu → dst_engine.kind = engine_kind_t.gpu →
        get_reorder_engine is_native_runtime src_engine dst_engine = src_engine) := by
  constructor
  · by_cases h1 : dst_engine.kind = engine_kind_t.cpu <;>
      by_cases h2 : src_engine.kind = engine_kind_t.cpu <;>
      simp [get_reorder_engine, hs, hd, h1, h2]
  · intro h1 h2
    simp [get_reorder_engine, hs, hd, h1, h2]

/-- C18 as the code has it, on two accelerators with a non-native runtime: the
source is selected. -/
theorem get_reorder_engine_both_non_native_witness :
    get_reorder_engine (fun k => k == 1) example_gpu_engine example_gpu_engine_b
      = example_gpu_engine :=
  (get_reorder_engine_both_non_native (fun k => k == 1) example_gpu_engine
    example_gpu_engine_b rfl rfl).2 rfl rfl

/-- C18 as stated fails: between a host engine with a non-native runtime and
an accelerator with a non-native runtime, `get_reorder_engine` returns the
destination (the accelerator), not the source. -/
theorem get_reorder_engine_non_native_cpu_source :
    (fun k => k == 1) example_cpu_engine_non_native.runtime_kind = false
    ∧ (fun k => k == 1) example_gpu_engine.runtime_kind = false
    ∧ get_reorder_engine (fun k => k == 1) example_cpu_engine_non_native example_gpu_engine
      = example_gpu_engine
    ∧ get_reorder_engine (fun k => k == 1) example_cpu_engine_non_native example_gpu_engine
      ≠ example_cpu_engine_non_native := by
  decide

/-- The closed form of `partition_unit_diff`: thread `ithr` gets
`n / nthr` values, one more when `ithr < n % nthr`, starting at
`ithr * (n / nthr) + min ithr (n % nthr)`; a thread that gets nothing is given
the offset 0. -/
theorem partition_unit_diff_closed_form (ithr nthr n : Int) (hn : 0 ≤ n) (ht : 1 ≤ nthr)
    (hi0 : 0 ≤ ithr) (hi : ithr < nthr) :
    partition_unit_diff ithr nthr n
      = (if n / nthr + (if ithr < n % nthr then 1 else 0) = 0 then 0
         else ithr * (n / nthr) + min ithr (n % nthr),
         n / nthr + (if ithr < n % nthr then 1 else 0)) := by
  have htd : Int.tdiv n nthr = n / nthr := Int.tdiv_eq_ediv hn (by omega)
  have hq : 0 ≤ n / nthr := Int.ediv_nonneg hn (by omega)
  have hr0 : 0 ≤ n % nthr := Int.emod_nonneg n (by omega)
  have hr1 : n % nthr < nthr := Int.emod_lt_of_pos n (by omega)
  have hdiv : nthr * (n / nthr) + n % nthr = n := Int.ediv_add_emod n nthr
  unfold partition_unit_diff
  rw [htd]
  generalize n / nthr = q at *
  generalize n % nthr = r at *
  have hqi : q * (ithr + 1) ≤ q * nthr := mul_le_mul_of_nonneg_left (by omega) hq
  have hqi0 : 0 ≤ q * ithr := mul_nonneg hq hi0
  by_cases hq0 : q = 0
  · subst hq0
    have hnr : n = r := by linarith
    subst hnr
    have ht0 : n - nthr < 0 := by omega
    have hi' : ¬ ithr < 0 := by omega
    simp only [if_true, one_mul, ht0, hi', if_false, add_zero, mul_zero, zero_add]
    by_cases hlt : ithr < n
    · have h1 : ¬ (ithr ≥ n) := by omega
      have h2 : ¬ (ithr + 1 > n) := by omega
      have hmin : min ithr n = ithr := min_eq_left (by omega)
      simp only [hlt, h1, h2, if_true, if_false, hmin, one_ne_zero]
    · have h1 : ithr ≥ n := by omega
      have h2 : ¬ ((0 : Int) + 0 > n) := by omega
      simp only [hlt, h1, h2, if_true, if_false]
  · have hq1 : 1 ≤ q := by omega
    simp only [hq0, if_false]
    have htail : n - q * nthr = r := by linarith
    rw [htail]
    have hr' : ¬ r < 0 := by omega
    simp only [hr', if_false]
    by_cases hlt : ithr < r
    · simp only [hlt, if_true]
      have hb : (q + 1) * ithr + (q + 1) ≤ n := by nlinarith
      have hmin : min ithr r = ithr := min_eq_left (by omega)
      have hne : ¬ (q + 1 = 0) := by omega
      have h1 : ¬ ((q + 1) * ithr ≥ n) := by linarith
      have h2 : ¬ ((q + 1) * ithr + (q + 1) > n) := by linarith
      simp only [h1, h2, if_false, hne, hmin, Prod.mk.injEq, and_true]
      ring
    · simp only [hlt, if_false]
      have hb : q * ithr + r + q ≤ n := by nlinarith
      have hmin : min ithr r = r := min_eq_right (by omega)
      have h1 : ¬ (q * ithr + r ≥ n) := by linarith
      have h2 : ¬ (q * ithr + r + q > n) := by linarith
      simp only [h1, h2, if_false, hq0, add_zero, hmin, Prod.mk.injEq, and_true]
      ring

/-- The closed-form range starts are monotone in the worker index. -/
theorem partition_start_mono (nthr n i j : Int) (hn : 0 ≤ n) (ht : 1 ≤ nthr) (hij : i ≤ j) :
    partition_start nthr n i ≤ partition_start nthr n j := by
  unfold partition_start
  have hq : 0 ≤ n / nthr := Int.ediv_nonneg hn (by omega)
  have h1 : i * (n / nthr) ≤ j * (n / nthr) := mul_le_mul_of_nonneg_right hij hq
  have h2 : min i (n % nthr) ≤ min j (n % nthr) := min_le_min_right _ hij
  omega

/-- The closed-form range starts begin at 0 and end at `n`. -/
theorem partition_start_ends (nthr n : Int) (ht : 1 ≤ nthr) :
    partition_start nthr n 0 = 0 ∧ partition_start nthr n nthr = n := by
  have hr0 : 0 ≤ n % nthr := Int.emod_nonneg n (by omega)
  have hr1 : n % nthr < nthr := Int.emod_lt_of_pos n (by omega)
  have hdiv : nthr * (n / nthr) + n % nthr = n := Int.ediv_add_emod n nthr
  unfold partition_start
  constructor
  · rw [min_eq_left hr0]; simp
  · rw [min_eq_right (by omega)]; exact hdiv

/-- The range of a thread in terms of the closed-form starts: its size is the
distance to the next start, and when it is not empty it begins at the thread's
own start. -/
theorem partition_unit_diff_start (ithr nthr n : Int) (hn : 0 ≤ n) (ht : 1 ≤ nthr)
    (hi0 : 0 ≤ ithr) (hi : ithr < nthr) :
    (partition_unit_diff ithr nthr n).2
        = partition_start nthr n (ithr + 1) - partition_start nthr n ithr
    ∧ ((partition_unit_diff ithr nthr n).2 = 0 ∧ (partition_unit_diff ithr nthr n).1 = 0
        ∨ (partition_unit_diff ithr nthr n).1 = partition_start nthr n ithr)
    ∧ 0 ≤ (partition_unit_diff ithr nthr n).1
    ∧ 0 ≤ (partition_unit_diff ithr nthr n).2 := by
  rw [partition_unit_diff_closed_form ithr nthr n hn ht hi0 hi]
  have hq : 0 ≤ n / nthr := Int.ediv_nonneg hn (by omega)
  have hr0 : 0 ≤ n % nthr := Int.emod_nonneg n (by omega)
  have hqi0 : 0 ≤ ithr * (n / nthr) := mul_nonneg hi0 hq
  unfold partition_start
  generalize n / nthr = q at *
  generalize n % nthr = r at *
  simp only []
  have hmul : (ithr + 1) * q = ithr * q + q := by ring
  rw [hmul]
  by_cases hlt : ithr < r
  · have hm1 : min ithr r = ithr := min_eq_left (by omega)
    have hm2 : min (ithr + 1) r = ithr + 1 := min_eq_left (by omega)
    have hne : ¬ (q + 1 = 0) := by omega
    simp only [hlt, if_true, hm1, hm2, hne, if_false]
    refine ⟨by omega, Or.inr trivial, by omega, by omega⟩
  · have hm1 : min ithr r = r := min_eq_right (by omega)
    have hm2 : min (ithr + 1) r = r := min_eq_right (by omega)
    simp only [hlt, if_false, hm1, hm2, add_zero]
    by_cases hq0 : q = 0
    · simp only [hq0, if_true]
      refine ⟨by omega, Or.inl ⟨trivial, trivial⟩, by omega, by omega⟩
    · simp only [hq0, if_false]
      refine ⟨by omega, Or.inr trivial, by omega, by omega⟩

/-- The sizes of the ranges of the first `k` threads add up to the closed-form
start of thread `k`. -/
theorem partition_unit_diff_sum (nthr n : Int) (hn : 0 ≤ n) (ht : 1 ≤ nthr) :
    ∀ k : Nat, (k : Int) ≤ nthr →
      ((List.range k).map (fun i : Nat => (partition_unit_diff (i : Int) nthr n).2)).sum
        = partition_start nthr n k := by
  intro k
  induction k with
  | zero =>
    intro _
    simp [(partition_start_ends nthr n ht).1]
  | succ k ih =>
    intro hk
    have hk' : (k : Int) < nthr := by push_cast at hk; omega
    rw [List.range_succ, List.map_append, List.sum_append, ih (by omega)]
    simp only [List.map_cons, List.map_nil, List.sum_cons, List.sum_nil, add_zero]
    rw [(partition_unit_diff_start (k : Int) nthr n hn ht (by omega) hk').1]
    push_cast
    ring

/-- Every position below the closed-form start of thread `k` lies between the
starts of two consecutive threads before `k`. -/
theorem partition_start_locate (nthr n x : Int) (ht : 1 ≤ nthr) (hx : 0 ≤ x) :
    ∀ k : Nat, x < partition_start nthr n k →
      ∃ i : Int, 0 ≤ i ∧ i < k ∧ partition_start nthr n i ≤ x
        ∧ x < partition_start nthr n (i + 1) := by
  intro k
  induction k with
  | zero =>
    intro h
    rw [Nat.cast_zero, (partition_start_ends nthr n ht).1] at h
    omega
  | succ k ih =>
    intro h
    by_cases hk : x < partition_start nthr n k
    · obtain ⟨i, h0, h1, h2, h3⟩ := ih hk
      exact ⟨i, h0, by push_cast; omega, h2, h3⟩
    · refine ⟨k, by omega, by push_cast; omega, by omega, ?_⟩
      push_cast at h
      exact h

/-- C20. `partition_unit_diff` assigns contiguous, non-overlapping ranges that
cover the work. For every `n >= 0` and `nthr >= 1`: each thread
`ithr` in `[0, nthr)` gets `t_block >= 0`, `t_offset >= 0` and
`t_offset + t_block <= n`; the ranges `[t_offset, t_offset + t_block)` of two
distinct threads have no position in common; every position of `[0, n)` lies
in the range of some thread; the blocks add up to `n`; and a range that is not
empty begins where the range of the thread before it ends. -/
theorem partition_unit_diff_covers (nthr n : Int) (hn : 0 ≤ n) (ht : 1 ≤ nthr) :
    (∀ ithr, 0 ≤ ithr → ithr < nthr →
      0 ≤ (partition_unit_diff ithr nthr n).2 ∧ 0 ≤ (partition_unit_diff ithr nthr n).1
        ∧ (partition_unit_diff ithr nthr n).1 + (partition_unit_diff ithr nthr n).2 ≤ n)
    ∧ (∀ i j, 0 ≤ i → i < nthr → 0 ≤ j → j < nthr → i ≠ j → ∀ x,
      ¬ ((partition_unit_diff i nthr n).1 ≤ x
          ∧ x < (partition_unit_diff i nthr n).1 + (partition_unit_diff i nthr n).2
          ∧ (partition_unit_diff j nthr n).1 ≤ x
          ∧ x < (partition_unit_diff j nthr n).1 + (partition_unit_diff j nthr n).2))
    ∧ (∀ x, 0 ≤ x → x < n → ∃ ithr, 0 ≤ ithr ∧ ithr < nthr
        ∧ (partition_unit_diff ithr nthr n).1 ≤ x
        ∧ x < (partition_unit_diff ithr nthr n).1 + (partition_unit_diff ithr nthr n).2)
    ∧ ((List.range nthr.toNat).map
        (fun i : Nat => (partition_unit_diff (i : Int) nthr n).2)).sum = n
    ∧ (∀ ithr, 0 ≤ ithr → ithr + 1 < nthr → 0 < (partition_unit_diff (ithr + 1) nthr n).2 →
      (partition_unit_diff (ithr + 1) nthr n).1
        = (partition_unit_diff ithr nthr n).1 + (partition_unit_diff ithr nthr n).2) := by
  have hend := (partition_start_ends nthr n ht).2
  have hlt : ∀ i j, 0 ≤ i → i < j → j < nthr → ∀ x,
      ¬ ((partition_unit_diff i nthr n).1 ≤ x
          ∧ x < (partition_unit_diff i nthr n).1 + (partition_unit_diff i nthr n).2
          ∧ (partition_unit_diff j nthr n).1 ≤ x
          ∧ x < (partition_unit_diff j nthr n).1 + (partition_unit_diff j nthr n).2) := by
    intro i j hi0 hij hj x ⟨h1, h2, h3, h4⟩
    obtain ⟨bi, oi, _, _⟩ := partition_unit_diff_start i nthr n hn ht hi0 (by omega)
    obtain ⟨bj, oj, _, _⟩ := partition_unit_diff_start j nthr n hn ht (by omega) hj
    have hm := partition_start_mono nthr n (i + 1) j hn ht (by omega)
    rcases oi with ⟨oi1, _⟩ | oi
    · omega
    · rcases oj with ⟨oj1, _⟩ | oj
      · omega
      · omega
  refine ⟨?_, ?_, ?_, ?_, ?_⟩
  · intro ithr hi0 hi
    obtain ⟨b, o, h1, h2⟩ := partition_unit_diff_start ithr nthr n hn ht hi0 hi
    have hm := partition_start_mono nthr n (ithr + 1) nthr hn ht (by omega)
    refine ⟨h2, h1, ?_⟩
    rcases o with ⟨o1, o2⟩ | o
    · omega
    · omega
  · intro i j hi0 hi hj0 hj hne x hx
    rcases lt_or_gt_of_ne hne with h | h
    · exact hlt i j hi0 h hj x hx
    · exact hlt j i hj0 h hi x ⟨hx.2.2.1, hx.2.2.2, hx.1, hx.2.1⟩
  · intro x hx0 hxn
    have hk : x < partition_start nthr n (nthr.toNat : Nat) := by
      rw [Int.toNat_of_nonneg (by omega), hend]
      exact hxn
    obtain ⟨i, h0, h1, h2, h3⟩ := partition_start_locate nthr n x ht hx0 nthr.toNat hk
    rw [Int.toNat_of_nonneg (by omega)] at h1
    obtain ⟨b, o, _, _⟩ := partition_unit_diff_start i nthr n hn ht h0 h1
    refine ⟨i, h0, h1, ?_⟩
    rcases o with ⟨o1, o2⟩ | o
    · omega
    · omega
  · rw [partition_unit_diff_sum nthr n hn ht nthr.toNat (by rw [Int.toNat_of_nonneg (by omega)]),
      Int.toNat_of_nonneg (by omega), hend]
  · intro ithr hi0 hi hpos
    obtain ⟨b1, o1, _, _⟩ := partition_unit_diff_start (ithr + 1) nthr n hn ht (by omega) hi
    obtain ⟨b0, o0, _, _⟩ := partition_unit_diff_start ithr nthr n hn ht hi0 (by omega)
    have c0 := congrArg Prod.snd
      (partition_unit_diff_closed_form ithr nthr n hn ht hi0 (by omega))
    have c1 := congrArg Prod.snd
      (partition_unit_diff_closed_form (ithr + 1) nthr n hn ht (by omega) hi)
    have hq : 0 ≤ n / nthr := Int.ediv_nonneg hn (by omega)
    simp only [] at c0 c1
    have hpos0 : 0 < (partition_unit_diff ithr nthr n).2 := by
      rw [c1] at hpos
      rw [c0]
      split_ifs at hpos ⊢ <;> omega
    rcases o1 with ⟨o1a, _⟩ | o1
    · omega
    · rcases o0 with ⟨o0a, _⟩ | o0
      · omega
      · omega

/-- C20, on 13 values and 5 threads: the ranges are `[0,3)`, `[3,6)`, `[6,9)`,
`[9,11)` and `[11,13)`. -/
theorem partition_unit_diff_covers_witness :
    ((List.range 5).map (fun i : Nat => partition_unit_diff (i : Int) 5 13)
        = [(0, 3), (3, 3), (6, 3), (9, 2), (11, 2)])
    ∧ ((List.range (5 : Int).toNat).map
        (fun i : Nat => (partition_unit_diff (i : Int) 5 13).2)).sum = 13 :=
  ⟨by decide, (partition_unit_diff_covers 5 13 (by decide) (by decide)).2.2.2.1⟩


/-- C21. `partition_unit_diff` partitions `n` values as equally as possible:
for every `n >= 0` and `nthr >= 1` the block sizes of the threads
`0, ..., nthr - 1` add up to `n`, and for any two threads `i`, `j` of
`[0, nthr)` the block sizes of `i` and `j` differ by at most 1, each being
`n / nthr` or `n / nthr + 1`, and when `i <= j` the block of `j` is not larger
than the block of `i`. -/
theorem partition_unit_diff_balanced (nthr n i j : Int) (hn : 0 ≤ n) (ht : 1 ≤ nthr)
    (hi0 : 0 ≤ i) (hi : i < nthr) (hj0 : 0 ≤ j) (hj : j < nthr) :
    |(partition_unit_diff i nthr n).2 - (partition_unit_diff j nthr n).2| ≤ 1
    ∧ (i ≤ j → (partition_unit_diff j nthr n).2 ≤ (partition_unit_diff i nthr n).2)
    ∧ ((List.range nthr.toNat).map
        (fun t : Nat => (partition_unit_diff (t : Int) nthr n).2)).sum = n
    ∧ ((partition_unit_diff i nthr n).2 = n / nthr
        ∨ (partition_unit_diff i nthr n).2 = n / nthr + 1)
    ∧ ((partition_unit_diff j nthr n).2 = n / nthr
        ∨ (partition_unit_diff j nthr n).2 = n / nthr + 1) := by
  have ci := congrArg Prod.snd (partition_unit_diff_closed_form i nthr n hn ht hi0 hi)
  have cj := congrArg Prod.snd (partition_unit_diff_closed_form j nthr n hn ht hj0 hj)
  simp only [] at ci cj
  have hsum : ((List.range nthr.toNat).map
      (fun t : Nat => (partition_unit_diff (t : Int) nthr n).2)).sum = n := by
    have hcast : ((nthr.toNat : Nat) : Int) = nthr := Int.toNat_of_nonneg (by omega)
    rw [partition_unit_diff_sum nthr n hn ht nthr.toNat (by omega), hcast]
    exact (partition_start_ends nthr n ht).2
  rw [ci, cj, abs_le]
  refine ⟨⟨?_, ?_⟩, ?_, hsum, ?_, ?_⟩
  · split_ifs <;> omega
  · split_ifs <;> omega
  · intro hij
    split_ifs <;> omega
  · split_ifs <;> omega
  · split_ifs <;> omega

/-- C21, on 13 values and 5 threads, threads 1 and 4: blocks of 3 and 2, and
the five blocks 3, 3, 3, 2, 2 add up to 13. -/
theorem partition_unit_diff_balanced_witness :
    (partition_unit_diff 1 5 13).2 = 3 ∧ (partition_unit_diff 4 5 13).2 = 2
    ∧ (|(partition_unit_diff 1 5 13).2 - (partition_unit_diff 4 5 13).2| ≤ 1
      ∧ ((1 : Int) ≤ 4 → (partition_unit_diff 4 5 13).2 ≤ (partition_unit_diff 1 5 13).2)
      ∧ ((List.range (5 : Int).toNat).map
          (fun t : Nat => (partition_unit_diff (t : Int) 5 13).2)).sum = 13
      ∧ ((partition_unit_diff 1 5 13).2 = 13 / 5
          ∨ (partition_unit_diff 1 5 13).2 = 13 / 5 + 1)
      ∧ ((partition_unit_diff 4 5 13).2 = 13 / 5
          ∨ (partition_unit_diff 4 5 13).2 = 13 / 5 + 1)) :=
  ⟨by decide, by decide,
    partition_unit_diff_balanced 5 13 1 4 (by decide) (by decide) (by decide) (by decide)
      (by decide) (by decide)⟩

/-- C22. `partition_unit_diff` equals the closed form `band = n / nthr` with
the excess given one per thread to the first `tail = n mod nthr` workers. For
every `n >= 0`, `nthr >= 1` and `0 <= ithr < nthr` (where the truncating
division and remainder of C are the quotient `n / nthr` and the remainder
`n % nthr`): `t_block = n / nthr + (1 if ithr < n % nthr else 0)`, and
whenever `t_block > 0`, `t_offset = ithr * (n / nthr) + min ithr (n % nthr)`.
When `n < nthr`, where the code replaces `band = 0` by 1, this gives a block
of 1 at offset `ithr` to the threads `ithr < n` and an empty block to the
others. -/
theorem partition_unit_diff_refines_closed_form (ithr nthr n : Int) (hn : 0 ≤ n)
    (ht : 1 ≤ nthr) (hi0 : 0 ≤ ithr) (hi : ithr < nthr) :
    Int.tdiv n nthr = n / nthr
    ∧ Int.tmod n nthr = n % nthr
    ∧ (partition_unit_diff ithr nthr n).2 = n / nthr + (if ithr < n % nthr then 1 else 0)
    ∧ (0 < (partition_unit_diff ithr nthr n).2 →
        (partition_unit_diff ithr nthr n).1 = ithr * (n / nthr) + min ithr (n % nthr))
    ∧ (n < nthr →
        partition_unit_diff ithr nthr n = (if ithr < n then (ithr, 1) else (0, 0))) := by
  have c := partition_unit_diff_closed_form ithr nthr n hn ht hi0 hi
  refine ⟨Int.tdiv_eq_ediv hn (by omega), Int.tmod_eq_emod hn (by omega), ?_, ?_, ?_⟩
  · rw [c]
  · rw [c]
    intro hpos
    simp only [] at hpos ⊢
    rw [if_neg (by omega)]
  · intro hlt
    have hq : n / nthr = 0 := Int.ediv_eq_zero_of_lt hn hlt
    have hr : n % nthr = n := Int.emod_eq_of_lt hn hlt
    rw [c, hq, hr]
    by_cases h : ithr < n
    · simp [h, min_eq_left (le_of_lt h)]
    · simp [h]

/-- C22, on 3 values and 5 threads, thread 2: one value at offset 2. -/
theorem partition_unit_diff_refines_closed_form_witness :
    (partition_unit_diff 2 5 3).2 = 3 / 5 + (if (2 : Int) < 3 % 5 then 1 else 0)
    ∧ partition_unit_diff 2 5 3 = (2, 1) :=
  ⟨(partition_unit_diff_refines_closed_form 2 5 3 (by decide) (by decide) (by decide)
      (by decide)).2.2.1,
    by decide⟩

/-! ## Zero-sized dimensions and default formats -/

/-- The product of the first `n` entries of an array is zero exactly when one
of them is. -/
theorem array_product_eq_zero_iff (arr : List Nat) (n : Nat) :
    array_product arr n = 0 ↔ ∃ i, i < n ∧ arr.getD i 0 = 0 := by
  unfold array_product
  rw [List.prod_eq_zero_iff, List.mem_map]
  constructor
  · rintro ⟨i, hi, h⟩
    exact ⟨i, List.mem_range.mp hi, h⟩
  · rintro ⟨i, hi, h⟩
    exact ⟨i, List.mem_range.mpr hi, h⟩

/-- C23. For every batch-normalization descriptor whose data memory
descriptor has at least one dimension, `has_zero_dim_memory()` is true if and
only if one of the dimensions of the data descriptor has size 0. It reads the
data descriptor of the operation descriptor only: two descriptors with the
same data descriptor give the same answer, whatever their other memory
descriptors, flags and propagation kinds are. -/
theorem has_zero_dim_memory_iff :
    (∀ pd : batch_normalization_pd_t, 1 ≤ pd.desc_.data_desc.ndims →
      (pd.has_zero_dim_memory = true
        ↔ ∃ i, i < pd.desc_.data_desc.ndims ∧ pd.desc_.data_desc.dims.getD i 0 = 0))
    ∧ (∀ p q : batch_normalization_pd_t, p.desc_.data_desc = q.desc_.data_desc →
      p.has_zero_dim_memory = q.has_zero_dim_memory) := by
  constructor
  · intro pd h
    have hz : ¬ (pd.desc_.data_desc.ndims = 0) := by omega
    simp only [batch_normalization_pd_t.has_zero_dim_memory, memory_desc_t.has_zero_dim,
      memory_desc_t.nelems, memory_desc_t.is_zero, beq_iff_eq, hz, if_false,
      Bool.false_eq_true]
    exact array_product_eq_zero_iff _ _
  · intro p q h
    simp only [batch_normalization_pd_t.has_zero_dim_memory, h]

/-- C23, on a data descriptor of sizes 2 x 0: the second dimension is zero and
`has_zero_dim_memory()` is true. -/
theorem has_zero_dim_memory_iff_witness :
    (batch_normalization_pd_t.create
        (example_bnorm_desc prop_kind_t.forward_training
          { example_plain_md with dims := [2, 0], padded_dims := [2, 0] } 0)
        default_attr).has_zero_dim_memory = true :=
  (has_zero_dim_memory_iff.1
    (batch_normalization_pd_t.create
      (example_bnorm_desc prop_kind_t.forward_training
        { example_plain_md with dims := [2, 0], padded_dims := [2, 0] } 0)
      default_attr)
    (by decide)).2 ⟨1, by decide, by decide⟩

/-! ## Order of the candidate lists -/

/-- The array of a list that is a run of entries followed by another is the
array of the first followed by the array of the second. -/
theorem reorder_candidate_array_append (factories : reorder_entry_t → List rpd_create_f)
    (l₁ l₂ : List reorder_entry_t) :
    reorder_candidate_array factories (l₁ ++ l₂)
      = reorder_candidate_array factories l₁ ++ reorder_candidate_array factories l₂ := by
  simp [reorder_candidate_array, List.flatMap_append]

/-- The array of a run of direct-copy entries holds the factories of the
entries, in order, and no `nullptr`. -/
theorem reorder_candidate_array_direct (factories : reorder_entry_t → List rpd_create_f) :
    ∀ l : List reorder_entry_t, (∀ e ∈ l, e.is_direct_copy = true) →
      reorder_candidate_array factories l = (l.flatMap factories).map some := by
  intro l
  induction l with
  | nil => intro _; rfl
  | cons e l ih =>
    intro h
    have he := h e (List.mem_cons_self e l)
    have hl := ih (fun x hx => h x (List.mem_cons_of_mem e hx))
    unfold reorder_candidate_array at hl ⊢
    rw [List.flatMap_cons, List.flatMap_cons, List.map_append, hl]
    cases e <;> simp_all [reorder_entry_t.is_direct_copy]

/-- A list of factories one of which accepts splits at the first that does. -/
theorem first_accepting_split (accepts : rpd_create_f → Prop) [DecidablePred accepts] :
    ∀ l : List rpd_create_f, (∃ g ∈ l, accepts g) →
      ∃ pre g post, l = pre ++ g :: post ∧ (∀ h ∈ pre, ¬ accepts h) ∧ accepts g := by
  intro l
  induction l with
  | nil => rintro ⟨g, hg, _⟩; exact absurd hg (List.not_mem_nil g)
  | cons x l ih =>
    rintro ⟨g, hg, hacc⟩
    by_cases hx : accepts x
    · exact ⟨[], x, l, rfl, fun h hh => absurd hh (List.not_mem_nil h), hx⟩
    · have hgl : g ∈ l := by
        rcases List.mem_cons.mp hg with h | h
        · rw [h] at hacc; exact absurd hacc hx
        · exact h
      obtain ⟨pre, g', post, hl, hpre, hg'⟩ := ih ⟨g, hgl, hacc⟩
      refine ⟨x :: pre, g', post, by rw [hl]; rfl, ?_, hg'⟩
      intro h hh
      rcases List.mem_cons.mp hh with h1 | h1
      · rw [h1]; exact hx
      · exact hpre h h1

/-- Over a candidate list that begins with a run of direct-copy entries, a
request that one of the factories of that run accepts is served by a factory
of that run: the first of them that accepts. -/
theorem reorder_create_direct_copy_first (env : dispatch_env)
    (factories : reorder_entry_t → List rpd_create_f)
    (direct rest : List reorder_entry_t)
    (src_engine dst_engine : engine_t) (src_md dst_md : memory_desc_t)
    (attr : Option primitive_attr_t)
    (hdirect : ∀ e ∈ direct, e.is_direct_copy = true)
    (hkind : src_engine.kind ≠ dst_engine.kind →
      src_engine.kind = engine_kind_t.cpu ∨ dst_engine.kind = engine_kind_t.cpu)
    (hcons : env.consistent_with src_md dst_md = true)
    (hlist : env.get_reorder_implementation_list
        (get_reorder_engine env.is_native_runtime src_engine dst_engine) src_md dst_md
      = reorder_candidate_array factories (direct ++ rest))
    (hacc : ∃ e ∈ direct, ∃ g ∈ factories e,
      (g (get_reorder_engine env.is_native_runtime src_engine dst_engine)
        (attr.getD default_attr) src_engine src_md dst_engine dst_md).1 = status_t.success) :
    ∃ e ∈ direct, ∃ g ∈ factories e, ∃ k : Nat,
      dnnl_reorder_primitive_desc_create env
          { reorder_pd_iface := some (), src_md := some src_md,
            src_engine := some src_engine, dst_md := some dst_md,
            dst_engine := some dst_engine, attr := attr }
        = some
            { status := if env.new_succeeds then status_t.success else status_t.out_of_memory
              written :=
                if env.new_succeeds then
                  some
                    { pd := (g (get_reorder_engine env.is_native_runtime src_engine dst_engine)
                        (attr.getD default_attr) src_engine src_md dst_engine dst_md).2
                      engine := get_reorder_engine env.is_native_runtime src_engine dst_engine
                      src_engine := src_engine
                      dst_engine := dst_engine }
                else none
              invoked := List.range (k + 1)
              deleted := !env.new_succeeds } := by
  obtain ⟨e, he, g, hg, hgacc⟩ := hacc
  have hex : ∃ g ∈ direct.flatMap factories,
      (g (get_reorder_engine env.is_native_runtime src_engine dst_engine)
        (attr.getD default_attr) src_engine src_md dst_engine dst_md).1 = status_t.success :=
    ⟨g, List.mem_flatMap.mpr ⟨e, he, hg⟩, hgacc⟩
  obtain ⟨pre, g', post, hsplit, hpre, hg'⟩ := first_accepting_split
    (fun g => (g (get_reorder_engine env.is_native_runtime src_engine dst_engine)
        (attr.getD default_attr) src_engine src_md dst_engine dst_md).1 = status_t.success)
    (direct.flatMap factories) hex
  have hmem : g' ∈ direct.flatMap factories := by
    rw [hsplit]
    exact List.mem_append_right pre (List.mem_cons_self g' post)
  obtain ⟨e', he', hg'e⟩ := List.mem_flatMap.mp hmem
  refine ⟨e', he', g', hg'e, pre.length, ?_⟩
  rw [reorder_create_valid env src_engine dst_engine src_md dst_md attr hkind hcons, hlist,
    reorder_candidate_array_append, reorder_candidate_array_direct factories direct hdirect,
    hsplit, List.map_append, List.map_cons, List.append_assoc, List.cons_append,
    reorder_dispatch_loop_accept env.new_succeeds _ _ _ _ _ _ g' _ hg' pre 0 [] hpre]
  simp [List.range_eq_range']

/-- C24. In the candidate lists `f32_s32_0` and `s32_undef_0` every
direct-copy fast-path entry precedes every blocked-layout (`REG_SR_BIDIR`)
entry, and every reference entry (`spec::reference`) comes after all
direct-copy and blocked-layout entries. Hence, over either list, a request
that a factory of a direct-copy entry accepts (whether or not the reference
factory accepts it too) is served by a factory of a direct-copy entry: the
call invokes the factories up to that one and returns the descriptor it
built, when the handle can be allocated. -/
theorem reorder_lists_direct_copy_before_reference :
    (∀ list, list = f32_s32_0 ∨ list = s32_undef_0 →
      (∀ i < list.length, ∀ j < list.length,
        (list.getD i reorder_entry_t.null).is_direct_copy = true →
        (list.getD j reorder_entry_t.null).is_blocked = true → i < j)
      ∧ (∀ i < list.length, ∀ j < list.length,
        ((list.getD i reorder_entry_t.null).is_direct_copy = true
          ∨ (list.getD i reorder_entry_t.null).is_blocked = true) →
        (list.getD j reorder_entry_t.null).is_reference = true → i < j))
    ∧ (∀ (env : dispatch_env) (factories : reorder_entry_t → List rpd_create_f)
        (list : List reorder_entry_t) (src_engine dst_engine : engine_t)
        (src_md dst_md : memory_desc_t) (attr : Option primitive_attr_t),
      (list = f32_s32_0 ∨ list = s32_undef_0) →
      (src_engine.kind ≠ dst_engine.kind →
        src_engine.kind = engine_kind_t.cpu ∨ dst_engine.kind = engine_kind_t.cpu) →
      env.consistent_with src_md dst_md = true →
      env.get_reorder_implementation_list
          (get_reorder_engine env.is_native_runtime src_engine dst_engine) src_md dst_md
        = reorder_candidate_array factories list →
      (∃ e ∈ list, e.is_direct_copy = true ∧ ∃ g ∈ factories e,
        (g (get_reorder_engine env.is_native_runtime src_engine dst_engine)
          (attr.getD default_attr) src_engine src_md dst_engine dst_md).1
          = status_t.success) →
      ∃ e ∈ list, e.is_direct_copy = true ∧ ∃ g ∈ factories e, ∃ k : Nat,
        dnnl_reorder_primitive_desc_create env
            { reorder_pd_iface := some (), src_md := some src_md,
              src_engine := some src_engine, dst_md := some dst_md,
              dst_engine := some dst_engine, attr := attr }
          = some
              { status :=
                  if env.new_succeeds then status_t.success else status_t.out_of_memory
                written :=
                  if env.new_succeeds then
                    some
                      { pd :=
                          (g (get_reorder_engine env.is_native_runtime src_engine dst_engine)
                            (attr.getD default_attr) src_engine src_md dst_engine dst_md).2
                        engine :=
                          get_reorder_engine env.is_native_runtime src_engine dst_engine
                        src_engine := src_engine
                        dst_engine := dst_engine }
                  else none
                invoked := List.range (k + 1)
                deleted := !env.new_succeeds }) := by
  constructor
  · intro list hl
    rcases hl with h | h <;> subst h <;> exact ⟨by decide, by decide⟩
  · intro env factories list src_engine dst_engine src_md dst_md attr hl hkind hcons hlist hacc
    have hsplit : ∃ direct rest, list = direct ++ rest
        ∧ (∀ e ∈ direct, e.is_direct_copy = true)
        ∧ (∀ e ∈ rest, e.is_direct_copy = false) := by
      rcases hl with h | h
      · exact ⟨f32_s32_0.take 1, f32_s32_0.drop 1, by rw [h, List.take_append_drop],
          by decide, by decide⟩
      · exact ⟨s32_undef_0.take 4, s32_undef_0.drop 4, by rw [h, List.take_append_drop],
          by decide, by decide⟩
    obtain ⟨direct, rest, hdr, hd, hr⟩ := hsplit
    obtain ⟨e, he, hed, g, hg, hgacc⟩ := hacc
    have hemem : e ∈ direct := by
      rw [hdr] at he
      rcases List.mem_append.mp he with h | h
      · exact h
      · rw [hr e h] at hed
        exact absurd hed (by decide)
    rw [hdr] at hlist
    obtain ⟨e', he', g', hg', k, hres⟩ := reorder_create_direct_copy_first env factories
      direct rest src_engine dst_engine src_md dst_md attr hd hkind hcons hlist
      ⟨e, hemem, g, hg, hgacc⟩
    exact ⟨e', by rw [hdr]; exact List.mem_append_left rest he', hd e' he', g', hg', k, hres⟩

/-- C24, on an identity s32 to s32 request over `s32_undef_0`, where both the
direct copy and the reference reorder from s32 to s32 accept: a direct-copy
factory serves the request. -/
theorem reorder_lists_direct_copy_before_reference_witness :
    ∃ e ∈ s32_undef_0, e.is_direct_copy = true ∧ ∃ g ∈ example_factories e, ∃ k : Nat,
      dnnl_reorder_primitive_desc_create
          (example_env (reorder_candidate_array example_factories s32_undef_0) true)
          { reorder_pd_iface := some (), src_md := some example_plain_md,
            src_engine := some example_cpu_engine, dst_md := some example_plain_md,
            dst_engine := some example_cpu_engine, attr := none }
        = some
            { status :=
                if (example_env (reorder_candidate_array example_factories s32_undef_0)
                  true).new_succeeds then status_t.success else status_t.out_of_memory
              written :=
                if (example_env (reorder_candidate_array example_factories s32_undef_0)
                  true).new_succeeds then
                  some
                    { pd :=
                        (g (get_reorder_engine
                            (example_env
                              (reorder_candidate_array example_factories s32_undef_0)
                              true).is_native_runtime example_cpu_engine example_cpu_engine)
                          ((none : Option primitive_attr_t).getD default_attr)
                          example_cpu_engine example_plain_md example_cpu_engine
                          example_plain_md).2
                      engine :=
                        get_reorder_engine
                          (example_env
                            (reorder_candidate_array example_factories s32_undef_0)
                            true).is_native_runtime example_cpu_engine example_cpu_engine
                      src_engine := example_cpu_engine
                      dst_engine := example_cpu_engine }
                else none
              invoked := List.range (k + 1)
              deleted :=
                !(example_env (reorder_candidate_array example_factories s32_undef_0)
                  true).new_succeeds } :=
  reorder_lists_direct_copy_before_reference.2
    (example_env (reorder_candidate_array example_factories s32_undef_0) true)
    example_factories s32_undef_0 example_cpu_engine example_cpu_engine example_plain_md
    example_plain_md none (Or.inr rfl) (fun h => absurd rfl h) rfl rfl
    ⟨reorder_entry_t.fast_direct_copy data_type_t.s32 data_type_t.s32, by decide, rfl,
      accepting_candidate 1, List.mem_singleton.mpr rfl, rfl⟩

/-! ## Argument counts against the argument classification -/

/-- C25. For every forward batch-normalization descriptor (every propagation
kind and flag word, so all 16 combinations of training or inference with the
three flags), `n_inputs()` is the number of argument identifiers among SRC,
DST, MEAN, VARIANCE, SCALE_SHIFT and WORKSPACE that `arg_usage` classifies as
input, and `n_outputs()` is the number of those it classifies as output. -/
theorem fwd_counts_match_arg_usage (pd : batch_normalization_fwd_pd_t) :
    pd.n_inputs
        = (([DNNL_ARG_SRC, DNNL_ARG_DST, DNNL_ARG_MEAN, DNNL_ARG_VARIANCE,
              DNNL_ARG_SCALE_SHIFT, DNNL_ARG_WORKSPACE].filter
            (fun arg => decide (pd.arg_usage arg = arg_usage_t.input))).length : Int)
    ∧ pd.n_outputs
        = (([DNNL_ARG_SRC, DNNL_ARG_DST, DNNL_ARG_MEAN, DNNL_ARG_VARIANCE,
              DNNL_ARG_SCALE_SHIFT, DNNL_ARG_WORKSPACE].filter
            (fun arg => decide (pd.arg_usage arg = arg_usage_t.output))).length : Int) := by
  unfold batch_normalization_fwd_pd_t.n_inputs batch_normalization_fwd_pd_t.n_outputs
  cases hs : pd.stats_is_src <;> cases hu : pd.use_scaleshift <;>
    cases hf : pd.fuse_norm_relu <;> cases ht : pd.is_training <;>
    simp [List.filter, batch_normalization_fwd_pd_t.arg_usage,
      batch_normalization_pd_t.base_arg_usage, DNNL_ARG_SRC, DNNL_ARG_DST, DNNL_ARG_MEAN,
      DNNL_ARG_VARIANCE, DNNL_ARG_SCALE_SHIFT, DNNL_ARG_WORKSPACE, DNNL_ARG_SCRATCHPAD,
      bool_to_int, hs, hu, hf, ht]

/-! ## The generic softmax kernels -/

/-- The logical offset is the mixed-radix number with the digits `ou`, `c` and
`in_` in the bases `channels_` and `inner_size_`. -/
theorem softmax_l_off_eq (channels_ inner_size_ ou in_ c : Nat) :
    softmax_l_off channels_ inner_size_ ou in_ c
      = in_ + inner_size_ * (c + channels_ * ou) := by
  unfold softmax_l_off
  ring

/-- A two-digit mixed-radix number determines its digits. -/
theorem mixed_radix_inj (b lo hi lo' hi' : Nat) (h : lo < b) (h' : lo' < b)
    (heq : lo + b * hi = lo' + b * hi') : lo = lo' ∧ hi = hi' := by
  have hb : 0 < b := by omega
  have h1 : (lo + b * hi) % b = lo := by
    rw [Nat.add_mul_mod_self_left, Nat.mod_eq_of_lt h]
  have h2 : (lo' + b * hi') % b = lo' := by
    rw [Nat.add_mul_mod_self_left, Nat.mod_eq_of_lt h']
  have h3 : (lo + b * hi) / b = hi := by
    rw [Nat.add_mul_div_left _ _ hb, Nat.div_eq_of_lt h, Nat.zero_add]
  have h4 : (lo' + b * hi') / b = hi' := by
    rw [Nat.add_mul_div_left _ _ hb, Nat.div_eq_of_lt h', Nat.zero_add]
  rw [heq] at h1 h3
  exact ⟨h1.symm.trans h2, h3.symm.trans h4⟩

/-- C26. In the generic softmax kernels distinct workers write disjoint
outputs: the logical offset `ou * channels * inner_size + in + c * inner_size`
is injective on the triples `(ou, in, c)` with `in < inner_size` and
`c < channels`; on `[0, outer_size) x [0, inner_size) x [0, channels)` its
values are below `outer_size * channels * inner_size` and every number below
that bound is the offset of such a triple; so two different outer indices
never address the same logical element. -/
theorem softmax_l_off_bijective (outer_size_ channels_ inner_size_ : Nat) :
    (∀ ou in_ c ou' in_' c', in_ < inner_size_ → c < channels_ → in_' < inner_size_ →
      c' < channels_ →
      softmax_l_off channels_ inner_size_ ou in_ c
        = softmax_l_off channels_ inner_size_ ou' in_' c' →
      ou = ou' ∧ in_ = in_' ∧ c = c')
    ∧ (∀ ou in_ c, ou < outer_size_ → in_ < inner_size_ → c < channels_ →
      softmax_l_off channels_ inner_size_ ou in_ c < outer_size_ * channels_ * inner_size_)
    ∧ (∀ x, x < outer_size_ * channels_ * inner_size_ →
      ∃ ou in_ c, ou < outer_size_ ∧ in_ < inner_size_ ∧ c < channels_
        ∧ softmax_l_off channels_ inner_size_ ou in_ c = x)
    ∧ (∀ ou in_ c ou' in_' c', in_ < inner_size_ → c < channels_ → in_' < inner_size_ →
      c' < channels_ → ou ≠ ou' →
      softmax_l_off channels_ inner_size_ ou in_ c
        ≠ softmax_l_off channels_ inner_size_ ou' in_' c') := by
  have inj : ∀ ou in_ c ou' in_' c', in_ < inner_size_ → c < channels_ →
      in_' < inner_size_ → c' < channels_ →
      softmax_l_off channels_ inner_size_ ou in_ c
        = softmax_l_off channels_ inner_size_ ou' in_' c' →
      ou = ou' ∧ in_ = in_' ∧ c = c' := by
    intro ou in_ c ou' in_' c' h1 h2 h3 h4 heq
    rw [softmax_l_off_eq, softmax_l_off_eq] at heq
    obtain ⟨e1, e2⟩ := mixed_radix_inj inner_size_ in_ _ in_' _ h1 h3 heq
    obtain ⟨e3, e4⟩ := mixed_radix_inj channels_ c ou c' ou' h2 h4 e2
    exact ⟨e4, e1, e3⟩
  refine ⟨inj, ?_, ?_, ?_⟩
  · intro ou in_ c h1 h2 h3
    rw [softmax_l_off_eq]
    have a1 : c + channels_ * ou + 1 ≤ channels_ * outer_size_ := by
      have : channels_ * (ou + 1) ≤ channels_ * outer_size_ := Nat.mul_le_mul_left _ h1
      rw [Nat.mul_add, Nat.mul_one] at this
      omega
    have a2 : inner_size_ * (c + channels_ * ou + 1) ≤ inner_size_ * (channels_ * outer_size_) :=
      Nat.mul_le_mul_left _ a1
    rw [Nat.mul_add, Nat.mul_one] at a2
    have a3 : outer_size_ * channels_ * inner_size_ = inner_size_ * (channels_ * outer_size_) := by
      ring
    omega
  · intro x hx
    have hi : 0 < inner_size_ := by
      rcases Nat.eq_zero_or_pos inner_size_ with h | h
      · rw [h, Nat.mul_zero] at hx; omega
      · exact h
    have hc : 0 < channels_ := by
      rcases Nat.eq_zero_or_pos channels_ with h | h
      · rw [h, Nat.mul_zero, Nat.zero_mul] at hx; omega
      · exact h
    refine ⟨x / inner_size_ / channels_, x % inner_size_, x / inner_size_ % channels_,
      ?_, Nat.mod_lt _ hi, Nat.mod_lt _ hc, ?_⟩
    · rw [Nat.div_div_eq_div_mul, Nat.div_lt_iff_lt_mul (Nat.mul_pos hi hc)]
      have : outer_size_ * (inner_size_ * channels_) = outer_size_ * channels_ * inner_size_ := by
        ring
      omega
    · rw [softmax_l_off_eq, Nat.mod_add_div, Nat.mod_add_div]
  · intro ou in_ c ou' in_' c' h1 h2 h3 h4 hne heq
    exact hne (inj ou in_ c ou' in_' c' h1 h2 h3 h4 heq).1

/-- C27 on the code: with `WHICH` defined as 2 the tests `WHICH >= 0` and
`WHICH >= 1` both hold, so a channel count up to `MVL` takes the short branch,
one up to `MEDIUM` the medium branch, and only a larger one the blocked
branch. -/
theorem execute_forward_generic_branch_which_2 :
    execute_forward_generic_branch WHICH 1 = softmax_branch.short
    ∧ execute_forward_generic_branch WHICH 256 = softmax_branch.short
    ∧ execute_forward_generic_branch WHICH 257 = softmax_branch.medium
    ∧ execute_forward_generic_branch WHICH 4096 = softmax_branch.medium
    ∧ execute_forward_generic_branch WHICH 4097 = softmax_branch.blocked := by
  decide

/-! ## Default formats, the two variants of the workspace comparison, the output handle -/

/-- C29. The two compiled variants of `primitive_desc_t::compare_ws`, the
`__ve` one with the flag `equal` and the short-circuit expression, compute the
same boolean for every descriptor and every `fwd_pd`, a null `fwd_pd` and a
`fwd_pd` with a null workspace pointer included. -/
theorem compare_ws_variants_agree (pd : primitive_desc_t) (fwd_pd : Option primitive_desc_t) :
    pd.compare_ws_ve fwd_pd = pd.compare_ws_generic fwd_pd
    ∧ pd.compare_ws true fwd_pd = pd.compare_ws false fwd_pd := by
  have h : pd.compare_ws_ve fwd_pd = pd.compare_ws_generic fwd_pd := by
    unfold primitive_desc_t.compare_ws_ve primitive_desc_t.compare_ws_generic
    cases pd.workspace_md 0 with
    | none => rfl
    | some ws =>
      cases fwd_pd with
      | none => rfl
      | some f =>
        cases hf : f.workspace_md 0 <;> simp [hf]
  exact ⟨h, by simp [primitive_desc_t.compare_ws, h]⟩

/-- The loop over the candidates writes the handle exactly when it reports
`success`. -/
theorem reorder_dispatch_loop_written (new_succeeds : Bool) (e : engine_t)
    (attr : primitive_attr_t) (src_engine : engine_t) (src_md : memory_desc_t)
    (dst_engine : engine_t) (dst_md : memory_desc_t) :
    ∀ (r : List (Option rpd_create_f)) (pos : Nat) (invoked : List Nat) (out : reorder_outcome),
      reorder_dispatch_loop new_succeeds e attr src_engine src_md dst_engine dst_md
          r pos invoked = some out →
      (out.written.isSome = true ↔ out.status = status_t.success) := by
  intro r
  induction r with
  | nil =>
    intro pos invoked out h
    simp [reorder_dispatch_loop] at h
  | cons x rest ih =>
    intro pos invoked out h
    cases x with
    | none =>
      simp only [reorder_dispatch_loop, Option.some.injEq] at h
      rw [← h]
      simp
    | some g =>
      by_cases hg : (g e attr src_engine src_md dst_engine dst_md).1 = status_t.success
      · simp only [reorder_dispatch_loop, hg, if_true, Option.some.injEq] at h
        rw [← h]
        cases new_succeeds <;> simp [safe_ptr_assign]
      · rw [reorder_dispatch_loop_step _ _ _ _ _ _ _ _ _ _ _ hg] at h
        exact ih _ _ _ h

/-- The loop over an array that has a `nullptr` entry returns. -/
theorem reorder_dispatch_loop_returns (new_succeeds : Bool) (e : engine_t)
    (attr : primitive_attr_t) (src_engine : engine_t) (src_md : memory_desc_t)
    (dst_engine : engine_t) (dst_md : memory_desc_t) :
    ∀ (r : List (Option rpd_create_f)) (pos : Nat) (invoked : List Nat),
      none ∈ r →
      ∃ out, reorder_dispatch_loop new_succeeds e attr src_engine src_md dst_engine dst_md
          r pos invoked = some out := by
  intro r
  induction r with
  | nil => intro pos invoked h; exact absurd h (List.not_mem_nil _)
  | cons x rest ih =>
    intro pos invoked h
    cases x with
    | none => exact ⟨_, rfl⟩
    | some g =>
      have hrest : none ∈ rest := by
        rcases List.mem_cons.mp h with h1 | h1
        · exact absurd h1 (by simp)
        · exact h1
      by_cases hg : (g e attr src_engine src_md dst_engine dst_md).1 = status_t.success
      · exact ⟨_, reorder_dispatch_loop_accept new_succeeds e attr src_engine src_md
          dst_engine dst_md g rest hg [] pos invoked
          (fun _ hh => absurd hh (List.not_mem_nil _))⟩
      · rw [reorder_dispatch_loop_step _ _ _ _ _ _ _ _ _ _ _ hg]
        exact ih _ _ hrest

/-- C30. On every return of `dnnl_reorder_primitive_desc_create` the caller's
output handle is written exactly when the status returned is `success`: on
`invalid_arguments`, on `unimplemented` and on a failed handle assignment it is
left unwritten. The call does return whenever the candidate arrays of the
engines are `nullptr`-terminated. -/
theorem reorder_create_writes_iff_success (env : dispatch_env) (c : reorder_call) :
    (∀ out, dnnl_reorder_primitive_desc_create env c = some out →
      (out.written.isSome = true ↔ out.status = status_t.success))
    ∧ ((∀ e s d, none ∈ env.get_reorder_implementation_list e s d) →
      ∃ out, dnnl_reorder_primitive_desc_create env c = some out) := by
  obtain ⟨p, sm, se, dm, de, at_⟩ := c
  have hinv : ∀ out : reorder_outcome,
      some ({ status := status_t.invalid_arguments, written := none, invoked := [],
              deleted := false } : reorder_outcome) = some out →
      (out.written.isSome = true ↔ out.status = status_t.success) := by
    intro out h
    simp only [Option.some.injEq] at h
    rw [← h]
    simp
  by_cases hnull : p = none ∨ se = none ∨ sm = none ∨ de = none ∨ dm = none
  · have h := reorder_create_null env
      { reorder_pd_iface := p, src_md := sm, src_engine := se, dst_md := dm,
        dst_engine := de, attr := at_ } hnull
    rw [h]
    exact ⟨hinv, fun _ => ⟨_, rfl⟩⟩
  · cases p with
    | none => exact absurd (Or.inl rfl) hnull
    | some u =>
    cases se with
    | none => exact absurd (Or.inr (Or.inl rfl)) hnull
    | some s =>
    cases sm with
    | none => exact absurd (Or.inr (Or.inr (Or.inl rfl))) hnull
    | some m1 =>
    cases de with
    | none => exact absurd (Or.inr (Or.inr (Or.inr (Or.inl rfl)))) hnull
    | some d =>
    cases dm with
    | none => exact absurd (Or.inr (Or.inr (Or.inr (Or.inr rfl)))) hnull
    | some m2 =>
    cases u
    by_cases hk : s.kind ≠ d.kind ∧ s.kind ≠ engine_kind_t.cpu ∧ d.kind ≠ engine_kind_t.cpu
    · rw [reorder_create_kind_mismatch env s d m1 m2 at_ hk.1 hk.2.1 hk.2.2]
      exact ⟨hinv, fun _ => ⟨_, rfl⟩⟩
    · have hkind : s.kind ≠ d.kind →
          s.kind = engine_kind_t.cpu ∨ d.kind = engine_kind_t.cpu := by
        intro hne
        by_contra hc
        exact hk ⟨hne, fun h1 => hc (Or.inl h1), fun h1 => hc (Or.inr h1)⟩
      by_cases hcons : env.consistent_with m1 m2 = true
      · rw [reorder_create_valid env s d m1 m2 at_ hkind hcons]
        exact ⟨fun out h => reorder_dispatch_loop_written _ _ _ _ _ _ _ _ _ _ out h,
          fun hterm => reorder_dispatch_loop_returns _ _ _ _ _ _ _ _ _ _ (hterm _ _ _)⟩
      · rw [reorder_create_inconsistent env s d m1 m2 at_ hkind (by simpa using hcons)]
        exact ⟨hinv, fun _ => ⟨_, rfl⟩⟩

/-- C30, on an array with an accepting candidate whose handle cannot be
allocated: the call returns `out_of_memory` and writes nothing. -/
theorem reorder_create_writes_iff_success_witness :
    ∃ out, dnnl_reorder_primitive_desc_create
        (example_env [some (accepting_candidate 1), none] false)
        { reorder_pd_iface := some (), src_md := some example_plain_md,
          src_engine := some example_cpu_engine, dst_md := some example_plain_md,
          dst_engine := some example_cpu_engine, attr := none } = some out :=
  (reorder_create_writes_iff_success
    (example_env [some (accepting_candidate 1), none] false)
    { reorder_pd_iface := some (), src_md := some example_plain_md,
      src_engine := some example_cpu_engine, dst_md := some example_plain_md,
      dst_engine := some example_cpu_engine, attr := none }).2
    (fun _ _ _ => List.mem_cons_of_mem _ (List.mem_cons_self _ _))

/-! ## Argument counts of the backward descriptor, statistics arguments, gradients, sizes -/

/-- C31. For every backward batch-normalization descriptor whose
diff-scale-shift memory descriptor is non-zero exactly when the use-scale-shift
flag is set, `n_inputs()` is the number of argument identifiers among SRC,
MEAN, VARIANCE, DIFF_DST, SCALE_SHIFT, WORKSPACE, DIFF_SRC and
DIFF_SCALE_SHIFT that `arg_usage` classifies as input, and `n_outputs()` is the
number of those it classifies as output. -/
theorem bwd_counts_match_arg_usage (pd : batch_normalization_bwd_pd_t)
    (h : is_zero_md (some pd.diff_scaleshift_md_) = false ↔ pd.use_scaleshift = true) :
    pd.n_inputs
        = (([DNNL_ARG_SRC, DNNL_ARG_MEAN, DNNL_ARG_VARIANCE, DNNL_ARG_DIFF_DST,
              DNNL_ARG_SCALE_SHIFT, DNNL_ARG_WORKSPACE, DNNL_ARG_DIFF_SRC,
              DNNL_ARG_DIFF_SCALE_SHIFT].filter
            (fun arg => decide (pd.arg_usage arg = arg_usage_t.input))).length : Int)
    ∧ pd.n_outputs
        = (([DNNL_ARG_SRC, DNNL_ARG_MEAN, DNNL_ARG_VARIANCE, DNNL_ARG_DIFF_DST,
              DNNL_ARG_SCALE_SHIFT, DNNL_ARG_WORKSPACE, DNNL_ARG_DIFF_SRC,
              DNNL_ARG_DIFF_SCALE_SHIFT].filter
            (fun arg => decide (pd.arg_usage arg = arg_usage_t.output))).length : Int) := by
  unfold batch_normalization_bwd_pd_t.n_inputs batch_normalization_bwd_pd_t.n_outputs
  have hz : is_zero_md (some (pd.diff_weights_md 0)) = !pd.use_scaleshift := by
    have e : pd.diff_weights_md 0 = pd.diff_scaleshift_md_ := by
      simp [batch_normalization_bwd_pd_t.diff_weights_md]
    rw [e]
    cases hz : is_zero_md (some pd.diff_scaleshift_md_) <;>
      cases hu : pd.use_scaleshift <;> simp_all
  rw [hz]
  cases hu : pd.use_scaleshift <;> cases hf : pd.fuse_norm_relu <;>
    simp [List.filter, batch_normalization_bwd_pd_t.arg_usage,
      batch_normalization_pd_t.base_arg_usage, DNNL_ARG_SRC, DNNL_ARG_MEAN,
      DNNL_ARG_VARIANCE, DNNL_ARG_SCALE_SHIFT, DNNL_ARG_WORKSPACE, DNNL_ARG_SCRATCHPAD,
      DNNL_ARG_DIFF_SRC, DNNL_ARG_DIFF_DST, DNNL_ARG_DIFF_SCALE_SHIFT, bool_to_int, hu, hf]

/-- C31 at the backward descriptor over the dense 2 x 3 data with the
use-scale-shift flag set and a non-zero diff-scale-shift descriptor: five
inputs and two outputs. -/
theorem bwd_counts_match_arg_usage_witness :
    (is_zero_md (some (batch_normalization_bwd_pd_t.create
          (example_bwd_desc prop_kind_t.backward example_plain_md 2)
          default_attr).diff_scaleshift_md_) = false
      ↔ (batch_normalization_bwd_pd_t.create
          (example_bwd_desc prop_kind_t.backward example_plain_md 2)
          default_attr).use_scaleshift = true)
    ∧ (batch_normalization_bwd_pd_t.create
          (example_bwd_desc prop_kind_t.backward example_plain_md 2) default_attr).n_inputs
        = (([DNNL_ARG_SRC, DNNL_ARG_MEAN, DNNL_ARG_VARIANCE, DNNL_ARG_DIFF_DST,
              DNNL_ARG_SCALE_SHIFT, DNNL_ARG_WORKSPACE, DNNL_ARG_DIFF_SRC,
              DNNL_ARG_DIFF_SCALE_SHIFT].filter
            (fun arg => decide ((batch_normalization_bwd_pd_t.create
              (example_bwd_desc prop_kind_t.backward example_plain_md 2)
              default_attr).arg_usage arg = arg_usage_t.input))).length : Int)
    ∧ (batch_normalization_bwd_pd_t.create
          (example_bwd_desc prop_kind_t.backward example_plain_md 2) default_attr).n_outputs
        = (([DNNL_ARG_SRC, DNNL_ARG_MEAN, DNNL_ARG_VARIANCE, DNNL_ARG_DIFF_DST,
              DNNL_ARG_SCALE_SHIFT, DNNL_ARG_WORKSPACE, DNNL_ARG_DIFF_SRC,
              DNNL_ARG_DIFF_SCALE_SHIFT].filter
            (fun arg => decide ((batch_normalization_bwd_pd_t.create
              (example_bwd_desc prop_kind_t.backward example_plain_md 2)
              default_attr).arg_usage arg = arg_usage_t.output))).length : Int) :=
  have hw : is_zero_md (some (batch_normalization_bwd_pd_t.create
          (example_bwd_desc prop_kind_t.backward example_plain_md 2)
          default_attr).diff_scaleshift_md_) = false
      ↔ (batch_normalization_bwd_pd_t.create
          (example_bwd_desc prop_kind_t.backward example_plain_md 2)
          default_attr).use_scaleshift = true := by decide
  ⟨hw, bwd_counts_match_arg_usage _ hw⟩

/-- C32. The two closing assertions of `get_reorder_engine` hold whenever they
are reached with engines of kind CPU or GPU, in particular for the engines of a
request that has passed the engine-kind check of
`dnnl_reorder_primitive_desc_create`: both asserted conditions are true, that
is, the source and the destination engine kind are both GPU. -/
theorem get_reorder_engine_assertions_hold (is_native_runtime : Nat → Bool)
    (src_engine dst_engine : engine_t)
    (hs : src_engine.kind = engine_kind_t.cpu ∨ src_engine.kind = engine_kind_t.gpu)
    (hd : dst_engine.kind = engine_kind_t.cpu ∨ dst_engine.kind = engine_kind_t.gpu)
    (_hcheck : src_engine.kind ≠ dst_engine.kind →
      src_engine.kind = engine_kind_t.cpu ∨ dst_engine.kind = engine_kind_t.cpu)
    (a : Bool × Bool)
    (hreach : get_reorder_engine_assertions is_native_runtime src_engine dst_engine = some a) :
    a = (true, true) ∧ src_engine.kind = engine_kind_t.gpu
      ∧ dst_engine.kind = engine_kind_t.gpu := by
  unfold get_reorder_engine_assertions at hreach
  simp only at hreach
  split_ifs at hreach with h1 h2 h3 h4
  have hsg : src_engine.kind = engine_kind_t.gpu := by
    rcases hs with h | h
    · exact absurd h h4
    · exact h
  have hdg : dst_engine.kind = engine_kind_t.gpu := by
    rcases hd with h | h
    · exact absurd h h3
    · exact h
  refine ⟨?_, hsg, hdg⟩
  rw [← Option.some.inj hreach]
  simp [hsg, hdg]

/-- C32 at two GPU engines on a non-native runtime: the assertions are reached
and hold. -/
theorem get_reorder_engine_assertions_hold_witness :
    (example_gpu_engine.kind = engine_kind_t.cpu ∨ example_gpu_engine.kind = engine_kind_t.gpu)
    ∧ (example_gpu_engine_b.kind = engine_kind_t.cpu
        ∨ example_gpu_engine_b.kind = engine_kind_t.gpu)
    ∧ (example_gpu_engine.kind ≠ example_gpu_engine_b.kind →
        example_gpu_engine.kind = engine_kind_t.cpu
          ∨ example_gpu_engine_b.kind = engine_kind_t.cpu)
    ∧ get_reorder_engine_assertions (fun k => k == 1) example_gpu_engine example_gpu_engine_b
        = some (true, true)
    ∧ ((true, true) = (true, true) ∧ example_gpu_engine.kind = engine_kind_t.gpu
        ∧ example_gpu_engine_b.kind = engine_kind_t.gpu) :=
  ⟨by decide, by decide, by decide, by decide,
    get_reorder_engine_assertions_hold (fun k => k == 1) example_gpu_engine
      example_gpu_engine_b (by decide) (by decide) (by decide) (true, true) (by decide)⟩

/-- The pointers `src_md` and `dst_md` of the forward descriptor return point
to the descriptors the value-level methods give. -/
theorem fwd_md_ref_deref (pd : batch_normalization_fwd_pd_t) (index : Int) :
    (pd.src_md_ref index).deref pd.tobatch_normalization_pd_t = pd.src_md index
    ∧ (pd.dst_md_ref index).deref pd.tobatch_normalization_pd_t = pd.dst_md index := by
  unfold batch_normalization_fwd_pd_t.src_md_ref batch_normalization_fwd_pd_t.dst_md_ref
    batch_normalization_fwd_pd_t.src_md batch_normalization_fwd_pd_t.dst_md
  constructor <;> split_ifs <;> rfl

/-- C34. For every forward batch-normalization descriptor and each of the
arguments MEAN and VARIANCE, the pointer `arg_md` returns is the address of the
statistics descriptor `stat_md_` exactly when `arg_usage` classifies the
argument as input or output, and the address of `glob_zero_md` exactly when it
classifies it as unused; the two arguments resolve to the same pointer, hence
to the same descriptor, which is `stat_md_` when the argument is used and the
zero descriptor when it is not. -/
theorem fwd_arg_md_statistics (base_arg_md : Int → md_ref_t)
    (pd : batch_normalization_fwd_pd_t) :
    (pd.arg_md base_arg_md DNNL_ARG_MEAN = md_ref_t.stat_md_
        ↔ (pd.arg_usage DNNL_ARG_MEAN = arg_usage_t.input
            ∨ pd.arg_usage DNNL_ARG_MEAN = arg_usage_t.output))
    ∧ (pd.arg_md base_arg_md DNNL_ARG_MEAN = md_ref_t.glob_zero_md
        ↔ pd.arg_usage DNNL_ARG_MEAN = arg_usage_t.unused)
    ∧ (pd.arg_md base_arg_md DNNL_ARG_VARIANCE = md_ref_t.stat_md_
        ↔ (pd.arg_usage DNNL_ARG_VARIANCE = arg_usage_t.input
            ∨ pd.arg_usage DNNL_ARG_VARIANCE = arg_usage_t.output))
    ∧ (pd.arg_md base_arg_md DNNL_ARG_VARIANCE = md_ref_t.glob_zero_md
        ↔ pd.arg_usage DNNL_ARG_VARIANCE = arg_usage_t.unused)
    ∧ pd.arg_md base_arg_md DNNL_ARG_MEAN = pd.arg_md base_arg_md DNNL_ARG_VARIANCE
    ∧ (pd.arg_md base_arg_md DNNL_ARG_MEAN).deref pd.tobatch_normalization_pd_t
        = (if pd.arg_usage DNNL_ARG_MEAN = arg_usage_t.unused then glob_zero_md
           else pd.stat_md_)
    ∧ (pd.arg_md base_arg_md DNNL_ARG_MEAN).deref pd.tobatch_normalization_pd_t
        = (if pd.stats_is_src then pd.src_md 1 else pd.dst_md 1)
    ∧ (pd.arg_md base_arg_md DNNL_ARG_VARIANCE).deref pd.tobatch_normalization_pd_t
        = (if pd.stats_is_src then pd.src_md 2 else pd.dst_md 2) := by
  cases hs : pd.stats_is_src <;> cases ht : pd.is_training <;>
    simp [batch_normalization_fwd_pd_t.arg_md, batch_normalization_fwd_pd_t.arg_usage,
      batch_normalization_fwd_pd_t.src_md_ref, batch_normalization_fwd_pd_t.dst_md_ref,
      batch_normalization_fwd_pd_t.src_md, batch_normalization_fwd_pd_t.dst_md,
      md_ref_t.deref, DNNL_ARG_SRC, DNNL_ARG_DST, DNNL_ARG_MEAN, DNNL_ARG_VARIANCE, hs, ht]

/-- C35. For every backward batch-normalization descriptor, `diff_src_md(0)`
and `diff_dst_md(0)` are the same memory descriptor, the member
`diff_data_md_`, and both methods return the zero descriptor for every index
other than 0. -/
theorem bwd_diff_src_md_eq_diff_dst_md (pd : batch_normalization_bwd_pd_t) :
    pd.diff_src_md 0 = pd.diff_dst_md 0
    ∧ pd.diff_src_md 0 = pd.diff_data_md_
    ∧ ∀ index : Int, index ≠ 0 →
        pd.diff_src_md index = glob_zero_md ∧ pd.diff_dst_md index = glob_zero_md := by
  refine ⟨?_, ?_, ?_⟩
  · simp [batch_normalization_bwd_pd_t.diff_src_md, batch_normalization_bwd_pd_t.diff_dst_md]
  · simp [batch_normalization_bwd_pd_t.diff_src_md]
  · intro index h
    simp [batch_normalization_bwd_pd_t.diff_src_md, batch_normalization_bwd_pd_t.diff_dst_md, h]

/-- C36. For every batch-normalization descriptor whose data descriptor has
between 2 and 5 dimensions, `MB() * C() * D() * H() * W()` is the product of
the logical sizes `dims[0], ..., dims[ndims - 1]` of the data descriptor. -/
theorem bnorm_sizes_product (pd : batch_normalization_pd_t)
    (h2 : 2 ≤ pd.ndims) (h5 : pd.ndims ≤ 5) :
    pd.MB * pd.C * pd.D * pd.H * pd.W
      = array_product pd.desc_.data_desc.dims pd.ndims := by
  unfold batch_normalization_pd_t.MB batch_normalization_pd_t.C batch_normalization_pd_t.D
    batch_normalization_pd_t.H batch_normalization_pd_t.W array_product
  generalize hn : pd.ndims = nd at h2 h5
  have hcases : nd = 2 ∨ nd = 3 ∨ nd = 4 ∨ nd = 5 := by omega
  rcases hcases with h | h | h | h <;> subst h <;>
    simp [List.range_succ, List.range_zero] <;> ring

/-- C36 at the descriptor over the dense 2 x 3 data: the five sizes are 2, 3,
1, 1, 1 and their product is 6. -/
theorem bnorm_sizes_product_witness :
    2 ≤ (batch_normalization_pd_t.create
          (example_bnorm_desc prop_kind_t.forward_training example_plain_md 0)
          default_attr).ndims
    ∧ (batch_normalization_pd_t.create
          (example_bnorm_desc prop_kind_t.forward_training example_plain_md 0)
          default_attr).ndims ≤ 5
    ∧ array_product (batch_normalization_pd_t.create
          (example_bnorm_desc prop_kind_t.forward_training example_plain_md 0)
          default_attr).desc_.data_desc.dims 2 = 6
    ∧ (batch_normalization_pd_t.create
          (example_bnorm_desc prop_kind_t.forward_training example_plain_md 0)
          default_attr).MB
        * (batch_normalization_pd_t.create
          (example_bnorm_desc prop_kind_t.forward_training example_plain_md 0)
          default_attr).C
        * (batch_normalization_pd_t.create
          (example_bnorm_desc prop_kind_t.forward_training example_plain_md 0)
          default_attr).D
        * (batch_normalization_pd_t.create
          (example_bnorm_desc prop_kind_t.forward_training example_plain_md 0)
          default_attr).H
        * (batch_normalization_pd_t.create
          (example_bnorm_desc prop_kind_t.forward_training example_plain_md 0)
          default_attr).W
      = array_product (batch_normalization_pd_t.create
          (example_bnorm_desc prop_kind_t.forward_training example_plain_md 0)
          default_attr).desc_.data_desc.dims
        (batch_normalization_pd_t.create
          (example_bnorm_desc prop_kind_t.forward_training example_plain_md 0)
          default_attr).ndims :=
  ⟨by decide, by decide, by decide,
    bnorm_sizes_product _ (by decide) (by decide)⟩

/-! ## Termination of the dispatch loop on the candidate lists -/

/-- A call of `dnnl_reorder_primitive_desc_create` is rejected by the
validation, no candidate having been invoked, or runs the loop over the
candidate array of some engine. -/
theorem reorder_create_cases (env : dispatch_env) (c : reorder_call) :
    dnnl_reorder_primitive_desc_create env c
        = some { status := status_t.invalid_arguments, written := none, invoked := [],
                 deleted := false }
    ∨ ∃ (e : engine_t) (attr : primitive_attr_t) (se : engine_t) (sm : memory_desc_t)
        (de : engine_t) (dm : memory_desc_t),
        dnnl_reorder_primitive_desc_create env c
          = reorder_dispatch_loop env.new_succeeds e attr se sm de dm
              (env.get_reorder_implementation_list e sm dm) 0 [] := by
  obtain ⟨p, sm, se, dm, de, at_⟩ := c
  by_cases hnull : p = none ∨ se = none ∨ sm = none ∨ de = none ∨ dm = none
  · exact Or.inl (reorder_create_null env
      { reorder_pd_iface := p, src_md := sm, src_engine := se, dst_md := dm,
        dst_engine := de, attr := at_ } hnull)
  · cases p with
    | none => exact absurd (Or.inl rfl) hnull
    | some u =>
    cases se with
    | none => exact absurd (Or.inr (Or.inl rfl)) hnull
    | some s =>
    cases sm with
    | none => exact absurd (Or.inr (Or.inr (Or.inl rfl))) hnull
    | some m1 =>
    cases de with
    | none => exact absurd (Or.inr (Or.inr (Or.inr (Or.inl rfl)))) hnull
    | some d =>
    cases dm with
    | none => exact absurd (Or.inr (Or.inr (Or.inr (Or.inr rfl)))) hnull
    | some m2 =>
    cases u
    by_cases hk : s.kind ≠ d.kind ∧ s.kind ≠ engine_kind_t.cpu ∧ d.kind ≠ engine_kind_t.cpu
    · exact Or.inl (reorder_create_kind_mismatch env s d m1 m2 at_ hk.1 hk.2.1 hk.2.2)
    · have hkind : s.kind ≠ d.kind →
          s.kind = engine_kind_t.cpu ∨ d.kind = engine_kind_t.cpu := by
        intro hne
        by_contra hc
        exact hk ⟨hne, fun h1 => hc (Or.inl h1), fun h1 => hc (Or.inr h1)⟩
      by_cases hcons : env.consistent_with m1 m2 = true
      · exact Or.inr ⟨_, _, _, _, _, _, reorder_create_valid env s d m1 m2 at_ hkind hcons⟩
      · exact Or.inl (reorder_create_inconsistent env s d m1 m2 at_ hkind
          (by simpa using hcons))

/-- The loop over an array whose first `nullptr` follows `pre.length`
candidates returns after invoking at most those candidates, in order from the
first. -/
theorem reorder_dispatch_loop_bound (new_succeeds : Bool) (e : engine_t)
    (attr : primitive_attr_t) (src_engine : engine_t) (src_md : memory_desc_t)
    (dst_engine : engine_t) (dst_md : memory_desc_t) (post : List (Option rpd_create_f)) :
    ∀ (pre : List rpd_create_f) (pos : Nat) (invoked : List Nat),
      ∃ out j, reorder_dispatch_loop new_succeeds e attr src_engine src_md dst_engine dst_md
          (pre.map some ++ none :: post) pos invoked = some out
        ∧ j ≤ pre.length ∧ out.invoked = invoked ++ List.range' pos j := by
  intro pre
  induction pre with
  | nil =>
    intro pos invoked
    exact ⟨_, 0, rfl, Nat.le_refl _, by simp⟩
  | cons g pre ih =>
    intro pos invoked
    by_cases hg : (g e attr src_engine src_md dst_engine dst_md).1 = status_t.success
    · refine ⟨_, 1, reorder_dispatch_loop_accept new_succeeds e attr src_engine src_md
        dst_engine dst_md g (pre.map some ++ none :: post) hg [] pos invoked
        (fun _ hh => absurd hh (List.not_mem_nil _)), ?_, ?_⟩
      · simp
      · simp
    · obtain ⟨out, j, hout, hj, hinv⟩ := ih (pos + 1) (invoked ++ [pos])
      refine ⟨out, j + 1, ?_, ?_, ?_⟩
      · rw [List.map_cons, List.cons_append,
          reorder_dispatch_loop_step _ _ _ _ _ _ _ _ _ _ _ hg]
        exact hout
      · simp only [List.length_cons]
        omega
      · rw [hinv]
        simp [List.range'_succ]

/-- The array of a run of entries none of which is the terminator holds the
factories of the entries, in order, and no `nullptr`. -/
theorem reorder_candidate_array_no_null (factories : reorder_entry_t → List rpd_create_f) :
    ∀ l : List reorder_entry_t, reorder_entry_t.null ∉ l →
      reorder_candidate_array factories l = (l.flatMap factories).map some := by
  intro l
  induction l with
  | nil => intro _; rfl
  | cons e l ih =>
    intro h
    have he : e ≠ reorder_entry_t.null := fun hh => h (hh ▸ List.mem_cons_self e l)
    have hl := ih (fun hx => h (List.mem_cons_of_mem e hx))
    unfold reorder_candidate_array at hl ⊢
    rw [List.flatMap_cons, List.flatMap_cons, List.map_append, hl]
    cases e <;> simp_all

/-- C33. Each of the CPU reorder candidate lists `f32_s32_0`, `s32_undef_0`,
`f32_s8_3` and `s8_s8_6` contains `nullptr` exactly once, as its last element,
and so does the array of factories it compiles to, whatever factories the
registration macros expand to. Hence the dispatch loop of
`dnnl_reorder_primitive_desc_create` over such an array returns, having invoked
at most (length of the array - 1) candidates, each at a position before the
terminator; and a call of the function on an engine with that array returns
with at most that many invocations. -/
theorem reorder_lists_null_terminated (factories : reorder_entry_t → List rpd_create_f)
    (list : List reorder_entry_t)
    (hl : list = f32_s32_0 ∨ list = s32_undef_0 ∨ list = f32_s8_3 ∨ list = s8_s8_6) :
    list.count reorder_entry_t.null = 1
    ∧ list.getLast? = some reorder_entry_t.null
    ∧ (∃ pre : List rpd_create_f,
        reorder_candidate_array factories list = pre.map some ++ [none])
    ∧ (∀ (new_succeeds : Bool) (e : engine_t) (attr : primitive_attr_t)
        (src_engine : engine_t) (src_md : memory_desc_t) (dst_engine : engine_t)
        (dst_md : memory_desc_t),
        ∃ out, reorder_dispatch_loop new_succeeds e attr src_engine src_md dst_engine dst_md
            (reorder_candidate_array factories list) 0 [] = some out
          ∧ out.invoked.length ≤ (reorder_candidate_array factories list).length - 1
          ∧ ∀ p ∈ out.invoked, p < (reorder_candidate_array factories list).length - 1)
    ∧ (∀ (env : dispatch_env) (c : reorder_call),
        (∀ e s d, env.get_reorder_implementation_list e s d
            = reorder_candidate_array factories list) →
        ∃ out, dnnl_reorder_primitive_desc_create env c = some out
          ∧ out.invoked.length ≤ (reorder_candidate_array factories list).length - 1) := by
  have hsplit : ∃ init : List reorder_entry_t,
      list = init ++ [reorder_entry_t.null] ∧ reorder_entry_t.null ∉ init := by
    rcases hl with h | h | h | h <;> subst h
    · exact ⟨f32_s32_0.dropLast, by decide, by decide⟩
    · exact ⟨s32_undef_0.dropLast, by decide, by decide⟩
    · exact ⟨f32_s8_3.dropLast, by decide, by decide⟩
    · exact ⟨s8_s8_6.dropLast, by decide, by decide⟩
  have hcount : list.count reorder_entry_t.null = 1
      ∧ list.getLast? = some reorder_entry_t.null := by
    rcases hl with h | h | h | h <;> subst h <;> exact ⟨by decide, by decide⟩
  obtain ⟨init, hinit, hno⟩ := hsplit
  have harr : reorder_candidate_array factories list
      = (init.flatMap factories).map some ++ [none] := by
    rw [hinit, reorder_candidate_array_append, reorder_candidate_array_no_null factories init hno]
    rfl
  have hloop : ∀ (new_succeeds : Bool) (e : engine_t) (attr : primitive_attr_t)
      (src_engine : engine_t) (src_md : memory_desc_t) (dst_engine : engine_t)
      (dst_md : memory_desc_t),
      ∃ out, reorder_dispatch_loop new_succeeds e attr src_engine src_md dst_engine dst_md
          (reorder_candidate_array factories list) 0 [] = some out
        ∧ out.invoked.length ≤ (reorder_candidate_array factories list).length - 1
        ∧ ∀ p ∈ out.invoked, p < (reorder_candidate_array factories list).length - 1 := by
    intro new_succeeds e attr src_engine src_md dst_engine dst_md
    obtain ⟨out, j, hout, hj, hinv⟩ := reorder_dispatch_loop_bound new_succeeds e attr
      src_engine src_md dst_engine dst_md [] (init.flatMap factories) 0 []
    have hlen : (reorder_candidate_array factories list).length - 1
        = (init.flatMap factories).length := by
      rw [harr]
      simp
    refine ⟨out, ?_, ?_, ?_⟩
    · rw [harr]
      exact hout
    · rw [hlen, hinv]
      simpa using hj
    · intro p hp
      rw [hlen]
      rw [hinv] at hp
      simp only [List.nil_append, List.mem_range'_1] at hp
      omega
  refine ⟨hcount.1, hcount.2, ⟨_, harr⟩, hloop, ?_⟩
  intro env c henv
  rcases reorder_create_cases env c with h | ⟨e, attr, se, sm, de, dm, h⟩
  · exact ⟨_, h, by simp⟩
  · obtain ⟨out, hout, hb, _⟩ := hloop env.new_succeeds e attr se sm de dm
    refine ⟨out, ?_, hb⟩
    rw [h, henv]
    exact hout

/-- C33 at the list `s32_undef_0` compiled with an expansion of one factory per
macro entry: the array has 14 entries, the last one `nullptr`, and the loop
returns after at most 13 invocations. -/
theorem reorder_lists_null_terminated_witness :
    (s32_undef_0 = f32_s32_0 ∨ s32_undef_0 = s32_undef_0 ∨ s32_undef_0 = f32_s8_3
        ∨ s32_undef_0 = s8_s8_6)
    ∧ (reorder_candidate_array example_factories s32_undef_0).length = 14
    ∧ (s32_undef_0.count reorder_entry_t.null = 1
      ∧ s32_undef_0.getLast? = some reorder_entry_t.null
      ∧ (∃ pre : List rpd_create_f,
          reorder_candidate_array example_factories s32_undef_0 = pre.map some ++ [none])
      ∧ (∀ (new_succeeds : Bool) (e : engine_t) (attr : primitive_attr_t)
          (src_engine : engine_t) (src_md : memory_desc_t) (dst_engine : engine_t)
          (dst_md : memory_desc_t),
          ∃ out, reorder_dispatch_loop new_succeeds e attr src_engine src_md dst_engine dst_md
              (reorder_candidate_array example_factories s32_undef_0) 0 [] = some out
            ∧ out.invoked.length
                ≤ (reorder_candidate_array example_factories s32_undef_0).length - 1
            ∧ ∀ p ∈ out.invoked,
                p < (reorder_candidate_array example_factories s32_undef_0).length - 1)
      ∧ (∀ (env : dispatch_env) (c : reorder_call),
          (∀ e s d, env.get_reorder_implementation_list e s d
              = reorder_candidate_array example_factories s32_undef_0) →
          ∃ out, dnnl_reorder_primitive_desc_create env c = some out
            ∧ out.invoked.length
                ≤ (reorder_candidate_array example_factories s32_undef_0).length - 1)) :=
  ⟨Or.inr (Or.inl rfl), by rfl,
    reorder_lists_null_terminated example_factories s32_undef_0 (Or.inr (Or.inl rfl))⟩

/-! ## The blocked path of the generic softmax kernels -/

/-- The value of `MEDIUM`. -/
theorem MEDIUM_eq : MEDIUM = 4096 := by
  norm_num [MEDIUM, MVL]

/-- The two expressions for the block length are the same function. -/
theorem cmax_by_remainder_eq_by_start (channels_ c0 : Int) :
    cmax_by_remainder channels_ c0 = cmax_by_start channels_ c0 := by
  unfold cmax_by_remainder cmax_by_start
  split_ifs <;> omega

/-- An `int` expression whose value over the integers is in the range of `int`
has that value. -/
theorem wrap_int_eq (x : Int) (h0 : -2147483648 ≤ x) (h1 : x ≤ 2147483647) :
    wrap_int x = x := by
  unfold wrap_int
  omega

/-- From a block start `c0 >= 0` on, a pass of the blocked branch over at most
2147479552 channels computes the offsets of the channels
`c0, c0 + 1, ..., channels_ - 1`, in that order, once the fuel covers the
channels left. -/
theorem blocked_pass_offsets_from (channels_ inner_size_ ou_in_offset : Int)
    (hmax : channels_ ≤ 2147479552) :
    ∀ (fuel : Nat) (c0 : Int), 0 ≤ c0 → (channels_ - c0).toNat ≤ fuel →
      blocked_pass_offsets cmax_by_remainder channels_ inner_size_ ou_in_offset fuel c0
        = some ((List.range (channels_ - c0).toNat).map
            (fun (c : Nat) => ou_in_offset + (c0 + (c : Int)) * inner_size_)) := by
  intro fuel
  induction fuel with
  | zero =>
    intro c0 _ h
    have h0 : (channels_ - c0).toNat = 0 := by omega
    have hc : ¬ c0 < channels_ := by omega
    simp [blocked_pass_offsets, hc, h0]
  | succ fuel ih =>
    intro c0 hc0 h
    by_cases hc : c0 < channels_
    · have hM := MEDIUM_eq
      have hfuel : (channels_ - (c0 + MEDIUM)).toNat ≤ fuel := by omega
      have hnext : wrap_int (c0 + MEDIUM) = c0 + MEDIUM := wrap_int_eq _ (by omega) (by omega)
      simp only [blocked_pass_offsets, hc, if_true, hnext, ih (c0 + MEDIUM) (by omega) hfuel,
        Option.map_some']
      congr 1
      have hinner : ∀ L : Nat, (L : Int) ≤ channels_ - c0 →
          (List.range L).map
              (fun (c : Nat) => ou_in_offset + wrap_int (c0 + (c : Int)) * inner_size_)
            = (List.range L).map
              (fun (c : Nat) => ou_in_offset + (c0 + (c : Int)) * inner_size_) := by
        intro L hL
        apply List.map_congr_left
        intro c hcmem
        have hcl : c < L := List.mem_range.mp hcmem
        rw [wrap_int_eq _ (by omega) (by omega)]
      by_cases hbig : channels_ - c0 > MEDIUM
      · have hcm : (cmax_by_remainder channels_ c0).toNat = 4096 := by
          have hb : (4096 : Int) < channels_ - c0 := by omega
          simp [cmax_by_remainder, hM, hb]
        have hsum : (channels_ - c0).toNat = 4096 + (channels_ - (c0 + MEDIUM)).toNat := by
          omega
        rw [hcm, hinner 4096 (by omega), hsum, List.range_add, List.map_append, List.map_map]
        congr 1
        apply List.map_congr_left
        intro c _
        simp only [Function.comp]
        rw [hM]
        push_cast
        ring
      · have hcm : (cmax_by_remainder channels_ c0).toNat = (channels_ - c0).toNat := by
          simp [cmax_by_remainder, hbig]
        have hz : (channels_ - (c0 + MEDIUM)).toNat = 0 := by omega
        rw [hcm, hinner (channels_ - c0).toNat (by omega), hz]
        simp
    · have h0 : (channels_ - c0).toNat = 0 := by omega
      simp [blocked_pass_offsets, hc, h0]

/-- With 2147483647 channels the block start of a pass of the blocked branch
runs through the multiples of `MEDIUM` from -2^31 to 2147479552 for ever: from
such a start the loop does not end, whatever the fuel. -/
theorem blocked_pass_offsets_cycle (cmax : Int → Int → Int)
    (inner_size_ ou_in_offset : Int) :
    ∀ (fuel : Nat) (c0 : Int), -2147483648 ≤ c0 → c0 ≤ 2147479552 → c0 % 4096 = 0 →
      blocked_pass_offsets cmax 2147483647 inner_size_ ou_in_offset fuel c0 = none := by
  intro fuel
  induction fuel with
  | zero =>
    intro c0 _ h1 _
    have hc : c0 < 2147483647 := by omega
    simp [blocked_pass_offsets, hc]
  | succ fuel ih =>
    intro c0 h0 h1 h2
    have hc : c0 < 2147483647 := by omega
    have hM := MEDIUM_eq
    have hnext : -2147483648 ≤ wrap_int (c0 + MEDIUM) ∧ wrap_int (c0 + MEDIUM) ≤ 2147479552
        ∧ wrap_int (c0 + MEDIUM) % 4096 = 0 := by
      unfold wrap_int
      omega
    simp only [blocked_pass_offsets, hc, if_true,
      ih (wrap_int (c0 + MEDIUM)) hnext.1 hnext.2.1 hnext.2.2, Option.map_none']

/-- C37, for channel counts up to 2147479552. In the blocked path of the
generic softmax kernels, for every `channels_` from 0 to 2147479552 (the
largest count for which `c0 += MEDIUM` stays in the range of `int`): at every
block start `c0 = j * MEDIUM < channels_` the two expressions for the block
length agree and give `1 <= cmax <= MEDIUM`; and a pass of the blocked loop,
with either expression, ends (within `channels_` blocks) having computed the
offsets `ou_in_offset + c * inner_size_` for `c = 0, 1, ..., channels_ - 1`,
each once and in increasing order of `c`: the sequence of the original
unblocked loop. With `inner_size_ = 1` and `ou_in_offset = 0` the sequence is
that of the channel indices themselves. -/
theorem blocked_pass_refines_original (channels_ : Int) (_hch : 0 ≤ channels_)
    (hmax : channels_ ≤ 2147479552) :
    (∀ j : Nat, (j : Int) * MEDIUM < channels_ →
      cmax_by_remainder channels_ ((j : Int) * MEDIUM)
          = cmax_by_start channels_ ((j : Int) * MEDIUM)
        ∧ 1 ≤ cmax_by_remainder channels_ ((j : Int) * MEDIUM)
        ∧ cmax_by_remainder channels_ ((j : Int) * MEDIUM) ≤ MEDIUM)
    ∧ (∀ (inner_size_ ou_in_offset : Int) (fuel : Nat), channels_.toNat ≤ fuel →
        blocked_pass_offsets cmax_by_remainder channels_ inner_size_ ou_in_offset fuel 0
            = some (original_pass_offsets channels_ inner_size_ ou_in_offset)
          ∧ blocked_pass_offsets cmax_by_start channels_ inner_size_ ou_in_offset fuel 0
            = some (original_pass_offsets channels_ inner_size_ ou_in_offset))
    ∧ original_pass_offsets channels_ 1 0
        = (List.range channels_.toNat).map (fun (c : Nat) => (c : Int)) := by
  refine ⟨?_, ?_, ?_⟩
  · intro j hj
    refine ⟨cmax_by_remainder_eq_by_start _ _, ?_, ?_⟩
    · unfold cmax_by_remainder
      have hM := MEDIUM_eq
      split_ifs <;> omega
    · unfold cmax_by_remainder
      split_ifs <;> omega
  · intro inner_size_ ou_in_offset fuel hfuel
    have hfun : cmax_by_start = cmax_by_remainder := by
      funext a b
      exact (cmax_by_remainder_eq_by_start a b).symm
    have h := blocked_pass_offsets_from channels_ inner_size_ ou_in_offset hmax fuel 0
      (le_refl _) (by simpa using hfuel)
    have hlist : (List.range (channels_ - 0).toNat).map
          (fun (c : Nat) => ou_in_offset + (0 + (c : Int)) * inner_size_)
        = original_pass_offsets channels_ inner_size_ ou_in_offset := by
      unfold original_pass_offsets
      simp
    rw [hfun]
    rw [hlist] at h
    exact ⟨h, h⟩
  · unfold original_pass_offsets
    simp

/-- C37 at 10000 channels: the block starts are 0, 4096 and 8192, the block
lengths 4096, 4096 and 1808, and the blocked pass visits the offsets of the
original loop. -/
theorem blocked_pass_refines_original_witness :
    (0 : Int) ≤ 10000 ∧ (10000 : Int) ≤ 2147479552
    ∧ cmax_by_remainder 10000 8192 = 1808
    ∧ cmax_by_start 10000 8192 = 1808
    ∧ ((∀ j : Nat, (j : Int) * MEDIUM < 10000 →
        cmax_by_remainder 10000 ((j : Int) * MEDIUM)
            = cmax_by_start 10000 ((j : Int) * MEDIUM)
          ∧ 1 ≤ cmax_by_remainder 10000 ((j : Int) * MEDIUM)
          ∧ cmax_by_remainder 10000 ((j : Int) * MEDIUM) ≤ MEDIUM)
      ∧ (∀ (inner_size_ ou_in_offset : Int) (fuel : Nat), (10000 : Int).toNat ≤ fuel →
          blocked_pass_offsets cmax_by_remainder 10000 inner_size_ ou_in_offset fuel 0
              = some (original_pass_offsets 10000 inner_size_ ou_in_offset)
            ∧ blocked_pass_offsets cmax_by_start 10000 inner_size_ ou_in_offset fuel 0
              = some (original_pass_offsets 10000 inner_size_ ou_in_offset))
      ∧ original_pass_offsets 10000 1 0
          = (List.range (10000 : Int).toNat).map (fun (c : Nat) => (c : Int))) :=
  ⟨by decide, by decide, by decide, by decide,
    blocked_pass_refines_original 10000 (by decide) (by decide)⟩

/-- C37 as stated fails for the channel counts from 2147479553 on: with
`channels_ = 2147483647` the block start `c0` reaches 2147479552, where
`c0 += MEDIUM` leaves the range of `int` and wraps to -2147483648, which is
again below `channels_`; the blocked loop, with either expression for the block
length, does not end, while the original loop
`for (int c = 0; c < channels_; c++)` ends after 2147483647 steps. -/
theorem blocked_pass_wraps_near_int_max :
    wrap_int (2147479552 + MEDIUM) = -2147483648
    ∧ (∀ (inner_size_ ou_in_offset : Int) (fuel : Nat),
        blocked_pass_offsets cmax_by_remainder 2147483647 inner_size_ ou_in_offset fuel 0
            = none
          ∧ blocked_pass_offsets cmax_by_start 2147483647 inner_size_ ou_in_offset fuel 0
            = none)
    ∧ (original_pass_offsets 2147483647 1 0).length = 2147483647 := by
  refine ⟨by decide, ?_, ?_⟩
  · intro inner_size_ ou_in_offset fuel
    exact ⟨blocked_pass_offsets_cycle _ inner_size_ ou_in_offset fuel 0 (by decide) (by decide)
        (by decide),
      blocked_pass_offsets_cycle _ inner_size_ ou_in_offset fuel 0 (by decide) (by decide)
        (by decide)⟩
  · simp [original_pass_offsets]

/-! ## Thread counts of the no-copy GEMM -/

/-- The value of `int_sqrt` is the integer square root. -/
theorem int_sqrt_eq_sqrt (nthr : Int) : int_sqrt nthr = (Nat.sqrt nthr.toNat : Nat) := by
  unfold int_sqrt
  congr 1
  apply le_antisymm
  · apply Nat.le_sqrt'.mpr
    have h : (fun r => r * r ≤ nthr.toNat)
        (Nat.findGreatest (fun r => r * r ≤ nthr.toNat) nthr.toNat) :=
      @Nat.findGreatest_spec 0 (fun r => r * r ≤ nthr.toNat) _ nthr.toNat (Nat.zero_le _)
        (by simp)
    simpa [sq] using h
  · exact Nat.le_findGreatest (Nat.sqrt_le_self _) (Nat.sqrt_le _)

/-- The truncated quotient of the larger count by the smaller is not above the
sum of the counts. -/
theorem exact_ratio_le (a b : Int) (ha : 1 ≤ a) (hb : 1 ≤ b) : exact_ratio a b ≤ a + b := by
  unfold exact_ratio
  split_ifs
  · rw [Int.tdiv_eq_ediv (by omega) (by omega)]
    have := Int.ediv_le_self b (show 0 ≤ a by omega)
    omega
  · rw [Int.tdiv_eq_ediv (by omega) (by omega)]
    have := Int.ediv_le_self a (show 0 ≤ b by omega)
    omega

end SxDnn
